import Mathlib

/-!
Request/response correlation and the OAuth login flow of mission-control.

A shallow embedding of the Go sources of `launch01/mission-control`:

* `hubspot-mcp-agent/mcp/client.go` : the subprocess JSON-RPC client (`Subprocess`);
* `internal/mcp/client.go`          : the HTTP JSON-RPC client (`HttpMcp`);
* `internal/storage/token.go`       : the token and its store;
* `internal/oauth/flow.go`          : the OAuth login / refresh flow;
* `internal/agent/agent.go`         : the agent gluing them together;
* `internal/logging/logger.go`      : redaction;
* `hubspot-mcp-agent/mcp-server-main.go` : the MCP server loop (`McpServer`).

Go strings are Lean `String`s, Go `int` and `time.Time` are `Int` (nanoseconds for
times and durations), `(T, error)` results are `Except String T`.  Library calls
whose outcome the program cannot determine (JSON decoding, the network, the
random generators, the clock) are explicit arguments of the definitions.  Two
pieces of the standard library are modelled where a property hangs on them: the
line scanner `bufio.Scanner` with its 64 KiB buffer, and the JSON form of a
token (`encoding/json` with `time.Time`).
-/

namespace MissionControl

/-! ## JSON-RPC envelopes (identical in both client packages) -/

/-- The Go type `json.RawMessage`: `none` is the nil slice of an absent member. -/
abbrev RawMessage := Option String

/-- The struct `JSONRPCError` (`Data` keeps the raw JSON of the member, if any). -/
structure JSONRPCError where
  Code : Int
  Message : String
  Data : Option String
deriving DecidableEq, Repr

/-- The struct `JSONRPCResponse`; `Error = none` is the nil pointer. -/
structure JSONRPCResponse where
  JSONRPC : String
  ID : String
  Result : RawMessage
  Error : Option JSONRPCError
deriving DecidableEq, Repr

/-- The struct `JSONRPCRequest`, generic in the `interface{}` carried as `Params`. -/
structure JSONRPCRequest (P : Type) where
  JSONRPC : String
  ID : String
  Method : String
  Params : P

/-- The verb `%d` of `fmt` applied to a Go `int`. -/
def fmtInt (n : Int) : String := toString n

/-! ## Line scanning (`bufio.Scanner`, as the reader of the subprocess client and
the MCP server use it) -/

/-- The constant `bufio.MaxScanTokenSize`: the size up to which the buffer of a
scanner made by `bufio.NewScanner` grows. -/
def MaxScanTokenSize : Nat := 64 * 1024

/-- The function `dropCR` of `bufio`: one carriage return at the end is removed. -/
def dropCR (line : String) : String :=
  match line.data.reverse with
  | c :: rest => if c = Char.ofNat 13 then String.mk rest.reverse else line
  | [] => line

/-- The tokens that the loop `for scanner.Scan()` sees through `scanner.Bytes()`,
given the lines of the input (the input cut at every newline, each line
without its newline).  The split function is `bufio.ScanLines`.  A line of
`MaxScanTokenSize` bytes or more never fits the buffer together with its
newline: there `Scan` reports false, with `ErrTooLong`, and the loop ends, so
neither that line nor any later one is seen. -/
def scanTokens : List String → List String
  | [] => []
  | line :: rest =>
    if line.utf8ByteSize < MaxScanTokenSize then dropCR line :: scanTokens rest else []

/-- The method `Scanner.Err` after the loop: nil at the end of the input. -/
def scanErr : List String → Option String
  | [] => none
  | line :: rest =>
    if line.utf8ByteSize < MaxScanTokenSize then scanErr rest
    else some "bufio.Scanner: token too long"

/-! ## The subprocess client (`hubspot-mcp-agent/mcp/client.go`) -/

namespace Subprocess

/-- The struct `Client`, reduced to what `Call`, `readResponses` and `Close` touch.
`responses` is the Go map from request id to response channel, kept as an
association list; a channel is a handle into `chans`, the heap of capacity-1
buffers made by `make(chan *JSONRPCResponse, 1)`.  `stdin` records the bytes
written to the child process so far. -/
structure Client where
  responses : List (String × Nat)
  chans : List (Option JSONRPCResponse)
  closed : Bool
  stdin : List String
deriving DecidableEq, Repr

/-- The client as `NewClient` leaves it: an empty map, nothing written. -/
def NewClient : Client :=
  { responses := [], chans := [], closed := false, stdin := [] }

/-- Map read `c.responses[id]` with the comma-ok form. -/
def mapGet (m : List (String × Nat)) (id : String) : Option Nat :=
  m.lookup id

/-- The builtin `delete(m, id)`. -/
def mapDelete (m : List (String × Nat)) (id : String) : List (String × Nat) :=
  m.filter (fun e => e.1 != id)

/-- Map write `m[id] = ch`: a Go map holds one entry per key. -/
def mapSet (m : List (String × Nat)) (id : String) (ch : Nat) : List (String × Nat) :=
  (id, ch) :: mapDelete m id

/-- Contents of the buffer of channel `ch`: `none` when it is empty (or when the
handle is dangling, the analogue of a nil channel). -/
def slot (chans : List (Option JSONRPCResponse)) (ch : Nat) : Option JSONRPCResponse :=
  chans[ch]?.join

/-- The send `ch <- v` on a capacity-1 channel without a parked receiver: it
succeeds when the buffer is empty and otherwise blocks (`none`); so does a send
on a handle that names no channel, as on a nil channel. -/
def chanSend (chans : List (Option JSONRPCResponse)) (ch : Nat) (v : JSONRPCResponse) :
    Option (List (Option JSONRPCResponse)) :=
  match chans[ch]? with
  | some none => some (chans.set ch (some v))
  | _ => none

/-- One iteration of the loop of `readResponses` on the line the scanner yielded.
`unmarshal` is `json.Unmarshal` into a `JSONRPCResponse`.  The result is `none`
when the iteration blocks inside the critical section. -/
def readLine (unmarshal : String → Option JSONRPCResponse) (c : Client) (line : String) :
    Option Client :=
  match unmarshal line with
  | none => some c
  | some response =>
    match mapGet c.responses response.ID with
    | some ch =>
      match chanSend c.chans ch response with
      | some chans => some { c with chans := chans, responses := mapDelete c.responses response.ID }
      | none => none
    | none => some c

/-- The loop of `readResponses` over the tokens the scanner yields, until `Scan`
reports false; the loop has no code after it, so the client is returned as the
last iteration left it. -/
def readResponses.loop (unmarshal : String → Option JSONRPCResponse) (c : Client) :
    List String → Option Client
  | [] => some c
  | line :: rest =>
    match readLine unmarshal c line with
    | some c1 => readResponses.loop unmarshal c1 rest
    | none => none

/-- The function `readResponses` on the lines the child process writes to its
standard output: the loop runs over the tokens of the scanner that `NewClient`
made with `bufio.NewScanner(stdout)`. -/
def readResponses (unmarshal : String → Option JSONRPCResponse) (c : Client)
    (stdout : List String) : Option Client :=
  readResponses.loop unmarshal c (scanTokens stdout)

/-- How far `Call` gets on its own: it returns early with an error, or it parks
on the receive from its response channel. -/
inductive CallStart where
  | returned (err : String)
  | waiting (responseChan : Nat)
deriving DecidableEq, Repr

/-- The method `Call` up to the receive `<-responseChan`.  `id` is the string of the
fresh UUID, `marshal` is `json.Marshal` and `write` is `c.stdin.Write`. -/
def Call.start {P : Type} (id : String) (marshal : JSONRPCRequest P → Except String String)
    (write : String → Except String Unit) (c : Client) (method : String) (params : P) :
    CallStart × Client :=
  if c.closed then (.returned "client is closed", c)
  else
    let request : JSONRPCRequest P := { JSONRPC := "2.0", ID := id, Method := method, Params := params }
    let responseChan := c.chans.length
    let c1 := { c with chans := c.chans ++ [none], responses := mapSet c.responses id responseChan }
    match marshal request with
    | .error err => (.returned ("failed to marshal request: " ++ err), c1)
    | .ok requestBytes =>
      let requestBytes := requestBytes ++ "\n"
      match write requestBytes with
      | .error err => (.returned ("failed to write request: " ++ err), c1)
      | .ok _ => (.waiting responseChan, { c1 with stdin := c1.stdin ++ [requestBytes] })

/-- The tail of `Call`, after the receive delivered `response`. -/
def Call.finish (response : JSONRPCResponse) : Except String RawMessage :=
  match response.Error with
  | some e => .error ("JSON-RPC error " ++ fmtInt e.Code ++ ": " ++ e.Message)
  | none => .ok response.Result

/-- The receive `<-responseChan` followed by the tail of `Call`: `none` while the
buffer is empty (the caller stays parked; the code never closes the channel). -/
def Call.await (c : Client) (responseChan : Nat) : Option (Except String RawMessage × Client) :=
  match slot c.chans responseChan with
  | some response => some (Call.finish response, { c with chans := c.chans.set responseChan none })
  | none => none

/-- The method `Close`, as far as the client's own state goes: it raises the
`closed` flag; closing the pipes and waiting for the child touch neither the
map nor any response channel. -/
def Close (c : Client) : Client :=
  { c with closed := true }

/-- A registry of pending calls: one entry per id, every registered call owns a
channel of its own, and nothing has been delivered into it yet. -/
def Pending (c : Client) : Prop :=
  (c.responses.map Prod.fst).Nodup ∧ (c.responses.map Prod.snd).Nodup ∧
    ∀ e ∈ c.responses, c.chans[e.2]? = some none

instance (c : Client) : Decidable (Pending c) := by
  unfold Pending; infer_instance

/-- The states the client can be in: `NewClient` made it, and since then callers
have run `Call` up to its receive, the reader has run iterations that did not
block, parked callers have taken a delivered response, and `Close` has run. -/
inductive Reachable : Client → Prop where
  | init : Reachable NewClient
  | call {P : Type} {c : Client} (id : String) (marshal : JSONRPCRequest P → Except String String)
      (write : String → Except String Unit) (method : String) (params : P) :
      Reachable c → Reachable (Call.start id marshal write c method params).2
  | read {c c1 : Client} (unmarshal : String → Option JSONRPCResponse) (line : String) :
      Reachable c → readLine unmarshal c line = some c1 → Reachable c1
  | receive {c c1 : Client} (responseChan : Nat) (r : Except String RawMessage) :
      Reachable c → Call.await c responseChan = some (r, c1) → Reachable c1
  | close {c : Client} : Reachable c → Reachable (Close c)

/-! ### Concrete data for the worked examples -/

/-- A response line carrying the result `1` for the call with id `a`. -/
def lineA : String := "\x7b\"jsonrpc\":\"2.0\",\"id\":\"a\",\"result\":1\x7d"

/-- A response line carrying the result `2` for the call with id `b`. -/
def lineB : String := "\x7b\"jsonrpc\":\"2.0\",\"id\":\"b\",\"result\":2\x7d"

/-- The response that `json.Unmarshal` decodes from `lineA`. -/
def respA : JSONRPCResponse := { JSONRPC := "2.0", ID := "a", Result := some "1", Error := none }

/-- The response that `json.Unmarshal` decodes from `lineB`. -/
def respB : JSONRPCResponse := { JSONRPC := "2.0", ID := "b", Result := some "2", Error := none }

/-- The decoder restricted to the two example lines; every other line is
rejected, as `json.Unmarshal` rejects `not json`. -/
def exampleUnmarshal (line : String) : Option JSONRPCResponse :=
  if line = lineA then some respA else if line = lineB then some respB else none

/-- As many spaces as the buffer of the scanner can hold. -/
def padding : String := String.mk (List.replicate MaxScanTokenSize ' ')

/-- The line `lineA` followed by `padding`: a well-formed response (JSON allows
white space after the value) of more than 64 KiB. -/
def longLineA : String := lineA ++ padding

/-- A line of more than 64 KiB that is no JSON. -/
def longJunk : String := "not json" ++ padding

/-- The decoder of the examples, which also knows `longLineA`. -/
def wideUnmarshal (line : String) : Option JSONRPCResponse :=
  if line = longLineA then some respA else exampleUnmarshal line

/-- The encoder `json.Marshal` on requests without parameters. -/
def exampleMarshal (r : JSONRPCRequest Unit) : Except String String :=
  .ok ("\x7b\"jsonrpc\":\"" ++ r.JSONRPC ++ "\",\"id\":\"" ++ r.ID ++ "\",\"method\":\"" ++
    r.Method ++ "\"\x7d")

/-- A healthy pipe: every write succeeds. -/
def writeOk (_ : String) : Except String Unit := .ok ()

/-- The pipe of a child that has exited: every write fails. -/
def writeBroken (_ : String) : Except String Unit := .error "write |1: broken pipe"

/-- The client after one `Call` with id `a` has parked. -/
def onePending : Client :=
  (Call.start "a" exampleMarshal writeOk NewClient "tools/list" ()).2

/-- The client after two `Call`s, with ids `a` and `b`, have parked. -/
def twoPending : Client :=
  (Call.start "b" exampleMarshal writeOk onePending "tools/list" ()).2

end Subprocess

/-! ## The HTTP client (`internal/mcp/client.go`) -/

namespace HttpMcp

/-- The struct `Client` (the `http.Client` inside it is the `roundTrip` of `Env`). -/
structure Client where
  baseURL : String
  authMode : String
  token : String
deriving DecidableEq, Repr

/-- The constructor `NewClient`: the token starts out empty. -/
def NewClient (baseURL authMode : String) : Client :=
  { baseURL := baseURL, authMode := authMode, token := "" }

/-- The method `SetToken`. -/
def SetToken (c : Client) (token : String) : Client :=
  { c with token := token }

/-- An `http.Request` as `Call` builds it. -/
structure Request where
  Method : String
  URL : String
  Header : List (String × String)
  Body : String
deriving DecidableEq, Repr

/-- The method `Header.Set`: the value replaces whatever the key held. -/
def headerSet (h : List (String × String)) (k v : String) : List (String × String) :=
  h.filter (fun e => e.1 != k) ++ [(k, v)]

/-- An `http.Response`: the status code and the outcome of `io.ReadAll(resp.Body)`. -/
structure Response where
  StatusCode : Int
  Body : Except String String

/-- What the surroundings decide for one `Call`: the UUID, `json.Marshal`, whether
`http.NewRequestWithContext` accepts the method and URL, the round trip
`c.httpClient.Do`, and `json.Unmarshal` of the reply. -/
structure Env (P : Type) where
  uuid : String
  marshal : JSONRPCRequest P → Except String String
  newRequest : String → String → Except String Unit
  roundTrip : Request → Except String Response
  unmarshal : String → Except String JSONRPCResponse

/-- The method `Call`.  Besides Go's `(json.RawMessage, error)` the result lists
the requests handed to `c.httpClient.Do`.  (`logging.Debug` is left out.) -/
def Call {P : Type} (env : Env P) (c : Client) (method : String) (params : P) :
    Except String RawMessage × List Request :=
  let request : JSONRPCRequest P :=
    { JSONRPC := "2.0", ID := env.uuid, Method := method, Params := params }
  match env.marshal request with
  | .error err => (.error ("failed to marshal request: " ++ err), [])
  | .ok reqBody =>
    match env.newRequest "POST" c.baseURL with
    | .error err => (.error ("failed to create request: " ++ err), [])
    | .ok _ =>
      let req : Request := { Method := "POST", URL := c.baseURL, Header := [], Body := reqBody }
      let req := { req with Header := headerSet req.Header "Content-Type" "application/json" }
      let req :=
        if c.token != "" then
          if c.authMode == "header" then
            { req with Header := headerSet req.Header "Authorization" ("Bearer " ++ c.token) }
          else req
        else req
      match env.roundTrip req with
      | .error err => (.error ("failed to make request: " ++ err), [req])
      | .ok resp =>
        match resp.Body with
        | .error err => (.error ("failed to read response: " ++ err), [req])
        | .ok body =>
          if resp.StatusCode != 200 then
            (.error ("MCP server returned status " ++ fmtInt resp.StatusCode ++ ": " ++ body), [req])
          else
            match env.unmarshal body with
            | .error err => (.error ("failed to unmarshal response: " ++ err), [req])
            | .ok response =>
              match response.Error with
              | some e => (.error ("MCP error " ++ fmtInt e.Code ++ ": " ++ e.Message), [req])
              | none => (.ok response.Result, [req])

/-- The struct `Tool`; `InputSchema` keeps the raw JSON of the member. -/
structure Tool where
  Name : String
  Description : String
  InputSchema : String
deriving DecidableEq, Repr

/-- The values the client passes to `Call` as `params`: the empty map of
`ListTools`, or the map with `name` and `arguments` of `CallTool`. -/
inductive Params (A : Type) where
  | empty
  | tool (name : String) (arguments : A)

/-- The method `Client.ListTools`; `unmarshalTools` is `json.Unmarshal` of the result
into the struct with the `tools` member (a nil result is the empty input). -/
def ListTools {A : Type} (env : Env (Params A))
    (unmarshalTools : String → Except String (List Tool)) (c : Client) :
    Except String (List Tool) × List Request :=
  match Call env c "tools/list" Params.empty with
  | (.error err, reqs) => (.error ("failed to list tools: " ++ err), reqs)
  | (.ok result, reqs) =>
    match unmarshalTools (result.getD "") with
    | .error err => (.error ("failed to parse tools response: " ++ err), reqs)
    | .ok tools => (.ok tools, reqs)

/-- The method `Client.CallTool`. -/
def CallTool {A : Type} (env : Env (Params A)) (c : Client) (name : String) (arguments : A) :
    Except String RawMessage × List Request :=
  Call env c "tools/call" (Params.tool name arguments)

/-- A reply body carrying both an error object and a result member. -/
def errorBody : String :=
  "\x7b\"jsonrpc\":\"2.0\",\"id\":\"x\",\"result\":1,\"error\":\x7b\"code\":-32601,\"message\":\"Method not found\"\x7d\x7d"

/-- The response that `json.Unmarshal` decodes from `errorBody`. -/
def errorResponse : JSONRPCResponse :=
  { JSONRPC := "2.0", ID := "x", Result := some "1",
    Error := some { Code := -32601, Message := "Method not found", Data := none } }

/-- Surroundings for the examples: the server answers every request with status
200 and `errorBody`. -/
def exampleEnv : Env Unit :=
  { uuid := "x"
    marshal := fun r => .ok ("\x7b\"id\":\"" ++ r.ID ++ "\",\"method\":\"" ++ r.Method ++ "\"\x7d")
    newRequest := fun _ _ => .ok ()
    roundTrip := fun _ => .ok { StatusCode := 200, Body := .ok errorBody }
    unmarshal := fun b => if b = errorBody then .ok errorResponse else .error "invalid character" }

end HttpMcp

/-! ## Query strings (`net/url` as used by `internal/oauth/flow.go`) -/

namespace Url

/-- The bytes of a Go string (its UTF-8 encoding). -/
def utf8 (s : String) : List Nat :=
  (s.data.flatMap String.utf8EncodeChar).map UInt8.toNat

/-- The digit table `upperhex` of `net/url`. -/
def hexDigit (n : Nat) : Char :=
  "0123456789ABCDEF".data.getD n '0'

/-- The predicate `shouldEscape(c, encodeQueryComponent)`: everything but the
ASCII letters, digits and `-`, `_`, `.`, `~` is escaped. -/
def shouldEscape (b : Nat) : Bool :=
  !((97 ≤ b && b ≤ 122) || (65 ≤ b && b ≤ 90) || (48 ≤ b && b ≤ 57) ||
    b == 45 || b == 95 || b == 46 || b == 126)

/-- One byte as `escape` emits it in query-component mode. -/
def escapeByte (b : Nat) : List Char :=
  if b = 32 then ['+']
  else if shouldEscape b then ['%', hexDigit (b / 16), hexDigit (b % 16)]
  else [Char.ofNat b]

/-- The characters of `url.QueryEscape(s)`. -/
def escapeChars (s : String) : List Char :=
  (utf8 s).flatMap escapeByte

/-- The function `url.QueryEscape`. -/
def QueryEscape (s : String) : String :=
  String.mk (escapeChars s)

/-- The type `url.Values` where every key holds one value, as `Set` leaves it. -/
abbrev Values := List (String × String)

/-- The method `Values.Set`. -/
def Values.Set (v : Values) (key value : String) : Values :=
  (key, value) :: v.filter (fun e => e.1 != key)

/-- Go's `<` on strings: lexicographic on the bytes. -/
def bytesLt : List Nat → List Nat → Bool
  | _, [] => false
  | [], _ :: _ => true
  | a :: as, b :: bs => decide (a < b) || (a == b && bytesLt as bs)

/-- Insertion into a key-sorted list. -/
def insertByKey (p : String × String) : List (String × String) → List (String × String)
  | [] => [p]
  | q :: qs => if bytesLt (utf8 q.1) (utf8 p.1) then q :: insertByKey p qs else p :: q :: qs

/-- The keys in the order in which `Encode` walks them (sorted). -/
def sortByKey (v : Values) : List (String × String) :=
  v.foldr insertByKey []

/-- One `key=value` piece of an encoded query. -/
def encodePair (p : String × String) : List Char :=
  escapeChars p.1 ++ '=' :: escapeChars p.2

/-- The pieces joined with `&`. -/
def encodeChars : List (String × String) → List Char
  | [] => []
  | [p] => encodePair p
  | p :: q :: rest => encodePair p ++ '&' :: encodeChars (q :: rest)

/-- The method `Values.Encode`: `key=value` pairs, sorted by key, joined by `&`. -/
def Values.Encode (v : Values) : String :=
  String.mk (encodeChars (sortByKey v))

/-! The receiving side, `url.ParseQuery`, used to say which parameters a query
string carries. -/

/-- The value of a hexadecimal digit (`unhex`), if it is one. -/
def unhex (c : Char) : Option Nat :=
  if '0' ≤ c ∧ c ≤ '9' then some (c.toNat - 48)
  else if 'a' ≤ c ∧ c ≤ 'f' then some (c.toNat - 97 + 10)
  else if 'A' ≤ c ∧ c ≤ 'F' then some (c.toNat - 65 + 10)
  else none

/-- The function `url.QueryUnescape`, producing bytes: `%XX` is decoded, `+` is a
space, a stray `%` is an error. -/
def unescape : List Char → Option (List Nat)
  | [] => some []
  | c :: rest =>
    if c = '%' then
      match rest with
      | a :: b :: rest2 =>
        match unhex a, unhex b, unescape rest2 with
        | some x, some y, some r => some ((16 * x + y) :: r)
        | _, _, _ => none
      | _ => none
    else if c = '+' then (unescape rest).map (fun r => 32 :: r)
    else (unescape rest).map (fun r => (String.utf8EncodeChar c).map UInt8.toNat ++ r)

/-- The function `strings.Cut(s, sep)` without its flag: the text before the
first `sep` and the text after it (empty when there is none). -/
def cut (sep : Char) : List Char → List Char × List Char
  | [] => ([], [])
  | c :: cs => if c = sep then ([], cs) else ((cut sep cs).1.cons c, (cut sep cs).2)

/-- The pieces of a query between `&`s. -/
def splitAmp : List Char → List (List Char)
  | [] => [[]]
  | c :: cs =>
    if c = '&' then [] :: splitAmp cs
    else
      match splitAmp cs with
      | [] => [[c]]
      | h :: t => (c :: h) :: t

/-- One piece of a query decoded as `ParseQuery` does: cut at the first `=`,
both halves unescaped; a piece containing `;` is an error. -/
def parsePiece (piece : List Char) : Option (List Nat × List Nat) :=
  if ';' ∈ piece then none
  else
    match unescape (cut '=' piece).1, unescape (cut '=' piece).2 with
    | some k, some v => some (k, v)
    | _, _ => none

/-- The loop of `url.ParseQuery` over the pieces: the parameters as bytes, in
order of appearance; empty pieces are skipped, `none` is a decoding error. -/
def parsePieces : List (List Char) → Option (List (List Nat × List Nat))
  | [] => some []
  | piece :: rest =>
    if piece.isEmpty then parsePieces rest
    else
      match parsePiece piece, parsePieces rest with
      | some kv, some r => some (kv :: r)
      | _, _ => none

/-- The function `url.ParseQuery` on a query string. -/
def ParseQuery (query : String) : Option (List (List Nat × List Nat)) :=
  parsePieces (splitAmp query.data)

/-- The value of parameter `key` in a decoded query (`Values.Get` without the
default), if the query has that parameter. -/
def param (q : Option (List (List Nat × List Nat))) (key : String) : Option (List Nat) :=
  q.bind (fun ps => ps.lookup (utf8 key))

end Url

/-! ## Tokens and their store (`internal/storage/token.go`) -/

/-- The constant `time.Second`; times and durations are counted in nanoseconds. -/
def Second : Int := 1000000000

/-- The constant `time.Minute`. -/
def Minute : Int := 60 * Second

/-- The constant `time.Hour`. -/
def Hour : Int := 60 * Minute

/-- Arithmetic of Go's `int64` (and of `time.Duration`): results wrap modulo `2^64`. -/
def wrapInt64 (x : Int) : Int :=
  (x + 2 ^ 63) % 2 ^ 64 - 2 ^ 63

/-- The struct `Token`; `ExpiresAt` is an instant in nanoseconds. -/
structure Token where
  AccessToken : String
  RefreshToken : String
  ExpiresAt : Int
deriving DecidableEq, Repr

/-- The method `Token.IsExpired`, `time.Now().After(t.ExpiresAt)`, at clock reading `now`. -/
def Token.IsExpired (t : Token) (now : Int) : Bool :=
  decide (now > t.ExpiresAt)

/-- The method `Token.IsExpiringSoon`, `time.Now().Add(d).After(t.ExpiresAt)`, at
clock reading `now` (`Time.Add` is exact for every instant a clock can show). -/
def Token.IsExpiringSoon (t : Token) (now : Int) (d : Int) : Bool :=
  decide (now + d > t.ExpiresAt)

/-- The struct `TokenStorage`; the path of the token file is fixed by
`NewTokenStorage`, so only the choice of backend is kept. -/
structure TokenStorage where
  useKeyring : Bool
deriving DecidableEq, Repr

/-- What a backend holds under the token's key (or path): nothing, some data, or
it cannot be read at all. -/
inductive Backing where
  | absent
  | present (data : String)
  | broken (err : String)
deriving DecidableEq, Repr

/-- The outcome of one request to the OAuth callback handler. -/
inductive HandlerOutcome where
  | returned
  | panicked (msg : String)
  | blocked
deriving DecidableEq, Repr

/-- What the program does to its surroundings, in order.  `call` marks the entry
into a function of the program that later statements need to speak about. -/
inductive Effect where
  | logInfo (msg : String)
  | logError (msg : String)
  | call (fn : String)
  | listen (addr : String)
  | exec (cmd : String) (args : List String)
  | handled (status : Int) (contentType body : String) (outcome : HandlerOutcome)
  | post (url body : String)
  | stored (useKeyring : Bool) (data : String)
  | shutdown
deriving DecidableEq, Repr

/-- The surroundings the program acts on: the two token backends, the number of
clock readings taken so far, and the effects so far. -/
structure World where
  keyring : Backing
  file : Backing
  ticks : Nat
  trace : List Effect
deriving DecidableEq, Repr

/-- Appends one effect to the trace. -/
def World.emit (w : World) (e : Effect) : World :=
  { w with trace := w.trace ++ [e] }

/-- The struct `TokenResponse` of `internal/oauth/flow.go`. -/
structure TokenResponse where
  AccessToken : String
  RefreshToken : String
  ExpiresIn : Int
  TokenType : String
deriving DecidableEq, Repr

/-- The query parameters of a request to `/oauth/callback`, as `r.URL.Query()`
yields them, in order. -/
structure CallbackRequest where
  query : List (String × String)
deriving DecidableEq, Repr

/-- What can happen while `Login` waits in its `select`. -/
inductive LoginEvent where
  | callback (r : CallbackRequest)
  | cancel
  | timeout
deriving DecidableEq, Repr

/-- Everything the surroundings decide: the clock (`clock i` is the `i`-th result of
`time.Now()`), JSON coding of tokens, failures of the backends' writes, the
token endpoint (request body to transport error or status and body), JSON
decoding of its answer, the PKCE generators of `internal/oauth` (declared in a
file outside the sources at hand), `exec.LookPath`, `exec.Command(..).Start`,
the port of a URL as `url.Parse(..).Port()` gives it, and what happens while
`Login` waits. -/
structure Env where
  clock : Nat → Int
  marshalToken : Token → Except String String
  unmarshalToken : String → Except String Token
  storeWrite : String → Option String
  tokenEndpoint : String → Except String (Int × String)
  decodeTokenResponse : String → Except String TokenResponse
  GenerateCodeVerifier : Except String String
  GenerateCodeChallenge : String → String
  GenerateState : Except String String
  lookPath : String → Bool
  startCommand : String → List String → Option String
  urlPort : String → Except String String
  events : List LoginEvent

/-- The call `time.Now()`. -/
def timeNow (env : Env) (w : World) : Int × World :=
  (env.clock w.ticks, { w with ticks := w.ticks + 1 })

/-- The backend a `TokenStorage` talks to. -/
def backing (s : TokenStorage) (w : World) : Backing :=
  if s.useKeyring then w.keyring else w.file

/-- The method `TokenStorage.LoadToken`. -/
def LoadToken (env : Env) (s : TokenStorage) (w : World) : Except String Token :=
  let data : Except String String :=
    if s.useKeyring then
      match w.keyring with
      | .present d => .ok d
      | .absent => .error ("failed to get token from keyring: " ++ "secret not found in keyring")
      | .broken err => .error ("failed to get token from keyring: " ++ err)
    else
      match w.file with
      | .present d => .ok d
      | .absent => .error "no token found - please run 'mission-control auth login' first"
      | .broken err => .error ("failed to read token file: " ++ err)
  match data with
  | .error err => .error err
  | .ok d =>
    match env.unmarshalToken d with
    | .error err => .error ("failed to unmarshal token: " ++ err)
    | .ok token => .ok token

/-- The method `TokenStorage.SaveToken`; a write that fails is taken to leave the
backend as it was. -/
def SaveToken (env : Env) (s : TokenStorage) (token : Token) (w : World) : Option String × World :=
  match env.marshalToken token with
  | .error err => (some ("failed to marshal token: " ++ err), w)
  | .ok data =>
    if s.useKeyring then
      match env.storeWrite data with
      | some err => (some err, w)
      | none => (none, { w with keyring := .present data }.emit (.stored true data))
    else
      match env.storeWrite data with
      | some err => (some ("failed to write token file: " ++ err), w)
      | none => (none, { w with file := .present data }.emit (.stored false data))

/-- The method `TokenStorage.DeleteToken`.  `fault` is the error of `keyring.Delete`,
or the error of `os.Remove` on an existing file, if any; removing a file that
does not exist reports `IsNotExist`, which the method swallows. -/
def DeleteToken (fault : Option String) (s : TokenStorage) (w : World) : Option String × World :=
  if s.useKeyring then
    match fault with
    | some err => (some err, w)
    | none => (none, { w with keyring := .absent })
  else
    match w.file with
    | .absent => (none, w)
    | _ =>
      match fault with
      | some err => (some ("failed to delete token file: " ++ err), w)
      | none => (none, { w with file := .absent })

/-! ## The JSON form of a token (`encoding/json` and `time` on the struct `Token`)

`SaveToken` and `LoadToken` go through `json.Marshal` and `json.Unmarshal`.  Go
strings are taken to be valid UTF-8 here and times to carry the location UTC,
so that an instant is rendered with the zone `Z`. -/

namespace Json

/-- The double quote. -/
def quoteChar : Char := Char.ofNat 34

/-- The backslash. -/
def backslash : Char := Char.ofNat 92

/-- The digit table `hex` of `encoding/json`. -/
def hex (n : Nat) : Char :=
  "0123456789abcdef".data.getD (n % 16) '0'

/-- What `appendString` (with `escapeHTML` set, as `json.Marshal` sets it) writes
for one character of a string: the quote, the backslash and the control
characters with a short form are written with a backslash, the other control
characters and `<`, `>`, `&` as `\u00XX`, the separators U+2028 and U+2029 as
`\u2028` and `\u2029`, everything else as it is. -/
def escape (c : Char) : List Char :=
  if c = quoteChar then [backslash, quoteChar]
  else if c = backslash then [backslash, backslash]
  else if c = Char.ofNat 8 then [backslash, 'b']
  else if c = Char.ofNat 12 then [backslash, 'f']
  else if c = Char.ofNat 10 then [backslash, 'n']
  else if c = Char.ofNat 13 then [backslash, 'r']
  else if c = Char.ofNat 9 then [backslash, 't']
  else if c.toNat < 32 ∨ c = '<' ∨ c = '>' ∨ c = '&' then
    [backslash, 'u', '0', '0', hex (c.toNat / 16), hex c.toNat]
  else if c = Char.ofNat 8232 ∨ c = Char.ofNat 8233 then
    [backslash, 'u', '2', '0', '2', hex c.toNat]
  else [c]

/-- The function `appendString`: the string as a JSON string literal. -/
def appendString (s : String) : List Char :=
  quoteChar :: (s.data.flatMap escape ++ [quoteChar])

/-- The function `getu4` on the four characters after `\u`. -/
def getu4 (a b c d : Char) : Option Nat :=
  match Url.unhex a, Url.unhex b, Url.unhex c, Url.unhex d with
  | some x, some y, some z, some w => some (((x * 16 + y) * 16 + z) * 16 + w)
  | _, _, _, _ => none

/-- The character a one-letter escape stands for. -/
def simpleEscape (e : Char) : Option Char :=
  if e = quoteChar then some quoteChar
  else if e = backslash then some backslash
  else if e = '/' then some '/'
  else if e = 'b' then some (Char.ofNat 8)
  else if e = 'f' then some (Char.ofNat 12)
  else if e = 'n' then some (Char.ofNat 10)
  else if e = 'r' then some (Char.ofNat 13)
  else if e = 't' then some (Char.ofNat 9)
  else none

/-- The decoding of a string literal from behind its opening quote: the
characters it stands for and what follows its closing quote.  `none` is a
literal the scanner rejects (a raw control character, an unknown escape, no
closing quote), and also an escaped surrogate, which `json.Marshal` never
writes and which this model does not follow. -/
def unquote : List Char → Option (List Char × List Char)
  | [] => none
  | c :: rest =>
    if c = quoteChar then some ([], rest)
    else if c = backslash then
      match rest with
      | [] => none
      | e :: rest1 =>
        if e = 'u' then
          match rest1 with
          | a :: b :: c1 :: d :: rest2 =>
            match getu4 a b c1 d with
            | some n =>
              if 55296 ≤ n ∧ n < 57344 then none
              else (unquote rest2).map (fun p => (Char.ofNat n :: p.1, p.2))
            | none => none
          | _ => none
        else
          match simpleEscape e with
          | some x => (unquote rest1).map (fun p => (x :: p.1, p.2))
          | none => none
    else if c.toNat < 32 then none
    else (unquote rest).map (fun p => (c :: p.1, p.2))

/-- Removes the prefix `p` from `s`, if `s` starts with it. -/
def stripPrefix : List Char → List Char → Option (List Char)
  | [], s => some s
  | _ :: _, [] => none
  | a :: p, b :: s => if a = b then stripPrefix p s else none

end Json

namespace Time

/-- The function `isLeap` of package `time`. -/
def isLeap (year : Nat) : Bool :=
  year % 4 == 0 && (year % 100 != 0 || year % 400 == 0)

/-- The function `daysIn` of package `time`: the days of month `m` of `year`. -/
def daysIn (m year : Nat) : Nat :=
  if m = 2 then (if isLeap year then 29 else 28)
  else if m = 4 ∨ m = 6 ∨ m = 9 ∨ m = 11 then 30
  else 31

/-- The days of a year. -/
def daysInYear (year : Nat) : Nat := if isLeap year then 366 else 365

/-- Takes whole periods off `rem`, period `i` having `len i` days, starting with
period `i` and for at most `fuel` periods: the period reached and the days
left in it. -/
def peel (len : Nat → Nat) : Nat → Nat → Nat → Nat × Nat
  | 0, i, rem => (i, rem)
  | fuel + 1, i, rem =>
    if rem < len i then (i, rem) else peel len fuel (i + 1) (rem - len i)

/-- The days of `fuel` periods from period `i` on. -/
def total (len : Nat → Nat) : Nat → Nat → Nat
  | 0, _ => 0
  | fuel + 1, i => len i + total len fuel (i + 1)

/-- The date (year, month, day) of the day that lies `days` days after the first
of January of the year 0 in the proleptic Gregorian calendar, which is what
`Time.Date` computes: whole cycles of 400 years first, then years, then months. -/
def civil (days : Nat) : Nat × Nat × Nat :=
  let yr := peel daysInYear 400 (400 * (days / 146097)) (days % 146097)
  let mo := peel (fun m => daysIn m yr.1) 12 1 yr.2
  (yr.1, mo.1, mo.2 + 1)

/-- The decimal digit of `n % 10`. -/
def digit (n : Nat) : Char := Char.ofNat (48 + n % 10)

/-- The call `appendInt(b, n, 2)` for `n` below 100. -/
def pad2 (n : Nat) : List Char := [digit (n / 10), digit n]

/-- The call `appendInt(b, n, 4)` for `n` below 10000. -/
def pad4 (n : Nat) : List Char := [digit (n / 1000), digit (n / 100), digit (n / 10), digit n]

/-- The last `width` digits of `n`, the last one first. -/
def digitsRev : Nat → Nat → List Char
  | 0, _ => []
  | width + 1, n => digit n :: digitsRev width (n / 10)

/-- The call `appendInt(b, n, 9)` for `n` below a billion. -/
def pad9 (n : Nat) : List Char := (digitsRev 9 n).reverse

/-- Removes the zeros at the end. -/
def trimZeros (l : List Char) : List Char :=
  (l.reverse.dropWhile (fun c => c == '0')).reverse

/-- The function `appendNano` for the layout element `.999999999`: nothing for
zero nanoseconds, otherwise the point and the nine digits without the zeros at
the end. -/
def appendNano (nanos : Nat) : List Char :=
  if nanos = 0 then [] else '.' :: trimZeros (pad9 nanos)

/-- Whether the instant `t` (nanoseconds since the Unix epoch) lies in a year from
0 to 9999 in UTC, the years that are four digits wide. -/
def fourDigitYear (t : Int) : Bool :=
  decide (-62167219200 ≤ t / 1000000000 ∧ t / 1000000000 ≤ 253402300799)

/-- The method `appendStrictRFC3339` on an instant in UTC: the layout
`2006-01-02T15:04:05.999999999Z07:00`, refused when the year is not four digits
wide. -/
def formatRFC3339 (t : Int) : Except String (List Char) :=
  if fourDigitYear t then
    let abs := (t / 1000000000 + 62167219200).toNat
    let date := civil (abs / 86400)
    let clock := abs % 86400
    .ok (pad4 date.1 ++ '-' :: pad2 date.2.1 ++ '-' :: pad2 date.2.2 ++ 'T' ::
      pad2 (clock / 3600) ++ ':' :: pad2 (clock % 3600 / 60) ++ ':' :: pad2 (clock % 60) ++
      appendNano (t % 1000000000).toNat ++ ['Z'])
  else .error "year outside of range [0,9999]"

/-- The method `Time.MarshalJSON`. -/
def MarshalJSON (t : Int) : Except String (List Char) :=
  match formatRFC3339 t with
  | .ok cs => .ok (Json.quoteChar :: (cs ++ [Json.quoteChar]))
  | .error e => .error ("Time.MarshalJSON: " ++ e)

/-- The value of a decimal digit. -/
def digitVal (c : Char) : Option Nat :=
  if 48 ≤ c.toNat ∧ c.toNat ≤ 57 then some (c.toNat - 48) else none

/-- The closure `parseUint` of `parseRFC3339`: the number the digits `cs` spell, if
within `min` and `max`. -/
def parseUint (cs : List Char) (min max : Nat) : Option Nat :=
  match cs.foldl (fun acc c =>
      match acc, digitVal c with
      | some x, some v => some (x * 10 + v)
      | _, _ => none) (some 0) with
  | some x => if min ≤ x ∧ x ≤ max then some x else none
  | none => none

/-- The function `parseNanoseconds` on the digits behind the point: the first
nine count. -/
def parseNanoseconds (ds : List Char) : Nat :=
  ((ds.take 9).foldl (fun acc c => acc * 10 + (digitVal c).getD 0) 0) *
    10 ^ (9 - (ds.take 9).length)

/-- The fractional second at the head of `s`, if there is one, and what follows it. -/
def parseFraction (s : List Char) : Nat × List Char :=
  match s with
  | d :: c :: rest =>
    if d = '.' ∧ (digitVal c).isSome then
      (parseNanoseconds ((c :: rest).takeWhile (fun x => (digitVal x).isSome)),
        (c :: rest).dropWhile (fun x => (digitVal x).isSome))
    else (0, s)
  | _ => (0, s)

/-- The days from the first of January of the year 0 to the given date. -/
def daysBefore (year m d : Nat) : Nat :=
  365 * year + (year + 3) / 4 - (year + 99) / 100 + (year + 399) / 400 +
    ((List.range (m - 1)).map (fun k => daysIn (k + 1) year)).sum + (d - 1)

/-- The function `parseRFC3339` on a text with the zone `Z`: the instant it names.
`none` is a text this function does not accept, and one with a numeric zone,
which the model does not follow. -/
def parseRFC3339 (s : List Char) : Option Int :=
  match s with
  | y1 :: y2 :: y3 :: y4 :: c1 :: m1 :: m2 :: c2 :: d1 :: d2 :: c3 :: h1 :: h2 :: c4 ::
      n1 :: n2 :: c5 :: s1 :: s2 :: rest =>
    match parseUint [y1, y2, y3, y4] 0 9999 with
    | none => none
    | some year =>
      match parseUint [m1, m2] 1 12 with
      | none => none
      | some month =>
        match parseUint [d1, d2] 1 (daysIn month year), parseUint [h1, h2] 0 23,
          parseUint [n1, n2] 0 59, parseUint [s1, s2] 0 59 with
        | some day, some hour, some min, some sec =>
          if c1 = '-' ∧ c2 = '-' ∧ c3 = 'T' ∧ c4 = ':' ∧ c5 = ':' then
            if (parseFraction rest).2 = ['Z'] then
              some ((((daysBefore year month day : Nat) : Int) * 86400 + hour * 3600 + min * 60 +
                sec - 62167219200) * 1000000000 + (parseFraction rest).1)
            else none
          else none
        | _, _, _, _ => none
  | _ => none

end Time

/-- The call `json.Marshal(token)`: the three members in the order of the struct,
without white space; it fails when `Time.MarshalJSON` does. -/
def jsonMarshalToken (token : Token) : Except String String :=
  match Time.MarshalJSON token.ExpiresAt with
  | .error e => .error ("json: error calling MarshalJSON for type time.Time: " ++ e)
  | .ok expires =>
    .ok (String.mk ("\x7b\"access_token\":".data ++ Json.appendString token.AccessToken ++
      ",\"refresh_token\":".data ++ Json.appendString token.RefreshToken ++
      ",\"expires_at\":".data ++ expires ++ [Char.ofNat 125]))

/-- The call `json.Unmarshal(data, &token)` on a document laid out as `json.Marshal`
lays a token out (the three members in the order of the struct, no white
space, the time with the zone `Z`): the token it yields.  `none` stands for
every other input, about which this model says nothing. -/
def jsonUnmarshalToken (data : String) : Option Token :=
  match Json.stripPrefix "\x7b\"access_token\":\"".data data.data with
  | none => none
  | some s1 =>
    match Json.unquote s1 with
    | none => none
    | some (access, s2) =>
      match Json.stripPrefix ",\"refresh_token\":\"".data s2 with
      | none => none
      | some s3 =>
        match Json.unquote s3 with
        | none => none
        | some (refresh, s4) =>
          match Json.stripPrefix ",\"expires_at\":\"".data s4 with
          | none => none
          | some s5 =>
            if s5.dropWhile (fun c => c != Json.quoteChar) = [Json.quoteChar, Char.ofNat 125] then
              match Time.parseRFC3339 (s5.takeWhile (fun c => c != Json.quoteChar)) with
              | some expires =>
                some { AccessToken := String.mk access, RefreshToken := String.mk refresh,
                       ExpiresAt := expires }
              | none => none
            else none

/-! ## Redaction (`internal/logging/logger.go`) -/

/-- The slice expression `s[lo:hi]` on the bytes of a Go string: `none` is the
run-time panic for bounds out of range. -/
def goSlice (s : List Nat) (lo hi : Nat) : Option (List Nat) :=
  if lo ≤ hi ∧ hi ≤ s.length then some ((s.drop lo).take (hi - lo)) else none

/-- The function `RedactSensitive` on the bytes of its argument; `none` would be a
panic of one of the two slice expressions. -/
def RedactSensitive (s : List Nat) : Option (List Nat) :=
  if s.length > 20 then
    match goSlice s 0 8, goSlice s (s.length - 4) s.length with
    | some head, some tail => some (head ++ Url.utf8 "..." ++ tail)
    | _, _ => none
  else some (Url.utf8 "***")

/-! ## The OAuth flow (`internal/oauth/flow.go`, `internal/config/config.go`) -/

/-- The constant `config.HubSpotAuthURL`. -/
def HubSpotAuthURL : String := "https://app.hubspot.com/oauth/authorize"

/-- The constant `config.HubSpotTokenURL`. -/
def HubSpotTokenURL : String := "https://api.hubapi.com/oauth/v1/token"

/-- The constant `config.DefaultCallbackPort`. -/
def DefaultCallbackPort : String := "8400"

/-- The struct `config.HubSpotConfig`. -/
structure HubSpotConfig where
  ClientID : String
  ClientSecret : String
  RedirectURI : String
  Scopes : String
deriving DecidableEq, Repr

/-- The struct `config.MCPConfig`. -/
structure MCPConfig where
  URL : String
  AuthMode : String
deriving DecidableEq, Repr

/-- The struct `config.Config`. -/
structure Config where
  HubSpot : HubSpotConfig
  MCP : MCPConfig
deriving DecidableEq, Repr

/-- The channel `callbackChan`, made by `make(chan string, 1)`. -/
structure CallbackChan where
  buf : List String
  closed : Bool
deriving DecidableEq, Repr

/-- The struct `AuthFlow`; `server` is the address of the `http.Server`, once set. -/
structure AuthFlow where
  cfg : Config
  storage : TokenStorage
  callbackChan : CallbackChan
  server : Option String
deriving DecidableEq, Repr

/-- The method `AuthFlow.buildAuthURL`. -/
def buildAuthURL (f : AuthFlow) (challenge state : String) : String :=
  let params : Url.Values := []
  let params := Url.Values.Set params "client_id" f.cfg.HubSpot.ClientID
  let params := Url.Values.Set params "redirect_uri" f.cfg.HubSpot.RedirectURI
  let params := Url.Values.Set params "scope" f.cfg.HubSpot.Scopes
  let params := Url.Values.Set params "state" state
  let params := Url.Values.Set params "code_challenge" challenge
  let params := Url.Values.Set params "code_challenge_method" "S256"
  HubSpotAuthURL ++ "?" ++ Url.Values.Encode params

/-- The method `Values.Get` on the query of a request: the first value of the key,
or the empty string. -/
def queryGet (r : CallbackRequest) (key : String) : String :=
  (r.query.lookup key).getD ""

/-- The page the handler writes on success. -/
def successPage : String :=
  "\n\t\t\t<html>\n\t\t\t<body>\n\t\t\t\t<h1>Authorization Successful!</h1>\n\t\t\t\t<p>You can close this window and return to the terminal.</p>\n\t\t\t</body>\n\t\t\t</html>\n\t\t"

/-- What one run of the callback handler did: the status, content type and body
it wrote, how it ended, and the channel afterwards. -/
structure HandlerResult where
  status : Int
  contentType : String
  body : String
  outcome : HandlerOutcome
  chan : CallbackChan
deriving DecidableEq, Repr

/-- What the client of the request receives.  The server sends the response when
the handler returns; when the handler panics the server closes the connection
without sending what the handler wrote (either page is shorter than the write
buffer of the response), and while the handler is parked on its send nothing
is sent. -/
def HandlerResult.received (res : HandlerResult) : Option (Int × String × String) :=
  match res.outcome with
  | .returned => some (res.status, res.contentType, res.body)
  | .panicked _ => none
  | .blocked => none

/-- The call `http.Error(w, msg, http.StatusBadRequest)` followed by
`close(f.callbackChan)`; closing a closed channel panics. -/
def rejectCallback (msg : String) (ch : CallbackChan) : HandlerResult :=
  { status := 400, contentType := "text/plain; charset=utf-8", body := msg ++ "\n",
    outcome := if ch.closed then .panicked "close of closed channel" else .returned,
    chan := { ch with closed := true } }

/-- The handler that `startCallbackServer` registers for `/oauth/callback`. -/
def handleCallback (expectedState : String) (r : CallbackRequest) (ch : CallbackChan) :
    HandlerResult :=
  let state := queryGet r "state"
  let code := queryGet r "code"
  let errorParam := queryGet r "error"
  if errorParam != "" then rejectCallback ("Authorization failed: " ++ errorParam) ch
  else if state != expectedState then rejectCallback "Invalid state parameter" ch
  else if code == "" then rejectCallback "No authorization code received" ch
  else
    { status := 200, contentType := "text/html", body := successPage,
      outcome :=
        if ch.closed then .panicked "send on closed channel"
        else if ch.buf.length < 1 then .returned else .blocked,
      chan := if !ch.closed && ch.buf.length < 1 then { ch with buf := ch.buf ++ [code] } else ch }

/-- The receive `<-f.callbackChan` as a case of `select`: ready with the buffered
value, or with the zero value `""` once the channel is closed and drained. -/
def chanRecv (ch : CallbackChan) : Option (String × CallbackChan) :=
  match ch.buf with
  | v :: rest => some (v, { ch with buf := rest })
  | [] => if ch.closed then some ("", ch) else none

/-- Which case of the `select` in `Login` fired. -/
inductive WaitResult where
  | code (code : String)
  | canceled
  | timedOut
deriving DecidableEq, Repr

/-- The `select` of `Login`, with the callback server running beside it: events
are taken in order, the receive fires as soon as the channel is ready, and
when nothing else happens the five-minute timer fires. -/
def awaitCallback (expectedState : String) :
    List LoginEvent → CallbackChan → World → WaitResult × CallbackChan × World
  | [], ch, w =>
    match chanRecv ch with
    | some (code, ch1) => (.code code, ch1, w)
    | none => (.timedOut, ch, w)
  | ev :: rest, ch, w =>
    match chanRecv ch with
    | some (code, ch1) => (.code code, ch1, w)
    | none =>
      match ev with
      | .cancel => (.canceled, ch, w)
      | .timeout => (.timedOut, ch, w)
      | .callback r =>
        let res := handleCallback expectedState r ch
        awaitCallback expectedState rest res.chan
          (w.emit (.handled res.status res.contentType res.body res.outcome))

/-- The body of the POST that `exchangeCodeForToken` sends. -/
def exchangeForm (f : AuthFlow) (code verifier : String) : Url.Values :=
  let data : Url.Values := []
  let data := Url.Values.Set data "grant_type" "authorization_code"
  let data := Url.Values.Set data "client_id" f.cfg.HubSpot.ClientID
  let data := Url.Values.Set data "redirect_uri" f.cfg.HubSpot.RedirectURI
  let data := Url.Values.Set data "code" code
  let data := Url.Values.Set data "code_verifier" verifier
  if f.cfg.HubSpot.ClientSecret != "" then
    Url.Values.Set data "client_secret" f.cfg.HubSpot.ClientSecret
  else data

/-- The method `AuthFlow.exchangeCodeForToken` (`http.NewRequest` cannot fail on the
constant method and URL). -/
def exchangeCodeForToken (env : Env) (f : AuthFlow) (code verifier : String) (w : World) :
    Option String × World :=
  let w := w.emit (.call "exchangeCodeForToken")
  let body := Url.Values.Encode (exchangeForm f code verifier)
  let w := w.emit (.post HubSpotTokenURL body)
  match env.tokenEndpoint body with
  | .error err => (some ("failed to exchange code for token: " ++ err), w)
  | .ok (status, respBody) =>
    if status != 200 then
      (some ("token exchange failed with status " ++ fmtInt status ++ ": " ++ respBody), w)
    else
      match env.decodeTokenResponse respBody with
      | .error err => (some ("failed to decode token response: " ++ err), w)
      | .ok tokenResp =>
        let (now, w) := timeNow env w
        let token : Token :=
          { AccessToken := tokenResp.AccessToken, RefreshToken := tokenResp.RefreshToken,
            ExpiresAt := now + wrapInt64 (wrapInt64 tokenResp.ExpiresIn * Second) }
        match SaveToken env f.storage token w with
        | (some err, w) => (some ("failed to save token: " ++ err), w)
        | (none, w) => (none, w.emit (.logInfo "Authentication successful!"))

/-- The body of the POST that `RefreshToken` sends. -/
def refreshForm (f : AuthFlow) (token : Token) : Url.Values :=
  let data : Url.Values := []
  let data := Url.Values.Set data "grant_type" "refresh_token"
  let data := Url.Values.Set data "client_id" f.cfg.HubSpot.ClientID
  let data := Url.Values.Set data "refresh_token" token.RefreshToken
  if f.cfg.HubSpot.ClientSecret != "" then
    Url.Values.Set data "client_secret" f.cfg.HubSpot.ClientSecret
  else data

/-- The method `AuthFlow.RefreshToken`. -/
def RefreshToken (env : Env) (f : AuthFlow) (w : World) : Option String × World :=
  let w := w.emit (.call "RefreshToken")
  match LoadToken env f.storage w with
  | .error err => (some ("failed to load token: " ++ err), w)
  | .ok token =>
    if token.RefreshToken == "" then (some "no refresh token available", w)
    else
      let body := Url.Values.Encode (refreshForm f token)
      let w := w.emit (.post HubSpotTokenURL body)
      match env.tokenEndpoint body with
      | .error err => (some ("failed to refresh token: " ++ err), w)
      | .ok (status, respBody) =>
        if status != 200 then
          (some ("token refresh failed with status " ++ fmtInt status ++ ": " ++ respBody), w)
        else
          match env.decodeTokenResponse respBody with
          | .error err => (some ("failed to decode token response: " ++ err), w)
          | .ok tokenResp =>
            let token := { token with AccessToken := tokenResp.AccessToken }
            let token :=
              if tokenResp.RefreshToken != "" then
                { token with RefreshToken := tokenResp.RefreshToken }
              else token
            let (now, w) := timeNow env w
            let token :=
              { token with ExpiresAt := now + wrapInt64 (wrapInt64 tokenResp.ExpiresIn * Second) }
            match SaveToken env f.storage token w with
            | (some err, w) => (some ("failed to save refreshed token: " ++ err), w)
            | (none, w) => (none, w.emit (.logInfo "Token refreshed successfully"))

/-- The method `AuthFlow.getCallbackPort`. -/
def getCallbackPort (env : Env) (f : AuthFlow) : String :=
  match env.urlPort f.cfg.HubSpot.RedirectURI with
  | .error _ => DefaultCallbackPort
  | .ok port => if port == "" then DefaultCallbackPort else port

/-- The function `openBrowser`. -/
def openBrowser (env : Env) (url : String) (w : World) : Option String × World :=
  if env.lookPath "xdg-open" then
    (env.startCommand "xdg-open" [url], w.emit (.exec "xdg-open" [url]))
  else if env.lookPath "open" then
    (env.startCommand "open" [url], w.emit (.exec "open" [url]))
  else if env.lookPath "start" then
    (env.startCommand "cmd" ["/c", "start", url], w.emit (.exec "cmd" ["/c", "start", url]))
  else (some "unable to open browser automatically", w)

/-- The method `AuthFlow.startCallbackServer`, which always returns nil: the server
is recorded in the flow and starts listening. -/
def startCallbackServer (f : AuthFlow) (port : String) (w : World) : AuthFlow × World :=
  ({ f with server := some (":" ++ port) }, w.emit (.listen (":" ++ port)))

/-- The method `AuthFlow.stopCallbackServer`. -/
def stopCallbackServer (f : AuthFlow) (w : World) : World :=
  let w := w.emit (.call "stopCallbackServer")
  match f.server with
  | some _ => w.emit .shutdown
  | none => w

/-- The part of `Login` between the generators and the `select`: the URL is shown,
the callback server is started, and the browser is tried. -/
def Login.announce (env : Env) (f : AuthFlow) (authURL : String) (w : World) : AuthFlow × World :=
  let w := w.emit (.logInfo "Opening browser for authorization...")
  let w := w.emit (.logInfo ("Please visit: " ++ authURL))
  let port := getCallbackPort env f
  let (f, w) := startCallbackServer f port w
  match openBrowser env authURL w with
  | (some err, w) =>
    (f, (w.emit (.logError ("Failed to open browser automatically: " ++ err))).emit
      (.logInfo "Please open the URL manually in your browser"))
  | (none, w) => (f, w)

/-- The `select` of `Login` with the body of each of its cases. -/
def Login.wait (env : Env) (f : AuthFlow) (state verifier : String) (w : World) :
    Option String × AuthFlow × World :=
  match awaitCallback state env.events f.callbackChan w with
  | (.code code, ch, w) =>
    let f := { f with callbackChan := ch }
    let r := exchangeCodeForToken env f code verifier (w.emit (.logInfo "Authorization code received"))
    (r.1, f, r.2)
  | (.canceled, ch, w) => (some "login canceled", { f with callbackChan := ch }, w)
  | (.timedOut, ch, w) => (some "login timeout", { f with callbackChan := ch }, w)

/-- The method `AuthFlow.Login`: the error it returns (`none` is nil), the flow and
the surroundings afterwards; the deferred `stopCallbackServer` runs last. -/
def Login (env : Env) (f : AuthFlow) (w : World) : Option String × AuthFlow × World :=
  match env.GenerateCodeVerifier with
  | .error err => (some ("failed to generate code verifier: " ++ err), f, w)
  | .ok verifier =>
    let challenge := env.GenerateCodeChallenge verifier
    match env.GenerateState with
    | .error err => (some ("failed to generate state: " ++ err), f, w)
    | .ok state =>
      let authURL := buildAuthURL f challenge state
      let r := Login.announce env f authURL w
      let r2 := Login.wait env r.1 state verifier r.2
      (r2.1, r2.2.1, stopCallbackServer r2.2.1 r2.2.2)

/-- The constructor `NewAuthFlow`, given the storage `NewTokenStorage` made. -/
def NewAuthFlow (cfg : Config) (store : TokenStorage) : AuthFlow :=
  { cfg := cfg, storage := store, callbackChan := { buf := [], closed := false }, server := none }

/-! ## The agent (`internal/agent/agent.go`) -/

/-- The struct `Agent`. -/
structure Agent where
  cfg : Config
  mcpClient : HttpMcp.Client
  storage : TokenStorage
  oauthFlow : AuthFlow
deriving DecidableEq, Repr

/-- The method `Agent.EnsureAuthenticated`: the error it returns (`none` is nil), the
agent and the surroundings afterwards. -/
def EnsureAuthenticated (env : Env) (a : Agent) (w : World) : Option String × Agent × World :=
  match LoadToken env a.storage w with
  | .error err =>
    (some ("not authenticated - please run 'mission-control auth login': " ++ err), a, w)
  | .ok token =>
    let (now1, w) := timeNow env w
    let (stale, w) :=
      if token.IsExpired now1 then (true, w)
      else
        let (now2, w) := timeNow env w
        (token.IsExpiringSoon now2 (5 * Minute), w)
    if stale then
      let w := w.emit (.logInfo "Token expired or expiring soon, refreshing...")
      match RefreshToken env a.oauthFlow w with
      | (some err, w) => (some ("failed to refresh token: " ++ err), a, w)
      | (none, w) =>
        match LoadToken env a.storage w with
        | .error err => (some ("failed to reload token: " ++ err), a, w)
        | .ok token => (none, { a with mcpClient := HttpMcp.SetToken a.mcpClient token.AccessToken }, w)
    else (none, { a with mcpClient := HttpMcp.SetToken a.mcpClient token.AccessToken }, w)

/-- The method `Agent.ListTools`: the result, the agent and the surroundings
afterwards, and the requests sent to the MCP server. -/
def Agent.ListTools {A : Type} (env : Env) (menv : HttpMcp.Env (HttpMcp.Params A))
    (unmarshalTools : String → Except String (List HttpMcp.Tool)) (a : Agent) (w : World) :
    Except String (List HttpMcp.Tool) × Agent × World × List HttpMcp.Request :=
  match EnsureAuthenticated env a w with
  | (some err, a, w) => (.error err, a, w, [])
  | (none, a, w) =>
    ((HttpMcp.ListTools menv unmarshalTools a.mcpClient).1, a, w,
      (HttpMcp.ListTools menv unmarshalTools a.mcpClient).2)

/-- The method `Agent.CallTool`: the result, the agent and the surroundings
afterwards, and the requests sent to the MCP server. -/
def Agent.CallTool {A : Type} (env : Env) (menv : HttpMcp.Env (HttpMcp.Params A)) (a : Agent)
    (w : World) (name : String) (args : A) :
    Except String RawMessage × Agent × World × List HttpMcp.Request :=
  match EnsureAuthenticated env a w with
  | (some err, a, w) => (.error err, a, w, [])
  | (none, a, w) =>
    ((HttpMcp.CallTool menv a.mcpClient name args).1, a, w,
      (HttpMcp.CallTool menv a.mcpClient name args).2)

/-- How often `RefreshToken` was entered in a trace. -/
def refreshCalls (trace : List Effect) : Nat :=
  trace.count (Effect.call "RefreshToken")

/-- The `(url, body)` pairs of the POSTs in a trace, in order. -/
def tracePosts : List Effect → List (String × String)
  | [] => []
  | .post url body :: rest => (url, body) :: tracePosts rest
  | _ :: rest => tracePosts rest

/-! ## The MCP server (`hubspot-mcp-agent/mcp-server-main.go`) -/

namespace McpServer

/-- The struct `MCPRequest`; `I` is what `json.Unmarshal` leaves in the
`interface{}` member `ID`. -/
structure MCPRequest (I : Type) where
  JSONRPC : String
  ID : I
  Method : String
  Params : RawMessage

/-- The struct `MCPError`. -/
structure MCPError where
  Code : Int
  Message : String
  Data : Option String
deriving DecidableEq, Repr

/-- The struct `ServerInfo`. -/
structure ServerInfo where
  Name : String
  Version : String
deriving DecidableEq, Repr

/-- One entry of the `properties` map of an input schema. -/
structure Property where
  name : String
  type : String
  description : String
  defaultValue : Option Int
deriving DecidableEq, Repr

/-- The struct `Tool`; the map `InputSchema` (always of type `object`) is kept as its
`properties` and `required` members, each `none` when the map has no such key. -/
structure Tool where
  Name : String
  Description : String
  properties : Option (List Property)
  required : Option (List String)
deriving DecidableEq, Repr

/-- The values the handlers pass to `sendResponse` as `result`. -/
inductive Result where
  | handshake (protocolVersion : String) (capabilities : List String) (serverInfo : ServerInfo)
  | tools (tools : List Tool)
  | content (text : String)
deriving DecidableEq, Repr

/-- The struct `MCPResponse`; `Result = none` and `Error = none` are nil. -/
structure MCPResponse (I : Type) where
  JSONRPC : String
  ID : I
  Result : Option Result
  Error : Option MCPError

/-- The calls the server makes on the HubSpot agent. -/
inductive AgentCall (Args : Type) where
  | SearchContacts (query : String) (limit : Int)
  | CreateContact (arguments : Args)
  | SearchCompanies (query : String) (limit : Int)
  | SearchDeals (query : String) (limit : Int)
  | GetUserDetails

/-- What the surroundings decide for the server: `json.Unmarshal` of a line into an
`MCPRequest`, `json.Marshal` of a response, `json.Unmarshal` of `params` into
the name and arguments of a tool call, the type assertions
`Arguments[key].(string)` and `int(Arguments[key].(float64))`, and the HubSpot
agent (package `hubspot`, outside the sources at hand), whose methods return a
`json.RawMessage` or an error. -/
structure Env (I Args : Type) where
  unmarshalRequest : String → Except String (MCPRequest I)
  marshalResponse : MCPResponse I → Except String String
  unmarshalCall : String → Except String (String × Args)
  argString : Args → String → Option String
  argInt : Args → String → Option Int
  agent : AgentCall Args → Except String String

/-- The server as far as its output goes: the lines written to `stdout`, and the
responses they were marshalled from. -/
structure Server (I : Type) where
  stdout : List String
  sent : List (MCPResponse I)

/-- The method `sendResponse`: the marshalling error is dropped, so a response that
cannot be marshalled is written as an empty line. -/
def sendResponse {I Args : Type} (env : Env I Args) (s : Server I) (id : I)
    (result : Option Result) (err : Option MCPError) : Server I :=
  let response : MCPResponse I := { JSONRPC := "2.0", ID := id, Result := result, Error := err }
  let jsonData :=
    match env.marshalResponse response with
    | .ok data => data
    | .error _ => ""
  { stdout := s.stdout ++ [jsonData ++ "\n"], sent := s.sent ++ [response] }

/-- The method `handleInitialize`. -/
def handleInitialize {I Args : Type} (env : Env I Args) (s : Server I) (id : I) : Server I :=
  sendResponse env s id
    (some (.handshake "2024-11-05" ["tools"]
      { Name := "mission-control-hubspot", Version := "1.0.0" })) none

/-- The property `query` of the three search tools. -/
def queryProperty (description : String) : Property :=
  { name := "query", type := "string", description := description, defaultValue := none }

/-- The property `limit` of the three search tools. -/
def limitProperty : Property :=
  { name := "limit", type := "number", description := "Maximum number of results to return",
    defaultValue := some 10 }

/-- A string property without default. -/
def stringProperty (name description : String) : Property :=
  { name := name, type := "string", description := description, defaultValue := none }

/-- The tool list of `handleToolsList`. -/
def toolList : List Tool :=
  [ { Name := "hubspot_search_contacts",
      Description :=
        "Search for contacts in HubSpot CRM. Supports filtering by email and other properties.",
      properties := some [queryProperty "Search query (e.g., email address or name)", limitProperty],
      required := none },
    { Name := "hubspot_create_contact",
      Description := "Create a new contact in HubSpot CRM",
      properties := some
        [stringProperty "email" "Contact email address", stringProperty "firstname" "First name",
          stringProperty "lastname" "Last name", stringProperty "phone" "Phone number",
          stringProperty "company" "Company name"],
      required := some ["email"] },
    { Name := "hubspot_search_companies",
      Description := "Search for companies in HubSpot CRM",
      properties := some
        [queryProperty "Search query (e.g., company name or domain)", limitProperty],
      required := none },
    { Name := "hubspot_search_deals",
      Description := "Search for deals in HubSpot CRM",
      properties := some [queryProperty "Search query (e.g., deal name)", limitProperty],
      required := none },
    { Name := "hubspot_get_user_details",
      Description := "Get details about the authenticated HubSpot user and account",
      properties := none,
      required := none } ]

/-- The method `handleToolsList`. -/
def handleToolsList {I Args : Type} (env : Env I Args) (s : Server I) (id : I) : Server I :=
  sendResponse env s id (some (.tools toolList)) none

/-- The `query` and `limit` that the search cases read from the arguments, with
their defaults `""` and 10. -/
def searchArguments {I Args : Type} (env : Env I Args) (arguments : Args) : String × Int :=
  ((env.argString arguments "query").getD "", (env.argInt arguments "limit").getD 10)

/-- The `switch` of `handleToolsCall`: the agent call of a known tool. -/
def toolCall {I Args : Type} (env : Env I Args) (name : String) (arguments : Args) :
    Option (AgentCall Args) :=
  if name = "hubspot_search_contacts" then
    some (.SearchContacts (searchArguments env arguments).1 (searchArguments env arguments).2)
  else if name = "hubspot_create_contact" then some (.CreateContact arguments)
  else if name = "hubspot_search_companies" then
    some (.SearchCompanies (searchArguments env arguments).1 (searchArguments env arguments).2)
  else if name = "hubspot_search_deals" then
    some (.SearchDeals (searchArguments env arguments).1 (searchArguments env arguments).2)
  else if name = "hubspot_get_user_details" then some .GetUserDetails
  else none

/-- The method `handleToolsCall` (absent `params` are the empty input of
`json.Unmarshal`). -/
def handleToolsCall {I Args : Type} (env : Env I Args) (s : Server I) (id : I)
    (params : RawMessage) : Server I :=
  match env.unmarshalCall (params.getD "") with
  | .error _ => sendResponse env s id none (some { Code := -32602, Message := "Invalid params", Data := none })
  | .ok (name, arguments) =>
    match toolCall env name arguments with
    | none =>
      sendResponse env s id none
        (some { Code := -32601, Message := "Unknown tool: " ++ name, Data := none })
    | some call =>
      match env.agent call with
      | .error err => sendResponse env s id none (some { Code := -32603, Message := err, Data := none })
      | .ok result => sendResponse env s id (some (.content result)) none

/-- One iteration of the loop of `Start` on the line the scanner yielded. -/
def handleLine {I Args : Type} (env : Env I Args) (s : Server I) (line : String) : Server I :=
  match env.unmarshalRequest line with
  | .error _ => s
  | .ok request =>
    if request.Method = "initialize" then handleInitialize env s request.ID
    else if request.Method = "tools/list" then handleToolsList env s request.ID
    else if request.Method = "tools/call" then handleToolsCall env s request.ID request.Params
    else
      sendResponse env s request.ID none
        (some { Code := -32601, Message := "Method not found: " ++ request.Method, Data := none })

/-- The loop of the method `Start` over the tokens the scanner yields. -/
def Start.loop {I Args : Type} (env : Env I Args) (s : Server I) : List String → Server I
  | [] => s
  | line :: rest => Start.loop env (handleLine env s line) rest

/-- The method `Start` on the lines that arrive on standard input: the loop runs
over the tokens of the scanner that `NewMCPServer` made with
`bufio.NewScanner(os.Stdin)`, and the error returned is `s.stdin.Err()`. -/
def Start {I Args : Type} (env : Env I Args) (s : Server I) (stdin : List String) :
    Option String × Server I :=
  (scanErr stdin, Start.loop env s (scanTokens stdin))

/-- The ids of the requests among `lines`, in order: a line that does not parse as
a request has none. -/
def requestIds {I Args : Type} (env : Env I Args) (lines : List String) : List I :=
  lines.filterMap (fun line =>
    match env.unmarshalRequest line with
    | .ok request => some request.ID
    | .error _ => none)

end McpServer

/-! ### Concrete surroundings for the worked examples -/

/-- A JSON rendering of a token, standing in for `json.Marshal`. -/
def encodeToken (t : Token) : String :=
  "\x7b\"access_token\":\"" ++ t.AccessToken ++ "\",\"refresh_token\":\"" ++ t.RefreshToken ++
    "\",\"expires_at\":" ++ toString t.ExpiresAt ++ "\x7d"

/-- Surroundings for the examples: the clock stands at `now`, the token codec knows
the tokens in `known`, writes succeed, the token endpoint answers every request
with `answer`, whose body decodes to `AT1`, `RT1`, 3600 seconds, the generators
yield `verifier-1` and `state-1`, no browser can be started, the redirect URI
has port 8400, and `events` happen while `Login` waits. -/
def exampleEnv (now : Int) (known : List Token) (answer : Int × String)
    (events : List LoginEvent) : Env :=
  { clock := fun _ => now
    marshalToken := fun t => .ok (encodeToken t)
    unmarshalToken := fun d =>
      match known.find? (fun t => encodeToken t == d) with
      | some t => .ok t
      | none => .error "unexpected end of JSON input"
    storeWrite := fun _ => none
    tokenEndpoint := fun _ => .ok answer
    decodeTokenResponse := fun _ =>
      .ok { AccessToken := "AT1", RefreshToken := "RT1", ExpiresIn := 3600, TokenType := "bearer" }
    GenerateCodeVerifier := .ok "verifier-1"
    GenerateCodeChallenge := fun v => "challenge-of-" ++ v
    GenerateState := .ok "state-1"
    lookPath := fun _ => false
    startCommand := fun _ _ => none
    urlPort := fun _ => .ok "8400"
    events := events }

/-- A configuration as `config.Load` builds it from the defaults. -/
def exampleConfig : Config :=
  { HubSpot :=
      { ClientID := "client-1", ClientSecret := "", RedirectURI := "http://127.0.0.1:8400/oauth/callback",
        Scopes := "crm.objects.contacts.read crm.objects.contacts.write" }
    MCP := { URL := "http://127.0.0.1:3333", AuthMode := "header" } }

/-- A stored token that expires `d` nanoseconds after instant 0. -/
def tokenExpiringIn (d : Int) : Token :=
  { AccessToken := "AT0", RefreshToken := "RT0", ExpiresAt := d }

/-- Surroundings whose token file holds `t`. -/
def worldWith (t : Token) : World :=
  { keyring := .absent, file := .present (encodeToken t), ticks := 0, trace := [] }

/-- Surroundings without any stored token. -/
def emptyWorld : World :=
  { keyring := .absent, file := .absent, ticks := 0, trace := [] }

/-- An agent as `NewAgent` builds it on a machine without a keyring. -/
def exampleAgent : Agent :=
  { cfg := exampleConfig
    mcpClient := HttpMcp.NewClient "http://127.0.0.1:3333" "header"
    storage := { useKeyring := false }
    oauthFlow := NewAuthFlow exampleConfig { useKeyring := false } }

/-- A flow as `NewAuthFlow` builds it on a machine without a keyring. -/
def exampleFlow : AuthFlow :=
  NewAuthFlow exampleConfig { useKeyring := false }

/-- A redirect that carries a state this login never issued. -/
def forgedCallback : CallbackRequest :=
  { query := [("code", "stolen"), ("state", "forged")] }

/-- The redirect that answers the authorize request of the examples. -/
def goodCallback : CallbackRequest :=
  { query := [("code", "abc123"), ("state", "state-1")] }

/-- The body with which the token endpoint of the examples answers. -/
def tokenBody : String :=
  "\x7b\"access_token\":\"AT1\",\"refresh_token\":\"RT1\",\"expires_in\":3600\x7d"

/-- A redirect by which the user denied the authorization. -/
def deniedCallback : CallbackRequest :=
  { query := [("error", "access_denied")] }

/-- Surroundings like `exampleEnv 0 known (200, tokenBody) []` whose token endpoint
grants `expiresIn` seconds. -/
def envGranting (expiresIn : Int) (known : List Token) : Env :=
  { exampleEnv 0 known (200, tokenBody) [] with
    decodeTokenResponse := fun _ =>
      .ok { AccessToken := "AT1", RefreshToken := "RT1", ExpiresIn := expiresIn,
            TokenType := "bearer" } }

/-- A stored token without a refresh token. -/
def tokenWithoutRefresh : Token :=
  { AccessToken := "AT0", RefreshToken := "", ExpiresAt := 0 }

/-- The reply of an MCP server that has no tools. -/
def toolsBody : String :=
  "\x7b\"jsonrpc\":\"2.0\",\"id\":\"x\",\"result\":\x7b\"tools\":[]\x7d\x7d"

/-- The response that `json.Unmarshal` decodes from `toolsBody`. -/
def toolsResponse : JSONRPCResponse :=
  { JSONRPC := "2.0", ID := "x", Result := some "\x7b\"tools\":[]\x7d", Error := none }

/-- Surroundings of the HTTP client in which the server answers every request with
`status` and `toolsBody`. -/
def toolsEnv (status : Int) : HttpMcp.Env (HttpMcp.Params Unit) :=
  { uuid := "x"
    marshal := fun r => .ok ("\x7b\"id\":\"" ++ r.ID ++ "\",\"method\":\"" ++ r.Method ++ "\"\x7d")
    newRequest := fun _ _ => .ok ()
    roundTrip := fun _ => .ok { StatusCode := status, Body := .ok toolsBody }
    unmarshal := fun b => if b = toolsBody then .ok toolsResponse else .error "invalid character" }

/-- The decoder of tool lists on the one result of the examples. -/
def exampleUnmarshalTools (result : String) : Except String (List HttpMcp.Tool) :=
  if result = "\x7b\"tools\":[]\x7d" then .ok [] else .error "unexpected end of JSON input"

/-- The reply of an MCP server without tools whose `id` member is `id`. -/
def replyBody (id : String) : String :=
  "\x7b\"jsonrpc\":\"2.0\",\"id\":\"" ++ id ++ "\",\"result\":\x7b\"tools\":[]\x7d\x7d"

/-- Surroundings of the HTTP client in which the server answers every request with
`status` and `replyBody id`; the decoder knows the replies with the ids `x` and
`other`. -/
def replyEnv (status : Int) (id : String) : HttpMcp.Env (HttpMcp.Params Unit) :=
  { uuid := "x"
    marshal := fun r => .ok ("\x7b\"id\":\"" ++ r.ID ++ "\",\"method\":\"" ++ r.Method ++ "\"\x7d")
    newRequest := fun _ _ => .ok ()
    roundTrip := fun _ => .ok { StatusCode := status, Body := .ok (replyBody id) }
    unmarshal := fun b =>
      if b = replyBody "x" then .ok toolsResponse
      else if b = replyBody "other" then .ok { toolsResponse with ID := "other" }
      else .error "invalid character" }

/-- A second redirect with the state of the examples and another code. -/
def secondCallback : CallbackRequest :=
  { query := [("code", "xyz789"), ("state", "state-1")] }

/-- A request line with a method the server does not know. -/
def pingLine : String := "\x7b\"jsonrpc\":\"2.0\",\"id\":\"7\",\"method\":\"ping\"\x7d"

/-- A request line asking for the tool list. -/
def listLine : String := "\x7b\"jsonrpc\":\"2.0\",\"id\":\"8\",\"method\":\"tools/list\"\x7d"

/-- Surroundings of the MCP server for the examples: the decoder knows `pingLine`
and `listLine` and rejects every other line, ids are strings, responses are
rendered by their id alone, and neither tool arguments nor the HubSpot agent
are available. -/
def exampleServerEnv : McpServer.Env String Unit :=
  { unmarshalRequest := fun line =>
      if line = pingLine then .ok { JSONRPC := "2.0", ID := "7", Method := "ping", Params := none }
      else if line = listLine then
        .ok { JSONRPC := "2.0", ID := "8", Method := "tools/list", Params := none }
      else .error "invalid character"
    marshalResponse := fun r => .ok ("\x7b\"jsonrpc\":\"" ++ r.JSONRPC ++ "\",\"id\":\"" ++ r.ID ++ "\"\x7d")
    unmarshalCall := fun _ => .error "unexpected end of JSON input"
    argString := fun _ _ => none
    argInt := fun _ _ => none
    agent := fun _ => .error "agent unavailable" }

/-- A server that has written nothing yet. -/
def freshServer : McpServer.Server String :=
  { stdout := [], sent := [] }

/-- The request `pingLine` followed by `padding`: a request line of more than
64 KiB. -/
def longPing : String := pingLine ++ Subprocess.padding

/-- The decoder of `exampleServerEnv`, which also knows `longPing`. -/
def wideUnmarshalRequest (line : String) : Except String (McpServer.MCPRequest String) :=
  if line = longPing then .ok { JSONRPC := "2.0", ID := "7", Method := "ping", Params := none }
  else exampleServerEnv.unmarshalRequest line

/-- The surroundings `exampleServerEnv` with the decoder `wideUnmarshalRequest`. -/
def wideServerEnv : McpServer.Env String Unit :=
  { exampleServerEnv with unmarshalRequest := wideUnmarshalRequest }

/-- Surroundings like `exampleEnv 0 [] (200, tokenBody) []` whose token codec is
`encoding/json` as modelled: the decoder agrees with `jsonUnmarshalToken` where
that speaks and reports every other input as malformed. -/
def jsonEnv : Env :=
  { exampleEnv 0 [] (200, tokenBody) [] with
    marshalToken := jsonMarshalToken
    unmarshalToken := fun data =>
      match jsonUnmarshalToken data with
      | some token => .ok token
      | none => .error "invalid character" }

/-- A token whose secrets need escaping in JSON and which expires on 2025-11-04 at
noon UTC and 123456789 nanoseconds. -/
def quotedToken : Token :=
  { AccessToken := "test-access-token", RefreshToken := "r<&>\"x\\\n",
    ExpiresAt := 1762257600123456789 }

/-- A token that expires at the first instant of the year 10000 (UTC). -/
def farToken : Token :=
  { AccessToken := "test-access-token", RefreshToken := "test-refresh-token",
    ExpiresAt := 253402300800000000000 }

/-! ## Theorems -/

/-! ### Line scanning -/

theorem scanTokens_append_long (xs : List String) (long : String) (rest : List String)
    (h : MaxScanTokenSize ≤ long.utf8ByteSize) :
    scanTokens (xs ++ long :: rest) = scanTokens xs := by
  induction xs with
  | nil => simp [scanTokens, Nat.not_lt.2 h]
  | cons x xs ih =>
    by_cases hx : x.utf8ByteSize < MaxScanTokenSize
    · simp [scanTokens, hx, ih]
    · simp [scanTokens, hx]

theorem scanErr_append_long (xs : List String) (long : String) (rest : List String)
    (h : MaxScanTokenSize ≤ long.utf8ByteSize) :
    scanErr (xs ++ long :: rest) = some "bufio.Scanner: token too long" := by
  induction xs with
  | nil => simp [scanErr, Nat.not_lt.2 h]
  | cons x xs ih =>
    by_cases hx : x.utf8ByteSize < MaxScanTokenSize
    · simp [scanErr, hx, ih]
    · simp [scanErr, hx]

theorem scanTokens_append (xs ys : List String)
    (h : ∀ line ∈ xs, line.utf8ByteSize < MaxScanTokenSize) :
    scanTokens (xs ++ ys) = xs.map dropCR ++ scanTokens ys := by
  induction xs with
  | nil => rfl
  | cons x xs ih =>
    have hx := h x (List.mem_cons_self _ _)
    simp [scanTokens, hx, ih (fun l hl => h l (List.mem_cons_of_mem _ hl))]

theorem scanTokens_of_fit (lines : List String)
    (h : ∀ line ∈ lines, line.utf8ByteSize < MaxScanTokenSize) :
    scanTokens lines = lines.map dropCR := by
  have := scanTokens_append lines [] h
  simpa [scanTokens] using this

theorem scanErr_of_fit (lines : List String)
    (h : ∀ line ∈ lines, line.utf8ByteSize < MaxScanTokenSize) : scanErr lines = none := by
  induction lines with
  | nil => rfl
  | cons x xs ih =>
    have hx := h x (List.mem_cons_self _ _)
    simp [scanErr, hx, ih (fun l hl => h l (List.mem_cons_of_mem _ hl))]

theorem utf8ByteSize_append (a b : String) :
    (a ++ b).utf8ByteSize = a.utf8ByteSize + b.utf8ByteSize := by
  obtain ⟨a⟩ := a
  obtain ⟨b⟩ := b
  show String.utf8ByteSize ⟨a ++ b⟩ = _
  simp [String.utf8Len_append]

theorem utf8ByteSize_spaces (n : Nat) :
    (String.mk (List.replicate n ' ')).utf8ByteSize = n := by
  induction n with
  | zero => rfl
  | succ n ih =>
    simp only [String.utf8ByteSize_mk] at ih ⊢
    rw [List.replicate_succ, String.utf8Len_cons, ih]
    simp [Char.utf8Size]

/-- A line that ends in `padding` does not fit the buffer of the scanner. -/
theorem padded_too_long (line : String) :
    MaxScanTokenSize ≤ (line ++ Subprocess.padding).utf8ByteSize := by
  rw [utf8ByteSize_append]
  unfold Subprocess.padding
  rw [utf8ByteSize_spaces]
  omega

namespace Subprocess

theorem mem_of_mapGet {m : List (String × Nat)} {id : String} {ch : Nat}
    (h : mapGet m id = some ch) : (id, ch) ∈ m := by
  induction m with
  | nil => simp [mapGet] at h
  | cons e m ih =>
    obtain ⟨k, v⟩ := e
    by_cases hk : id = k
    · subst hk
      simp [mapGet, List.lookup] at h
      simp [h]
    · have hb : (id == k) = false := by simpa using hk
      simp only [mapGet, List.lookup, hb] at h
      exact List.mem_cons_of_mem _ (ih h)

theorem mapGet_isSome_of_mem_keys {m : List (String × Nat)} {id : String}
    (h : id ∈ m.map Prod.fst) : ∃ ch, mapGet m id = some ch := by
  induction m with
  | nil => simp at h
  | cons e m ih =>
    obtain ⟨k, v⟩ := e
    by_cases hk : id = k
    · subst hk
      exact ⟨v, by simp [mapGet, List.lookup]⟩
    · have hb : (id == k) = false := by simpa using hk
      have hm : id ∈ m.map Prod.fst := by
        simpa [hk] using h
      obtain ⟨ch, hch⟩ := ih hm
      exact ⟨ch, by simpa [mapGet, List.lookup, hb] using hch⟩

theorem mapGet_eq_none_of_not_mem_keys {m : List (String × Nat)} {id : String}
    (h : id ∉ m.map Prod.fst) : mapGet m id = none := by
  cases hg : mapGet m id with
  | none => rfl
  | some ch =>
    exact absurd (List.mem_map_of_mem Prod.fst (mem_of_mapGet hg)) h

theorem readLine_malformed (unmarshal : String → Option JSONRPCResponse) (c : Client)
    (line : String) (h : unmarshal line = none) : readLine unmarshal c line = some c := by
  simp [readLine, h]

theorem readResponses_append (unmarshal : String → Option JSONRPCResponse) (xs ys : List String)
    (c : Client) :
    readResponses.loop unmarshal c (xs ++ ys) =
      (readResponses.loop unmarshal c xs).bind (fun c1 => readResponses.loop unmarshal c1 ys) := by
  induction xs generalizing c with
  | nil => simp [readResponses.loop]
  | cons x xs ih =>
    simp only [List.cons_append, readResponses.loop]
    cases readLine unmarshal c x with
    | none => simp
    | some c1 => simpa using ih c1

/-- One delivery: a response whose id is registered, on a registry of pending
calls, is written to the registered channel and the entry is removed. -/
theorem readLine_deliver (unmarshal : String → Option JSONRPCResponse) (c : Client)
    (line : String) (r : JSONRPCResponse) (ch : Nat) (hp : Pending c)
    (hl : unmarshal line = some r) (hg : mapGet c.responses r.ID = some ch) :
    readLine unmarshal c line =
      some { c with chans := c.chans.set ch (some r), responses := mapDelete c.responses r.ID } := by
  have hmem := mem_of_mapGet hg
  have hempty : c.chans[ch]? = some none := hp.2.2 _ hmem
  simp [readLine, hl, hg, chanSend, hempty]

theorem pending_after_deliver (c : Client) (r : JSONRPCResponse) (ch : Nat) (hp : Pending c)
    (hmem : (r.ID, ch) ∈ c.responses) :
    Pending { c with chans := c.chans.set ch (some r), responses := mapDelete c.responses r.ID } := by
  obtain ⟨hk, hv, he⟩ := hp
  refine ⟨?_, ?_, ?_⟩
  · exact List.Nodup.sublist (List.Sublist.map _ (List.filter_sublist _)) hk
  · exact List.Nodup.sublist (List.Sublist.map _ (List.filter_sublist _)) hv
  · intro e hmem1
    simp only [mapDelete, List.mem_filter, bne_iff_ne, ne_eq] at hmem1
    have hne : ch ≠ e.2 := by
      intro hch
      have := List.inj_on_of_nodup_map hv hmem hmem1.1 hch
      exact hmem1.2 (by rw [← this])
    simp only
    rw [List.getElem?_set_ne hne]
    exact he e hmem1.1

theorem pending_newClient : Pending NewClient := by
  decide

/-- Registering a call keeps the registry one of pending calls: `Call` makes a
fresh, empty channel for the id it inserts. -/
theorem pending_call_start {P : Type} (id : String)
    (marshal : JSONRPCRequest P → Except String String) (write : String → Except String Unit)
    (c : Client) (method : String) (params : P) (hp : Pending c) :
    Pending (Call.start id marshal write c method params).2 := by
  obtain ⟨hk, hv, he⟩ := hp
  have hlt : ∀ e ∈ c.responses, e.2 < c.chans.length := fun e h =>
    (List.getElem?_eq_some_iff.1 (he e h)).1
  have key : Pending
      { c with responses := mapSet c.responses id c.chans.length, chans := c.chans ++ [none] } := by
    refine ⟨?_, ?_, ?_⟩
    · simp only [mapSet, mapDelete, List.map_cons, List.nodup_cons]
      refine ⟨?_, List.Nodup.sublist (List.Sublist.map _ (List.filter_sublist _)) hk⟩
      simp only [List.mem_map, List.mem_filter, bne_iff_ne, ne_eq, not_exists, not_and]
      intro e he1 h
      exact he1.2 h
    · simp only [mapSet, mapDelete, List.map_cons, List.nodup_cons]
      refine ⟨?_, List.Nodup.sublist (List.Sublist.map _ (List.filter_sublist _)) hv⟩
      simp only [List.mem_map, List.mem_filter, not_exists, not_and]
      intro e he1 h
      have := hlt e he1.1
      omega
    · intro e hmem
      simp only [mapSet, mapDelete, List.mem_cons, List.mem_filter] at hmem
      rcases hmem with h | h
      · subst h
        simp
      · have h1 := hlt e h.1
        simp only
        rw [List.getElem?_append_left h1]
        exact he e h.1
  unfold Call.start
  by_cases hc : c.closed = true
  · simp only [hc, if_true]
    exact ⟨hk, hv, he⟩
  · simp only [hc, Bool.false_eq_true, if_false]
    split
    · exact key
    · split
      · exact key
      · exact key

/-- Delivery of a batch of responses with pairwise distinct registered ids. -/
theorem readResponses_deliver (unmarshal : String → Option JSONRPCResponse) :
    ∀ (rs : List JSONRPCResponse) (lines : List String) (c : Client),
      lines.map unmarshal = rs.map some → Pending c →
      (rs.map (fun r => r.ID)).Nodup →
      (∀ r ∈ rs, r.ID ∈ c.responses.map Prod.fst) →
      ∃ c1, readResponses.loop unmarshal c lines = some c1 ∧
        c1.responses = c.responses.filter (fun e => decide (e.1 ∉ rs.map (fun r => r.ID))) ∧
        (∀ e ∈ c.responses, ∀ r ∈ rs, r.ID = e.1 → slot c1.chans e.2 = some r) ∧
        (∀ ch, (∀ e ∈ c.responses, e.1 ∈ rs.map (fun r => r.ID) → e.2 ≠ ch) →
          c1.chans[ch]? = c.chans[ch]?) := by
  intro rs
  induction rs with
  | nil =>
    intro lines c hl _ _ _
    have : lines = [] := by simpa using hl
    subst this
    exact ⟨c, rfl, by simp, by simp, by simp⟩
  | cons r rs ih =>
    intro lines c hl hp hnd hin
    cases lines with
    | nil => simp at hl
    | cons line lines =>
      simp only [List.map_cons, List.cons.injEq] at hl
      obtain ⟨hline, hrest⟩ := hl
      obtain ⟨ch, hg⟩ := mapGet_isSome_of_mem_keys (hin r (List.mem_cons_self _ _))
      have hmem := mem_of_mapGet hg
      have hstep := readLine_deliver unmarshal c line r ch hp hline hg
      have hp1 := pending_after_deliver c r ch hp hmem
      simp only [List.map_cons, List.nodup_cons, List.mem_map, not_exists, not_and] at hnd
      obtain ⟨hfresh, hnd1⟩ := hnd
      have hin1 : ∀ r1 ∈ rs, r1.ID ∈
          (mapDelete c.responses r.ID).map Prod.fst := by
        intro r1 hr1
        have h1 := hin r1 (List.mem_cons_of_mem _ hr1)
        simp only [List.mem_map] at h1 ⊢
        obtain ⟨e, he, hid⟩ := h1
        refine ⟨e, ?_, hid⟩
        simp only [mapDelete, List.mem_filter, bne_iff_ne, ne_eq]
        exact ⟨he, fun h => hfresh r1 hr1 (by rw [← hid, h])⟩
      obtain ⟨c1, hrun, hreg, hslots, hframe⟩ := ih lines _ hrest hp1 hnd1 hin1
      have hother : ∀ e ∈ mapDelete c.responses r.ID, e.2 ≠ ch := by
        intro e he hch
        simp only [mapDelete, List.mem_filter, bne_iff_ne, ne_eq] at he
        have := List.inj_on_of_nodup_map hp.2.1 hmem he.1 hch.symm
        exact he.2 (by rw [← this])
      refine ⟨c1, ?_, ?_, ?_, ?_⟩
      · simp only [readResponses.loop, hstep]
        exact hrun
      · rw [hreg]
        simp only [mapDelete, List.filter_filter]
        apply List.filter_congr
        intro e _
        by_cases h1 : e.1 = r.ID <;> by_cases h2 : e.1 ∈ rs.map (fun r => r.ID) <;>
          simp [h1, h2]
      · intro e he r1 hr1 hid
        rcases List.mem_cons.1 hr1 with h | h
        · subst h
          have hee : e = (r1.ID, ch) := by
            have := List.inj_on_of_nodup_map hp.1 he hmem hid.symm
            exact this
          subst hee
          have h2 := hframe ch (fun e1 he1 _ => hother e1 he1)
          simp only at h2
          have hlt : ch < c.chans.length := by
            have := hp.2.2 _ hmem
            simp only at this
            exact (List.getElem?_eq_some_iff.1 this).1
          simp [slot, h2, List.getElem?_set, hlt]
        · have he1 : e ∈ mapDelete c.responses r.ID := by
            simp only [mapDelete, List.mem_filter, bne_iff_ne, ne_eq]
            exact ⟨he, fun h1 => hfresh r1 h (by rw [hid, h1])⟩
          exact hslots e he1 r1 h hid
      · intro ch1 hch1
        have hne : ch ≠ ch1 := by
          intro h
          exact hch1 _ hmem (by simp) h
        have h2 := hframe ch1 (by
          intro e he hid
          simp only [mapDelete, List.mem_filter, bne_iff_ne, ne_eq] at he
          exact hch1 e he.1 (by simp only [List.map_cons, List.mem_cons]; exact Or.inr hid))
        rw [h2]
        simp only
        exact List.getElem?_set_ne hne

/-- C1 (as stated) fails: the call with id `a` is pending and the child answers it
with a well-formed response of more than 64 KiB; the scanner gives up on that
line, so the reader ends with the registry as it was and the slot of the call
still empty. -/
theorem long_response_ends_reader :
    wideUnmarshal longLineA = some respA ∧
      onePending.responses = [("a", 0)] ∧
      readResponses wideUnmarshal onePending [longLineA] = some onePending ∧
      slot onePending.chans 0 = none := by
  refine ⟨if_pos rfl, by decide, ?_, by decide⟩
  have h := scanTokens_append_long [] longLineA [] (padded_too_long lineA)
  simp only [List.nil_append] at h
  unfold readResponses
  rw [h]
  rfl

/-- C1, amended: on a registry of pending calls with pairwise distinct ids, the
reader run over any sequence of well-formed responses, each shorter than
64 KiB, holding exactly one response per pending id (in any order) finishes,
empties the registry, and leaves in each pending call's slot exactly the
response carrying that call's id, which is what the parked caller then
receives; no slot holds a response with another id.  A line of 64 KiB or more
ends the reader: what comes from it on is never seen. -/
theorem readResponses_routes_by_id (unmarshal : String → Option JSONRPCResponse) (c : Client)
    (lines : List String) (rs : List JSONRPCResponse) (long : String) (rest : List String)
    (hp : Pending c)
    (hfit : ∀ line ∈ lines, line.utf8ByteSize < MaxScanTokenSize)
    (hl : lines.map (fun line => unmarshal (dropCR line)) = rs.map some)
    (hperm : (rs.map (fun r => r.ID)).Perm (c.responses.map Prod.fst))
    (hlong : MaxScanTokenSize ≤ long.utf8ByteSize) :
    (∃ c1, readResponses unmarshal c lines = some c1 ∧ c1.responses = [] ∧
      ∀ e ∈ c.responses,
        (∃ r ∈ rs, r.ID = e.1 ∧ slot c1.chans e.2 = some r ∧
          (Call.await c1 e.2).map Prod.fst = some (Call.finish r)) ∧
        (∀ r, slot c1.chans e.2 = some r → r.ID = e.1)) ∧
    readResponses unmarshal c (lines ++ long :: rest) = readResponses unmarshal c lines := by
  have hnd : (rs.map (fun r => r.ID)).Nodup := hperm.nodup_iff.2 hp.1
  have hin : ∀ r ∈ rs, r.ID ∈ c.responses.map Prod.fst := fun r hr =>
    hperm.subset (List.mem_map_of_mem (fun r => r.ID) hr)
  have hl1 : (lines.map dropCR).map unmarshal = rs.map some := by
    rw [List.map_map]
    exact hl
  obtain ⟨c1, hrun, hreg, hslots, -⟩ :=
    readResponses_deliver unmarshal rs (lines.map dropCR) c hl1 hp hnd hin
  refine ⟨⟨c1, ?_, ?_, ?_⟩, ?_⟩
  · unfold readResponses
    rw [scanTokens_of_fit lines hfit]
    exact hrun
  · rw [hreg, List.filter_eq_nil_iff]
    intro e he
    have : e.1 ∈ rs.map (fun r => r.ID) := hperm.symm.subset (List.mem_map_of_mem Prod.fst he)
    simpa using this
  · intro e he
    have hid : e.1 ∈ rs.map (fun r => r.ID) :=
      hperm.symm.subset (List.mem_map_of_mem Prod.fst he)
    obtain ⟨r, hr, hre⟩ := List.mem_map.1 hid
    have hs := hslots e he r hr hre
    refine ⟨⟨r, hr, hre, hs, ?_⟩, ?_⟩
    · simp [Call.await, hs]
    · intro r1 hr1
      rw [hs] at hr1
      cases hr1
      exact hre
  · unfold readResponses
    rw [scanTokens_append_long lines long rest hlong]

theorem readResponses_routes_by_id_witness :
    (∃ c1, readResponses exampleUnmarshal twoPending [lineB, lineA] = some c1 ∧
      c1.responses = [] ∧
      ∀ e ∈ twoPending.responses,
        (∃ r ∈ [respB, respA], r.ID = e.1 ∧ slot c1.chans e.2 = some r ∧
          (Call.await c1 e.2).map Prod.fst = some (Call.finish r)) ∧
        (∀ r, slot c1.chans e.2 = some r → r.ID = e.1)) ∧
    readResponses exampleUnmarshal twoPending ([lineB, lineA] ++ longLineA :: [lineA]) =
      readResponses exampleUnmarshal twoPending [lineB, lineA] :=
  readResponses_routes_by_id exampleUnmarshal twoPending [lineB, lineA] [respB, respA] longLineA
    [lineA] (by decide) (by decide) (by decide) (by decide) (padded_too_long lineA)

/-- C7: a well-formed response whose id has no entry in the registry is dropped:
the iteration of the reader returns the client as it was, registry, slots and
all, whatever the state. -/
theorem readLine_unknown_id_dropped (unmarshal : String → Option JSONRPCResponse) (c : Client)
    (line : String) (r : JSONRPCResponse) (hl : unmarshal line = some r)
    (hno : r.ID ∉ c.responses.map Prod.fst) : readLine unmarshal c line = some c := by
  simp [readLine, hl, mapGet_eq_none_of_not_mem_keys hno]

theorem readLine_unknown_id_dropped_witness :
    readLine exampleUnmarshal onePending lineB = some onePending :=
  readLine_unknown_id_dropped exampleUnmarshal onePending lineB respB (by decide) (by decide)

/-- C8 (as stated) fails: a line of more than 64 KiB that is no JSON stops the
reader.  With the calls `a` and `b` pending, the run over the response for `b`,
that line and the response for `a` leaves `a` registered, while the run
without the line delivers both responses. -/
theorem long_malformed_line_stops_reader :
    (readResponses exampleUnmarshal twoPending ([lineB] ++ [longJunk] ++ [lineA])).map
        (fun c => c.responses) = some [("a", 0)] ∧
      (readResponses exampleUnmarshal twoPending ([lineB] ++ [lineA])).map
        (fun c => c.responses) = some [] ∧
      readResponses exampleUnmarshal twoPending ([lineB] ++ [longJunk] ++ [lineA]) ≠
        readResponses exampleUnmarshal twoPending ([lineB] ++ [lineA]) := by
  have h1 : readResponses exampleUnmarshal twoPending ([lineB] ++ [longJunk] ++ [lineA]) =
      readResponses exampleUnmarshal twoPending [lineB] := by
    have h := scanTokens_append_long [lineB] longJunk [lineA] (padded_too_long "not json")
    unfold readResponses
    exact congrArg (readResponses.loop exampleUnmarshal twoPending) h
  rw [h1]
  decide

/-- C8, amended: a line shorter than 64 KiB that does not parse neither stops the
reader nor changes any state: running the reader over `xs ++ [m] ++ ys` gives
the same outcome (same slots, same registry) as running it over `xs ++ ys`.
A line of 64 KiB or more, parsable or not, ends the reader. -/
theorem readResponses_skips_malformed (unmarshal : String → Option JSONRPCResponse) (c : Client)
    (xs ys : List String) (m long : String) (hfit : m.utf8ByteSize < MaxScanTokenSize)
    (hm : unmarshal (dropCR m) = none) (hlong : MaxScanTokenSize ≤ long.utf8ByteSize) :
    readResponses unmarshal c (xs ++ [m] ++ ys) = readResponses unmarshal c (xs ++ ys) ∧
      readResponses unmarshal c (xs ++ [long] ++ ys) = readResponses unmarshal c xs := by
  constructor
  · unfold readResponses
    induction xs generalizing c with
    | nil =>
      show readResponses.loop unmarshal c (scanTokens (m :: ys)) =
        readResponses.loop unmarshal c (scanTokens ys)
      simp only [scanTokens, hfit, if_true, readResponses.loop,
        readLine_malformed unmarshal c (dropCR m) hm]
    | cons x xs ih =>
      by_cases hx : x.utf8ByteSize < MaxScanTokenSize
      · simp only [List.cons_append, scanTokens, hx, if_true, readResponses.loop]
        cases readLine unmarshal c (dropCR x) with
        | none => rfl
        | some c1 => exact ih c1
      · simp only [List.cons_append, scanTokens, hx, if_false]
  · unfold readResponses
    rw [List.append_assoc, List.singleton_append, scanTokens_append_long xs long ys hlong]

theorem readResponses_skips_malformed_witness :
    readResponses exampleUnmarshal twoPending ([lineB] ++ ["not json"] ++ [lineA]) =
        readResponses exampleUnmarshal twoPending ([lineB] ++ [lineA]) ∧
      readResponses exampleUnmarshal twoPending ([lineB] ++ [longJunk] ++ [lineA]) =
        readResponses exampleUnmarshal twoPending [lineB] :=
  readResponses_skips_malformed exampleUnmarshal twoPending [lineB] [lineA] "not json" longJunk
    (by decide) (by decide) (padded_too_long "not json")

/-- C3 (as the code has it): neither the end of the reader's input nor `Close`
touches the registry or any response channel; `Close` only raises the `closed`
flag.  A caller parked before stays parked, and only a `Call` begun after
`Close` fails, with `client is closed`, registering nothing. -/
theorem close_and_eof_leave_pending (unmarshal : String → Option JSONRPCResponse) (c : Client) :
    readResponses unmarshal c [] = some c ∧
      (Close c).responses = c.responses ∧ (Close c).chans = c.chans ∧
      (∀ ch, (Call.await (Close c) ch).map Prod.fst = (Call.await c ch).map Prod.fst) ∧
      ∀ (id method : String) (marshal : JSONRPCRequest Unit → Except String String)
        (write : String → Except String Unit),
        Call.start id marshal write (Close c) method () =
          (CallStart.returned "client is closed", Close c) := by
  refine ⟨rfl, rfl, rfl, ?_, ?_⟩
  · intro ch
    simp only [Call.await, Close]
    cases slot c.chans ch <;> rfl
  · intro id method marshal write
    simp [Call.start, Close]

/-- C3 (as stated) fails: with one call parked, after the reader has reached the
end of its input and `Close` has run, the registry still holds the entry and
the caller's receive still blocks. -/
theorem close_wakes_nobody :
    readResponses exampleUnmarshal onePending [] = some onePending ∧
      (Close onePending).responses = [("a", 0)] ∧
      Call.await (Close onePending) 0 = none :=
  ⟨by decide, by decide, rfl⟩

/-- C4 at the failing input: `Call` on a client whose pipe is broken returns the
write error, and the entry it registered for its id is still in the registry
(likewise when `json.Marshal` fails). -/
theorem call_write_failure_leaks_entry :
    (Call.start "a" exampleMarshal writeBroken NewClient "tools/list" ()).1 =
        CallStart.returned "failed to write request: write |1: broken pipe" ∧
      mapGet (Call.start "a" exampleMarshal writeBroken NewClient "tools/list" ()).2.responses "a" =
        some 0 ∧
      (Call.start "a" (fun _ => Except.error "json: unsupported value: NaN") writeOk NewClient
          "tools/call" ()).2.responses = [("a", 0)] := by
  decide

end Subprocess

/-- C6: in both clients a delivered response with a non-nil error object makes
`Call` return no result and an error whose text holds the peer's code (in
decimal) and message, also when the response carries a result member.  For the
HTTP client "delivered" means the reply had status 200 and its body decoded. -/
theorem call_surfaces_protocol_error {P : Type} (env : HttpMcp.Env P) (c : HttpMcp.Client)
    (method : String) (params : P) (reqBody body : String) (resp : HttpMcp.Response)
    (response : JSONRPCResponse) (e : JSONRPCError) (he : response.Error = some e)
    (hm : env.marshal { JSONRPC := "2.0", ID := env.uuid, Method := method, Params := params } =
      .ok reqBody)
    (hn : env.newRequest "POST" c.baseURL = .ok ())
    (hr : ∀ req, env.roundTrip req = .ok resp) (hs : resp.StatusCode = 200)
    (hb : resp.Body = .ok body) (hu : env.unmarshal body = .ok response) :
    Subprocess.Call.finish response =
        .error ("JSON-RPC error " ++ fmtInt e.Code ++ ": " ++ e.Message) ∧
      (HttpMcp.Call env c method params).1 =
        .error ("MCP error " ++ fmtInt e.Code ++ ": " ++ e.Message) := by
  refine ⟨by simp [Subprocess.Call.finish, he], ?_⟩
  simp [HttpMcp.Call, hm, hn, hr, hs, hb, hu, he]

theorem call_surfaces_protocol_error_witness :
    Subprocess.Call.finish HttpMcp.errorResponse =
        .error "JSON-RPC error -32601: Method not found" ∧
      (HttpMcp.Call HttpMcp.exampleEnv (HttpMcp.NewClient "http://127.0.0.1:3333" "header")
          "tools/list" ()).1 = .error "MCP error -32601: Method not found" :=
  call_surfaces_protocol_error HttpMcp.exampleEnv (HttpMcp.NewClient "http://127.0.0.1:3333" "header")
    "tools/list" () "\x7b\"id\":\"x\",\"method\":\"tools/list\"\x7d" HttpMcp.errorBody
    { StatusCode := 200, Body := .ok HttpMcp.errorBody } HttpMcp.errorResponse
    { Code := -32601, Message := "Method not found", Data := none } rfl rfl rfl (fun _ => rfl) rfl
    rfl rfl

theorem refreshCalls_emit (w : World) (e : Effect) :
    refreshCalls (w.emit e).trace =
      refreshCalls w.trace + (if e = Effect.call "RefreshToken" then 1 else 0) := by
  by_cases h : e = Effect.call "RefreshToken"
  · simp [refreshCalls, World.emit, List.count_append, h]
  · simp [refreshCalls, World.emit, List.count_append, List.count_singleton, h]

theorem saveToken_trace (env : Env) (s : TokenStorage) (t : Token) (w : World) :
    refreshCalls (SaveToken env s t w).2.trace = refreshCalls w.trace := by
  unfold SaveToken
  split
  · rfl
  · split
    · split
      · rfl
      · simp [refreshCalls, World.emit, List.count_append, List.count_singleton]
    · split
      · rfl
      · simp [refreshCalls, World.emit, List.count_append, List.count_singleton]

/-- The function `RefreshToken` is entered exactly once per call. -/
theorem refreshToken_calls (env : Env) (f : AuthFlow) (w : World) :
    refreshCalls (RefreshToken env f w).2.trace = refreshCalls w.trace + 1 := by
  unfold RefreshToken
  simp only
  split
  · simp [refreshCalls_emit]
  · split
    · simp [refreshCalls_emit]
    · split
      · simp [refreshCalls_emit]
      · split
        · simp [refreshCalls_emit]
        · split
          · simp [refreshCalls_emit]
          · simp only [timeNow]
            split
            · rename_i h
              have := congrArg (fun p => refreshCalls p.2.trace) h
              simp only [saveToken_trace] at this
              show refreshCalls _ = _
              simp [← this, refreshCalls_emit]
            · rename_i h
              have := congrArg (fun p => refreshCalls p.2.trace) h
              simp only [saveToken_trace] at this
              show refreshCalls _ = _
              simp [← this, refreshCalls_emit]

theorem stale_iff (token : Token) (now : Int) :
    (token.IsExpired now || token.IsExpiringSoon now (5 * Minute)) =
      decide (token.ExpiresAt < now + 5 * Minute) := by
  have hm : (0 : Int) < 5 * Minute := by decide
  rw [Bool.eq_iff_iff]
  simp only [Token.IsExpired, Token.IsExpiringSoon, Bool.or_eq_true, decide_eq_true_eq, gt_iff_lt]
  constructor
  · rintro (h | h) <;> omega
  · intro h
    exact Or.inr h

/-- After a refresh, `EnsureAuthenticated` leaves the surroundings as `RefreshToken`
left them. -/
theorem ensure_after_refresh_world (env : Env) (a : Agent) (r : Option String × World) :
    (match r with
      | (some err, w) => (some ("failed to refresh token: " ++ err), a, w)
      | (none, w) =>
        match LoadToken env a.storage w with
        | .error err => (some ("failed to reload token: " ++ err), a, w)
        | .ok token =>
          (none, { a with mcpClient := HttpMcp.SetToken a.mcpClient token.AccessToken }, w)).2.2 =
      r.2 := by
  obtain ⟨e, w⟩ := r
  cases e with
  | some err => rfl
  | none =>
    simp only
    cases LoadToken env a.storage w <;> rfl

/-- C5: against a single clock reading `now`, `EnsureAuthenticated` on a stored token
enters `RefreshToken` exactly when the token's `expires_at` is strictly before
`now` + 5 minutes (once then, never otherwise); a token expiring one minute
from `now` is refreshed, one expiring an hour from `now` is not, and the
`IsExpired` disjunct adds nothing to the `IsExpiringSoon` one. -/
theorem ensureAuthenticated_refreshes_iff_expiring (env : Env) (a : Agent) (w : World)
    (token : Token) (now : Int) (hload : LoadToken env a.storage w = .ok token)
    (hclock : ∀ i, env.clock i = now) :
    refreshCalls (EnsureAuthenticated env a w).2.2.trace =
        refreshCalls w.trace + (if token.ExpiresAt < now + 5 * Minute then 1 else 0) ∧
      (token.ExpiresAt = now + Minute →
        refreshCalls (EnsureAuthenticated env a w).2.2.trace = refreshCalls w.trace + 1) ∧
      (token.ExpiresAt = now + Hour →
        refreshCalls (EnsureAuthenticated env a w).2.2.trace = refreshCalls w.trace) ∧
      (token.IsExpired now || token.IsExpiringSoon now (5 * Minute)) =
        token.IsExpiringSoon now (5 * Minute) := by
  have key : refreshCalls (EnsureAuthenticated env a w).2.2.trace =
      refreshCalls w.trace + (if token.ExpiresAt < now + 5 * Minute then 1 else 0) := by
    unfold EnsureAuthenticated
    rw [hload]
    simp only [timeNow, hclock]
    by_cases h1 : token.IsExpired now = true
    · have h2 : token.ExpiresAt < now + 5 * Minute := by
        have := stale_iff token now
        simpa [h1] using this.symm
      simp only [h1, if_true, h2]
      rw [ensure_after_refresh_world, refreshToken_calls, refreshCalls_emit]
      simp [refreshCalls]
    · have h3 := stale_iff token now
      simp only [h1, Bool.false_or] at h3
      simp only [h1, h3]
      by_cases h2 : token.ExpiresAt < now + 5 * Minute
      · simp only [h2, decide_True, if_true, Bool.false_eq_true, if_false]
        rw [ensure_after_refresh_world, refreshToken_calls, refreshCalls_emit]
        simp [refreshCalls]
      · simp [h2, refreshCalls]
  refine ⟨key, ?_, ?_, ?_⟩
  · intro h
    rw [key, if_pos]
    rw [h]
    have : Minute < 5 * Minute := by decide
    omega
  · intro h
    rw [key, if_neg]
    · rfl
    · rw [h]
      have : 5 * Minute < Hour := by decide
      omega
  · rw [stale_iff]
    simp [Token.IsExpiringSoon]

theorem ensureAuthenticated_refreshes_iff_expiring_witness :
    refreshCalls (EnsureAuthenticated (exampleEnv 0 [tokenExpiringIn Minute] (200, "") [])
        exampleAgent (worldWith (tokenExpiringIn Minute))).2.2.trace =
        refreshCalls (worldWith (tokenExpiringIn Minute)).trace +
          (if (tokenExpiringIn Minute).ExpiresAt < 0 + 5 * Minute then 1 else 0) ∧
      ((tokenExpiringIn Minute).ExpiresAt = 0 + Minute →
        refreshCalls (EnsureAuthenticated (exampleEnv 0 [tokenExpiringIn Minute] (200, "") [])
          exampleAgent (worldWith (tokenExpiringIn Minute))).2.2.trace =
          refreshCalls (worldWith (tokenExpiringIn Minute)).trace + 1) ∧
      ((tokenExpiringIn Minute).ExpiresAt = 0 + Hour →
        refreshCalls (EnsureAuthenticated (exampleEnv 0 [tokenExpiringIn Minute] (200, "") [])
          exampleAgent (worldWith (tokenExpiringIn Minute))).2.2.trace =
          refreshCalls (worldWith (tokenExpiringIn Minute)).trace) ∧
      ((tokenExpiringIn Minute).IsExpired 0 || (tokenExpiringIn Minute).IsExpiringSoon 0 (5 * Minute)) =
        (tokenExpiringIn Minute).IsExpiringSoon 0 (5 * Minute) :=
  ensureAuthenticated_refreshes_iff_expiring (exampleEnv 0 [tokenExpiringIn Minute] (200, "") [])
    exampleAgent (worldWith (tokenExpiringIn Minute)) (tokenExpiringIn Minute) 0 (by rfl)
    (fun _ => rfl)

/-! ### Query strings: decoding undoes encoding -/

namespace Url

theorem unhex_hexDigit : ∀ n < 16, unhex (hexDigit n) = some n := by decide

theorem unescape_cons (c : Char) (rest : List Char) :
    unescape (c :: rest) =
      if c = '%' then
        match rest with
        | a :: b :: rest2 =>
          match unhex a, unhex b, unescape rest2 with
          | some x, some y, some r => some ((16 * x + y) :: r)
          | _, _, _ => none
        | _ => none
      else if c = '+' then (unescape rest).map (fun r => 32 :: r)
      else (unescape rest).map (fun r => (String.utf8EncodeChar c).map UInt8.toNat ++ r) := by
  rcases rest with _ | ⟨a, _ | ⟨b, r2⟩⟩ <;> rfl

set_option maxRecDepth 100000 in
theorem plain_byte : ∀ b < 256, shouldEscape b = false →
    Char.ofNat b ≠ '%' ∧ Char.ofNat b ≠ '+' ∧
      (String.utf8EncodeChar (Char.ofNat b)).map UInt8.toNat = [b] := by decide

set_option maxRecDepth 100000 in
theorem escapeByte_clean : ∀ b < 256, ∀ c ∈ escapeByte b, c ≠ '&' ∧ c ≠ '=' ∧ c ≠ ';' := by
  decide

theorem utf8_lt (s : String) : ∀ b ∈ utf8 s, b < 256 := by
  intro b hb
  simp only [utf8, List.mem_map] at hb
  obtain ⟨x, -, rfl⟩ := hb
  exact x.val.isLt

theorem unescape_escapeByte (b : Nat) (hb : b < 256) (rest : List Char) :
    unescape (escapeByte b ++ rest) = (unescape rest).map (fun r => b :: r) := by
  unfold escapeByte
  by_cases h32 : b = 32
  · subst h32
    have hp : ('+' : Char) ≠ '%' := by decide
    simp only [if_true, List.cons_append, List.nil_append]
    rw [unescape_cons, if_neg hp, if_pos rfl]
  · simp only [h32, if_false]
    by_cases hesc : shouldEscape b = true
    · have h1 := unhex_hexDigit (b / 16) (by omega)
      have h2 := unhex_hexDigit (b % 16) (by omega)
      have h3 : 16 * (b / 16) + b % 16 = b := Nat.div_add_mod b 16
      simp only [hesc, if_true, List.cons_append, List.nil_append]
      rw [unescape_cons, if_pos rfl]
      simp only [h1, h2]
      cases unescape rest <;> simp [h3]
    · have hesc2 : shouldEscape b = false := by simpa using hesc
      obtain ⟨p1, p2, p3⟩ := plain_byte b hb hesc2
      simp only [hesc2, List.cons_append, List.nil_append]
      simp only [Bool.false_eq_true, if_false, List.cons_append, List.nil_append]
      rw [unescape_cons, if_neg p1, if_neg p2, p3]
      rfl

theorem unescape_flatMap (bs : List Nat) (hbs : ∀ b ∈ bs, b < 256) (rest : List Char) :
    unescape (bs.flatMap escapeByte ++ rest) = (unescape rest).map (fun r => bs ++ r) := by
  induction bs with
  | nil =>
    simp only [List.flatMap_nil, List.nil_append]
    cases unescape rest <;> rfl
  | cons b bs ih =>
    rw [List.flatMap_cons, List.append_assoc, unescape_escapeByte b (hbs b (List.mem_cons_self _ _)),
      ih (fun x hx => hbs x (List.mem_cons_of_mem _ hx))]
    cases unescape rest <;> rfl

theorem unescape_escapeChars (s : String) : unescape (escapeChars s) = some (utf8 s) := by
  have := unescape_flatMap (utf8 s) (utf8_lt s) []
  simpa [escapeChars, unescape] using this

theorem escapeChars_clean (s : String) : ∀ c ∈ escapeChars s, c ≠ '&' ∧ c ≠ '=' ∧ c ≠ ';' := by
  intro c hc
  simp only [escapeChars, List.mem_flatMap] at hc
  obtain ⟨b, hb, hcb⟩ := hc
  exact escapeByte_clean b (utf8_lt s b hb) c hcb

theorem cut_append (sep : Char) (xs ys : List Char) (h : sep ∉ xs) :
    cut sep (xs ++ sep :: ys) = (xs, ys) := by
  induction xs with
  | nil => simp [cut]
  | cons x xs ih =>
    have hx : x ≠ sep := fun e => h (by simp [e])
    have hxs : sep ∉ xs := fun e => h (List.mem_cons_of_mem _ e)
    simp [cut, hx, ih hxs]

theorem splitAmp_single (xs : List Char) (h : '&' ∉ xs) : splitAmp xs = [xs] := by
  induction xs with
  | nil => rfl
  | cons x xs ih =>
    have hx : x ≠ '&' := fun e => h (by simp [e])
    have hxs : '&' ∉ xs := fun e => h (List.mem_cons_of_mem _ e)
    simp [splitAmp, hx, ih hxs]

theorem splitAmp_append (xs ys : List Char) (h : '&' ∉ xs) :
    splitAmp (xs ++ '&' :: ys) = xs :: splitAmp ys := by
  induction xs with
  | nil => simp [splitAmp]
  | cons x xs ih =>
    have hx : x ≠ '&' := fun e => h (by simp [e])
    have hxs : '&' ∉ xs := fun e => h (List.mem_cons_of_mem _ e)
    simp [splitAmp, hx, ih hxs]

theorem encodePair_clean (p : String × String) :
    '&' ∉ encodePair p ∧ ';' ∉ encodePair p ∧ encodePair p ≠ [] := by
  refine ⟨?_, ?_, ?_⟩
  · intro h
    simp only [encodePair, List.mem_append, List.mem_cons] at h
    rcases h with h | h | h
    · exact (escapeChars_clean p.1 _ h).1 rfl
    · exact absurd h (by decide)
    · exact (escapeChars_clean p.2 _ h).1 rfl
  · intro h
    simp only [encodePair, List.mem_append, List.mem_cons] at h
    rcases h with h | h | h
    · exact (escapeChars_clean p.1 _ h).2.2 rfl
    · exact absurd h (by decide)
    · exact (escapeChars_clean p.2 _ h).2.2 rfl
  · simp [encodePair]

theorem parsePiece_encodePair (p : String × String) :
    parsePiece (encodePair p) = some (utf8 p.1, utf8 p.2) := by
  have hc := (encodePair_clean p).2.1
  have hk : '=' ∉ escapeChars p.1 := fun h => (escapeChars_clean p.1 _ h).2.1 rfl
  have hcut : cut '=' (encodePair p) = (escapeChars p.1, escapeChars p.2) := cut_append _ _ _ hk
  simp [parsePiece, hc, hcut, unescape_escapeChars]

theorem parsePieces_splitAmp_encodeChars (ps : List (String × String)) :
    parsePieces (splitAmp (encodeChars ps)) = some (ps.map (fun p => (utf8 p.1, utf8 p.2))) := by
  induction ps with
  | nil => simp [encodeChars, splitAmp, parsePieces]
  | cons p ps ih =>
    obtain ⟨h1, -, h3⟩ := encodePair_clean p
    have hne : (encodePair p).isEmpty = false := by
      cases h : encodePair p with
      | nil => exact absurd h h3
      | cons _ _ => rfl
    cases ps with
    | nil =>
      simp [encodeChars, splitAmp_single _ h1, parsePieces, hne, parsePiece_encodePair]
    | cons q qs =>
      simp only [encodeChars, splitAmp_append _ _ h1, parsePieces, hne, parsePiece_encodePair]
      rw [ih]
      simp

/-- Decoding an encoded set of values gives back the key-sorted parameters. -/
theorem parseQuery_encode (v : Values) :
    ParseQuery (Values.Encode v) = some ((sortByKey v).map (fun p => (utf8 p.1, utf8 p.2))) := by
  simp only [ParseQuery, Values.Encode]
  exact parsePieces_splitAmp_encodeChars _

end Url

/-! ### The authorize URL -/

/-- The parameters of the authorize URL in the order `Encode` emits them. -/
theorem sortByKey_authParams (f : AuthFlow) (challenge state : String) :
    Url.sortByKey
        (Url.Values.Set (Url.Values.Set (Url.Values.Set (Url.Values.Set (Url.Values.Set
          (Url.Values.Set [] "client_id" f.cfg.HubSpot.ClientID)
          "redirect_uri" f.cfg.HubSpot.RedirectURI) "scope" f.cfg.HubSpot.Scopes) "state" state)
          "code_challenge" challenge) "code_challenge_method" "S256") =
      [("client_id", f.cfg.HubSpot.ClientID), ("code_challenge", challenge),
        ("code_challenge_method", "S256"), ("redirect_uri", f.cfg.HubSpot.RedirectURI),
        ("scope", f.cfg.HubSpot.Scopes), ("state", state)] := by
  simp +decide [Url.Values.Set, Url.sortByKey, Url.insertByKey]

/-- The query of the authorize URL, decoded. -/
theorem parseQuery_authURL (f : AuthFlow) (challenge state : String) :
    ∃ q, buildAuthURL f challenge state = HubSpotAuthURL ++ "?" ++ q ∧
      Url.ParseQuery q = some
        [(Url.utf8 "client_id", Url.utf8 f.cfg.HubSpot.ClientID),
          (Url.utf8 "code_challenge", Url.utf8 challenge),
          (Url.utf8 "code_challenge_method", Url.utf8 "S256"),
          (Url.utf8 "redirect_uri", Url.utf8 f.cfg.HubSpot.RedirectURI),
          (Url.utf8 "scope", Url.utf8 f.cfg.HubSpot.Scopes),
          (Url.utf8 "state", Url.utf8 state)] := by
  refine ⟨_, rfl, ?_⟩
  rw [Url.parseQuery_encode, sortByKey_authParams]
  rfl

/-! ### Traces of the login flow -/

theorem tracePosts_append (xs ys : List Effect) :
    tracePosts (xs ++ ys) = tracePosts xs ++ tracePosts ys := by
  induction xs with
  | nil => rfl
  | cons x xs ih => cases x <;> simp [tracePosts, ih]

theorem tracePosts_emit (w : World) (e : Effect) :
    tracePosts (w.emit e).trace = tracePosts w.trace ++ tracePosts [e] := by
  simp [World.emit, tracePosts_append]

theorem mem_emit_of_mem (w : World) (e x : Effect) (h : x ∈ w.trace) : x ∈ (w.emit e).trace := by
  simp [World.emit, h]

theorem saveToken_posts (env : Env) (s : TokenStorage) (t : Token) (w : World) :
    tracePosts (SaveToken env s t w).2.trace = tracePosts w.trace := by
  unfold SaveToken
  split
  · rfl
  · split <;> split <;> simp [tracePosts_emit, tracePosts]

theorem saveToken_mem (env : Env) (s : TokenStorage) (t : Token) (w : World) (x : Effect)
    (h : x ∈ w.trace) : x ∈ (SaveToken env s t w).2.trace := by
  unfold SaveToken
  split
  · exact h
  · split <;> split <;> simp [World.emit, h]

theorem awaitCallback_posts (expectedState : String) (events : List LoginEvent) :
    ∀ (ch : CallbackChan) (w : World),
      tracePosts (awaitCallback expectedState events ch w).2.2.trace = tracePosts w.trace := by
  induction events with
  | nil =>
    intro ch w
    simp only [awaitCallback]
    split <;> rfl
  | cons ev rest ih =>
    intro ch w
    simp only [awaitCallback]
    split
    · rfl
    · split
      · rfl
      · rfl
      · rw [ih]
        simp [tracePosts_emit, tracePosts]

theorem awaitCallback_mem (expectedState : String) (events : List LoginEvent) (x : Effect) :
    ∀ (ch : CallbackChan) (w : World), x ∈ w.trace →
      x ∈ (awaitCallback expectedState events ch w).2.2.trace := by
  induction events with
  | nil =>
    intro ch w h
    simp only [awaitCallback]
    split <;> exact h
  | cons ev rest ih =>
    intro ch w h
    simp only [awaitCallback]
    split
    · exact h
    · split
      · exact h
      · exact h
      · exact ih _ _ (mem_emit_of_mem _ _ _ h)

theorem exchange_posts (env : Env) (f : AuthFlow) (code verifier : String) (w : World) :
    tracePosts (exchangeCodeForToken env f code verifier w).2.trace =
      tracePosts w.trace ++ [(HubSpotTokenURL, Url.Values.Encode (exchangeForm f code verifier))] := by
  unfold exchangeCodeForToken
  simp only
  split
  · simp [tracePosts_emit, tracePosts]
  · split
    · simp [tracePosts_emit, tracePosts]
    · split
      · simp [tracePosts_emit, tracePosts]
      · simp only [timeNow]
        split
        · rename_i h
          have := congrArg (fun p => tracePosts p.2.trace) h
          simp only [saveToken_posts] at this
          show tracePosts _ = _
          rw [← this]
          simp [tracePosts_emit, tracePosts]
        · rename_i h
          have := congrArg (fun p => tracePosts p.2.trace) h
          simp only [saveToken_posts] at this
          show tracePosts _ = _
          rw [tracePosts_emit, ← this]
          simp [tracePosts_emit, tracePosts]

theorem exchange_mem (env : Env) (f : AuthFlow) (code verifier : String) (w : World) (x : Effect)
    (h : x ∈ w.trace) : x ∈ (exchangeCodeForToken env f code verifier w).2.trace := by
  unfold exchangeCodeForToken
  simp only
  have h2 : x ∈ ((w.emit (.call "exchangeCodeForToken")).emit
      (.post HubSpotTokenURL (Url.Values.Encode (exchangeForm f code verifier)))).trace :=
    mem_emit_of_mem _ _ _ (mem_emit_of_mem _ _ _ h)
  split
  · exact h2
  · split
    · exact h2
    · split
      · exact h2
      · simp only [timeNow]
        split
        · rename_i h3
          have := congrArg Prod.snd h3
          simp only at this
          rw [← this]
          exact saveToken_mem _ _ _ _ _ h2
        · rename_i h3
          have := congrArg Prod.snd h3
          simp only at this
          apply mem_emit_of_mem
          rw [← this]
          exact saveToken_mem _ _ _ _ _ h2

theorem openBrowser_posts (env : Env) (url : String) (w : World) :
    tracePosts (openBrowser env url w).2.trace = tracePosts w.trace := by
  unfold openBrowser
  split
  · simp [tracePosts_emit, tracePosts]
  · split
    · simp [tracePosts_emit, tracePosts]
    · split <;> simp [tracePosts_emit, tracePosts]

theorem openBrowser_mem (env : Env) (url : String) (w : World) (x : Effect) (h : x ∈ w.trace) :
    x ∈ (openBrowser env url w).2.trace := by
  unfold openBrowser
  split
  · exact mem_emit_of_mem _ _ _ h
  · split
    · exact mem_emit_of_mem _ _ _ h
    · split
      · exact mem_emit_of_mem _ _ _ h
      · exact h

theorem stopCallbackServer_posts (f : AuthFlow) (w : World) :
    tracePosts (stopCallbackServer f w).trace = tracePosts w.trace := by
  unfold stopCallbackServer
  split <;> simp [tracePosts_emit, tracePosts]

theorem stopCallbackServer_mem (f : AuthFlow) (w : World) (x : Effect) (h : x ∈ w.trace) :
    x ∈ (stopCallbackServer f w).trace := by
  unfold stopCallbackServer
  split
  · exact mem_emit_of_mem _ _ _ (mem_emit_of_mem _ _ _ h)
  · exact mem_emit_of_mem _ _ _ h

theorem announce_logs_url (env : Env) (f : AuthFlow) (authURL : String) (w : World) :
    Effect.logInfo ("Please visit: " ++ authURL) ∈ (Login.announce env f authURL w).2.trace := by
  unfold Login.announce
  simp only [startCallbackServer]
  have h0 : Effect.logInfo ("Please visit: " ++ authURL) ∈
      (((w.emit (.logInfo "Opening browser for authorization...")).emit
        (.logInfo ("Please visit: " ++ authURL))).emit
          (.listen (":" ++ getCallbackPort env f))).trace := by
    simp [World.emit]
  have h1 := openBrowser_mem env authURL _ _ h0
  split
  · rename_i h
    have := congrArg Prod.snd h
    simp only at this
    apply mem_emit_of_mem
    apply mem_emit_of_mem
    rw [← this]
    exact h1
  · rename_i h
    have := congrArg Prod.snd h
    simp only at this
    rw [← this]
    exact h1

theorem announce_posts (env : Env) (f : AuthFlow) (authURL : String) (w : World) :
    tracePosts (Login.announce env f authURL w).2.trace = tracePosts w.trace := by
  unfold Login.announce
  simp only [startCallbackServer]
  have h1 := openBrowser_posts env authURL
    (((w.emit (.logInfo "Opening browser for authorization...")).emit
        (.logInfo ("Please visit: " ++ authURL))).emit (.listen (":" ++ getCallbackPort env f)))
  split
  · rename_i h
    have := congrArg Prod.snd h
    simp only at this
    rw [tracePosts_emit, tracePosts_emit, ← this, h1]
    simp [tracePosts_emit, tracePosts]
  · rename_i h
    have := congrArg Prod.snd h
    simp only at this
    rw [← this, h1]
    simp [tracePosts_emit, tracePosts]

theorem announce_cfg (env : Env) (f : AuthFlow) (authURL : String) (w : World) :
    (Login.announce env f authURL w).1.cfg = f.cfg := by
  unfold Login.announce
  simp only [startCallbackServer]
  split <;> rfl

theorem wait_mem (env : Env) (f : AuthFlow) (state verifier : String) (w : World) (x : Effect)
    (h : x ∈ w.trace) : x ∈ (Login.wait env f state verifier w).2.2.trace := by
  unfold Login.wait
  have h1 := awaitCallback_mem state env.events x f.callbackChan w h
  split
  · rename_i h2
    rw [h2] at h1
    exact exchange_mem _ _ _ _ _ _ (mem_emit_of_mem _ _ _ h1)
  · rename_i h2
    rw [h2] at h1
    exact h1
  · rename_i h2
    rw [h2] at h1
    exact h1

/-- The POSTs of the `select` phase: none, or one code exchange carrying the
verifier the phase was given. -/
theorem wait_posts (env : Env) (f : AuthFlow) (state verifier : String) (w : World) :
    ∃ codes : List String,
      tracePosts (Login.wait env f state verifier w).2.2.trace =
        tracePosts w.trace ++
          codes.map (fun c => (HubSpotTokenURL, Url.Values.Encode (exchangeForm f c verifier))) := by
  unfold Login.wait
  have h1 := awaitCallback_posts state env.events f.callbackChan w
  split
  · rename_i code ch w1 h2
    rw [h2] at h1
    refine ⟨[code], ?_⟩
    simp only [exchange_posts, tracePosts_emit, h1]
    simp [tracePosts, exchangeForm]
  · rename_i h2
    rw [h2] at h1
    exact ⟨[], by simpa using h1⟩
  · rename_i h2
    rw [h2] at h1
    exact ⟨[], by simpa using h1⟩

theorem login_logs_url (env : Env) (f : AuthFlow) (w : World) (verifier state : String)
    (hv : env.GenerateCodeVerifier = .ok verifier) (hs : env.GenerateState = .ok state) :
    Effect.logInfo ("Please visit: " ++ buildAuthURL f (env.GenerateCodeChallenge verifier) state) ∈
      (Login env f w).2.2.trace := by
  unfold Login
  simp only [hv, hs]
  exact stopCallbackServer_mem _ _ _ (wait_mem _ _ _ _ _ _ (announce_logs_url _ _ _ _))

theorem login_posts (env : Env) (f : AuthFlow) (w : World) (verifier state : String)
    (hv : env.GenerateCodeVerifier = .ok verifier) (hs : env.GenerateState = .ok state) :
    ∃ codes : List String,
      tracePosts (Login env f w).2.2.trace =
        tracePosts w.trace ++
          codes.map (fun c => (HubSpotTokenURL, Url.Values.Encode (exchangeForm f c verifier))) := by
  unfold Login
  simp only [hv, hs]
  obtain ⟨codes, hc⟩ := wait_posts env
    (Login.announce env f (buildAuthURL f (env.GenerateCodeChallenge verifier) state) w).1
    state verifier
    (Login.announce env f (buildAuthURL f (env.GenerateCodeChallenge verifier) state) w).2
  refine ⟨codes, ?_⟩
  rw [stopCallbackServer_posts, hc, announce_posts]
  simp [exchangeForm, announce_cfg]

/-- The body of the code exchange, decoded: the parameters in the order `Encode`
emits them, `client_secret` only for a configured secret. -/
theorem parseQuery_exchangeForm (f : AuthFlow) (code verifier : String) :
    Url.ParseQuery (Url.Values.Encode (exchangeForm f code verifier)) = some
      ((Url.utf8 "client_id", Url.utf8 f.cfg.HubSpot.ClientID) ::
        ((if f.cfg.HubSpot.ClientSecret != "" then
            [(Url.utf8 "client_secret", Url.utf8 f.cfg.HubSpot.ClientSecret)] else []) ++
          [(Url.utf8 "code", Url.utf8 code), (Url.utf8 "code_verifier", Url.utf8 verifier),
            (Url.utf8 "grant_type", Url.utf8 "authorization_code"),
            (Url.utf8 "redirect_uri", Url.utf8 f.cfg.HubSpot.RedirectURI)])) := by
  rw [Url.parseQuery_encode]
  unfold exchangeForm
  by_cases hsec : (f.cfg.HubSpot.ClientSecret != "") = true
  · simp +decide [hsec, Url.Values.Set, Url.sortByKey, Url.insertByKey]
  · simp +decide [hsec, Url.Values.Set, Url.sortByKey, Url.insertByKey]

theorem exchangeForm_verifier (f : AuthFlow) (code verifier : String) :
    Url.param (Url.ParseQuery (Url.Values.Encode (exchangeForm f code verifier))) "code_verifier" =
      some (Url.utf8 verifier) := by
  rw [parseQuery_exchangeForm]
  have k1 : (Url.utf8 "code_verifier" == Url.utf8 "client_id") = false := by decide
  have k2 : (Url.utf8 "code_verifier" == Url.utf8 "client_secret") = false := by decide
  have k3 : (Url.utf8 "code_verifier" == Url.utf8 "code") = false := by decide
  by_cases hsec : (f.cfg.HubSpot.ClientSecret != "") = true
  · simp [hsec, Url.param, List.lookup, k1, k2, k3]
  · simp [hsec, Url.param, List.lookup, k1, k3]

/-! ### The claims about the login flow -/

set_option maxRecDepth 100000 in
/-- C2 at the failing input: a redirect with a foreign state is answered with 400,
but the handler also closes `callbackChan`, the receive in `Login` yields the
empty string, and `Login` goes on to `exchangeCodeForToken`: it POSTs a code
exchange (with an empty code) to the token endpoint and, when that answers
200, persists the token and returns nil. -/
theorem login_exchanges_after_state_mismatch :
    (handleCallback "state-1" forgedCallback exampleFlow.callbackChan).status = 400 ∧
      (handleCallback "state-1" forgedCallback exampleFlow.callbackChan).body =
        "Invalid state parameter\n" ∧
      tracePosts (Login (exampleEnv 0 [] (200, tokenBody) [.callback forgedCallback]) exampleFlow
          emptyWorld).2.2.trace =
        [(HubSpotTokenURL,
          "client_id=client-1&code=&code_verifier=verifier-1&grant_type=authorization_code&redirect_uri=http%3A%2F%2F127.0.0.1%3A8400%2Foauth%2Fcallback")] ∧
      Effect.call "exchangeCodeForToken" ∈
        (Login (exampleEnv 0 [] (200, tokenBody) [.callback forgedCallback]) exampleFlow
          emptyWorld).2.2.trace ∧
      (Login (exampleEnv 0 [] (200, tokenBody) [.callback forgedCallback]) exampleFlow
          emptyWorld).1 = none ∧
      (Login (exampleEnv 0 [] (200, tokenBody) [.callback forgedCallback]) exampleFlow
          emptyWorld).2.2.file =
        .present (encodeToken
          { AccessToken := "AT1", RefreshToken := "RT1", ExpiresAt := 3600 * Second }) := by
  decide

set_option maxRecDepth 100000 in
/-- C9 (as stated) fails: the authorize URL that `Login` shows for the example
configuration has no `response_type` parameter. -/
theorem authURL_lacks_response_type :
    Effect.logInfo
        "Please visit: https://app.hubspot.com/oauth/authorize?client_id=client-1&code_challenge=challenge-of-verifier-1&code_challenge_method=S256&redirect_uri=http%3A%2F%2F127.0.0.1%3A8400%2Foauth%2Fcallback&scope=crm.objects.contacts.read+crm.objects.contacts.write&state=state-1" ∈
        (Login (exampleEnv 0 [] (200, tokenBody) [.callback goodCallback]) exampleFlow
          emptyWorld).2.2.trace ∧
      Url.param (Url.ParseQuery
        "client_id=client-1&code_challenge=challenge-of-verifier-1&code_challenge_method=S256&redirect_uri=http%3A%2F%2F127.0.0.1%3A8400%2Foauth%2Fcallback&scope=crm.objects.contacts.read+crm.objects.contacts.write&state=state-1")
        "response_type" = none := by
  decide

/-- C9 (as the code has it): the authorize URL that `Login` shows is the authorize
endpoint followed by a query whose parameters are exactly `client_id`,
`code_challenge`, `code_challenge_method`, `redirect_uri`, `scope` and `state`:
it carries the challenge derived from the verifier, the method `S256` and the
generated state, and no `response_type`. -/
theorem login_authURL_parameters (env : Env) (f : AuthFlow) (w : World) (verifier state : String)
    (hv : env.GenerateCodeVerifier = .ok verifier) (hs : env.GenerateState = .ok state) :
    ∃ q, Effect.logInfo ("Please visit: " ++ (HubSpotAuthURL ++ "?" ++ q)) ∈
        (Login env f w).2.2.trace ∧
      (Url.ParseQuery q).map (fun ps => ps.map Prod.fst) =
        some [Url.utf8 "client_id", Url.utf8 "code_challenge", Url.utf8 "code_challenge_method",
          Url.utf8 "redirect_uri", Url.utf8 "scope", Url.utf8 "state"] ∧
      Url.param (Url.ParseQuery q) "response_type" = none ∧
      Url.param (Url.ParseQuery q) "code_challenge" =
        some (Url.utf8 (env.GenerateCodeChallenge verifier)) ∧
      Url.param (Url.ParseQuery q) "code_challenge_method" = some (Url.utf8 "S256") ∧
      Url.param (Url.ParseQuery q) "state" = some (Url.utf8 state) := by
  obtain ⟨q, hq, hp⟩ := parseQuery_authURL f (env.GenerateCodeChallenge verifier) state
  have hlog := login_logs_url env f w verifier state hv hs
  rw [hq] at hlog
  refine ⟨q, hlog, ?_, ?_, ?_, ?_, ?_⟩
  · rw [hp]; rfl
  · rw [hp]
    have k1 : (Url.utf8 "response_type" == Url.utf8 "client_id") = false := by decide
    have k2 : (Url.utf8 "response_type" == Url.utf8 "code_challenge") = false := by decide
    have k3 : (Url.utf8 "response_type" == Url.utf8 "code_challenge_method") = false := by decide
    have k4 : (Url.utf8 "response_type" == Url.utf8 "redirect_uri") = false := by decide
    have k5 : (Url.utf8 "response_type" == Url.utf8 "scope") = false := by decide
    have k6 : (Url.utf8 "response_type" == Url.utf8 "state") = false := by decide
    simp [Url.param, List.lookup, k1, k2, k3, k4, k5, k6]
  · rw [hp]
    have k1 : (Url.utf8 "code_challenge" == Url.utf8 "client_id") = false := by decide
    simp [Url.param, List.lookup, k1]
  · rw [hp]
    have k1 : (Url.utf8 "code_challenge_method" == Url.utf8 "client_id") = false := by decide
    have k2 : (Url.utf8 "code_challenge_method" == Url.utf8 "code_challenge") = false := by decide
    simp [Url.param, List.lookup, k1, k2]
  · rw [hp]
    have k1 : (Url.utf8 "state" == Url.utf8 "client_id") = false := by decide
    have k2 : (Url.utf8 "state" == Url.utf8 "code_challenge") = false := by decide
    have k3 : (Url.utf8 "state" == Url.utf8 "code_challenge_method") = false := by decide
    have k4 : (Url.utf8 "state" == Url.utf8 "redirect_uri") = false := by decide
    have k5 : (Url.utf8 "state" == Url.utf8 "scope") = false := by decide
    simp [Url.param, List.lookup, k1, k2, k3, k4, k5]

theorem login_authURL_parameters_witness :
    ∃ q, Effect.logInfo ("Please visit: " ++ (HubSpotAuthURL ++ "?" ++ q)) ∈
        (Login (exampleEnv 0 [] (200, tokenBody) [.callback goodCallback]) exampleFlow
          emptyWorld).2.2.trace ∧
      (Url.ParseQuery q).map (fun ps => ps.map Prod.fst) =
        some [Url.utf8 "client_id", Url.utf8 "code_challenge", Url.utf8 "code_challenge_method",
          Url.utf8 "redirect_uri", Url.utf8 "scope", Url.utf8 "state"] ∧
      Url.param (Url.ParseQuery q) "response_type" = none ∧
      Url.param (Url.ParseQuery q) "code_challenge" =
        some (Url.utf8 ((exampleEnv 0 [] (200, tokenBody)
          [.callback goodCallback]).GenerateCodeChallenge "verifier-1")) ∧
      Url.param (Url.ParseQuery q) "code_challenge_method" = some (Url.utf8 "S256") ∧
      Url.param (Url.ParseQuery q) "state" = some (Url.utf8 "state-1") :=
  login_authURL_parameters (exampleEnv 0 [] (200, tokenBody) [.callback goodCallback]) exampleFlow
    emptyWorld "verifier-1" "state-1" rfl rfl

/-- C10: for every configuration, challenge and state `buildAuthURL` returns the
authorize endpoint, `?`, and a query string which decodes to `client_id`,
`redirect_uri` and `scope` with the configured values, `state` and
`code_challenge` with the given ones and `code_challenge_method` = `S256`; and
`Login` shows the URL built from the challenge of the very verifier that every
token request it then sends carries as `code_verifier`. -/
theorem buildAuthURL_carries_parameters (env : Env) (f : AuthFlow) (w : World)
    (challenge state verifier loginState : String)
    (hv : env.GenerateCodeVerifier = .ok verifier) (hs : env.GenerateState = .ok loginState) :
    (∃ q, buildAuthURL f challenge state = HubSpotAuthURL ++ "?" ++ q ∧
      Url.param (Url.ParseQuery q) "client_id" = some (Url.utf8 f.cfg.HubSpot.ClientID) ∧
      Url.param (Url.ParseQuery q) "redirect_uri" = some (Url.utf8 f.cfg.HubSpot.RedirectURI) ∧
      Url.param (Url.ParseQuery q) "scope" = some (Url.utf8 f.cfg.HubSpot.Scopes) ∧
      Url.param (Url.ParseQuery q) "state" = some (Url.utf8 state) ∧
      Url.param (Url.ParseQuery q) "code_challenge" = some (Url.utf8 challenge) ∧
      Url.param (Url.ParseQuery q) "code_challenge_method" = some (Url.utf8 "S256")) ∧
    Effect.logInfo
        ("Please visit: " ++ buildAuthURL f (env.GenerateCodeChallenge verifier) loginState) ∈
      (Login env f w).2.2.trace ∧
    ∃ posts, tracePosts (Login env f w).2.2.trace = tracePosts w.trace ++ posts ∧
      ∀ p ∈ posts, p.1 = HubSpotTokenURL ∧
        Url.param (Url.ParseQuery p.2) "code_verifier" = some (Url.utf8 verifier) := by
  refine ⟨?_, login_logs_url env f w verifier loginState hv hs, ?_⟩
  · obtain ⟨q, hq, hp⟩ := parseQuery_authURL f challenge state
    have k1 : (Url.utf8 "code_challenge" == Url.utf8 "client_id") = false := by decide
    have k2 : (Url.utf8 "code_challenge_method" == Url.utf8 "client_id") = false := by decide
    have k3 : (Url.utf8 "code_challenge_method" == Url.utf8 "code_challenge") = false := by decide
    have k4 : (Url.utf8 "redirect_uri" == Url.utf8 "client_id") = false := by decide
    have k5 : (Url.utf8 "redirect_uri" == Url.utf8 "code_challenge") = false := by decide
    have k6 : (Url.utf8 "redirect_uri" == Url.utf8 "code_challenge_method") = false := by decide
    have k7 : (Url.utf8 "scope" == Url.utf8 "client_id") = false := by decide
    have k8 : (Url.utf8 "scope" == Url.utf8 "code_challenge") = false := by decide
    have k9 : (Url.utf8 "scope" == Url.utf8 "code_challenge_method") = false := by decide
    have k10 : (Url.utf8 "scope" == Url.utf8 "redirect_uri") = false := by decide
    have k11 : (Url.utf8 "state" == Url.utf8 "client_id") = false := by decide
    have k12 : (Url.utf8 "state" == Url.utf8 "code_challenge") = false := by decide
    have k13 : (Url.utf8 "state" == Url.utf8 "code_challenge_method") = false := by decide
    have k14 : (Url.utf8 "state" == Url.utf8 "redirect_uri") = false := by decide
    have k15 : (Url.utf8 "state" == Url.utf8 "scope") = false := by decide
    refine ⟨q, hq, ?_, ?_, ?_, ?_, ?_, ?_⟩ <;> rw [hp] <;>
      simp [Url.param, List.lookup, k1, k2, k3, k4, k5, k6, k7, k8, k9, k10, k11, k12, k13, k14,
        k15]
  · obtain ⟨codes, hc⟩ := login_posts env f w verifier loginState hv hs
    refine ⟨_, hc, ?_⟩
    intro p hp
    obtain ⟨c, -, rfl⟩ := List.mem_map.1 hp
    exact ⟨rfl, exchangeForm_verifier f c verifier⟩

theorem buildAuthURL_carries_parameters_witness :
    (∃ q, buildAuthURL exampleFlow "challenge-of-verifier-1" "state-1" =
        HubSpotAuthURL ++ "?" ++ q ∧
      Url.param (Url.ParseQuery q) "client_id" =
        some (Url.utf8 exampleFlow.cfg.HubSpot.ClientID) ∧
      Url.param (Url.ParseQuery q) "redirect_uri" =
        some (Url.utf8 exampleFlow.cfg.HubSpot.RedirectURI) ∧
      Url.param (Url.ParseQuery q) "scope" = some (Url.utf8 exampleFlow.cfg.HubSpot.Scopes) ∧
      Url.param (Url.ParseQuery q) "state" = some (Url.utf8 "state-1") ∧
      Url.param (Url.ParseQuery q) "code_challenge" = some (Url.utf8 "challenge-of-verifier-1") ∧
      Url.param (Url.ParseQuery q) "code_challenge_method" = some (Url.utf8 "S256")) ∧
    Effect.logInfo
        ("Please visit: " ++ buildAuthURL exampleFlow
          ((exampleEnv 0 [] (200, tokenBody) [.callback goodCallback]).GenerateCodeChallenge
            "verifier-1") "state-1") ∈
      (Login (exampleEnv 0 [] (200, tokenBody) [.callback goodCallback]) exampleFlow
        emptyWorld).2.2.trace ∧
    ∃ posts, tracePosts (Login (exampleEnv 0 [] (200, tokenBody) [.callback goodCallback])
        exampleFlow emptyWorld).2.2.trace = tracePosts emptyWorld.trace ++ posts ∧
      ∀ p ∈ posts, p.1 = HubSpotTokenURL ∧
        Url.param (Url.ParseQuery p.2) "code_verifier" = some (Url.utf8 "verifier-1") :=
  buildAuthURL_carries_parameters (exampleEnv 0 [] (200, tokenBody) [.callback goodCallback])
    exampleFlow emptyWorld "challenge-of-verifier-1" "state-1" "verifier-1" "state-1" rfl rfl

/-! ### Token expiry -/

/-- C19 at the failing input: for a token that expires one hour after the clock
reading, `IsExpiringSoon(2 hours)` is true and `IsExpiringSoon(30 minutes)` is
false, where the claim and `TestTokenExpiry` require false and true. -/
theorem isExpiringSoon_test_expectations_fail :
    (tokenExpiringIn Hour).IsExpiringSoon 0 (2 * Hour) = true ∧
      (tokenExpiringIn Hour).IsExpiringSoon 0 (30 * Minute) = false := by
  decide

/-- What `IsExpiringSoon` computes for a token whose `expires_at` is one hour after
`now`, read at any instant less than 30 minutes later: true for two hours, false
for 30 minutes. -/
theorem isExpiringSoon_one_hour_token (t : Token) (now later : Int)
    (ht : t.ExpiresAt = now + Hour) (h1 : now ≤ later) (h2 : later < now + 30 * Minute) :
    t.IsExpiringSoon later (2 * Hour) = true ∧ t.IsExpiringSoon later (30 * Minute) = false := by
  have hh : Hour = 60 * Minute := rfl
  have hm : (0 : Int) < Minute := by decide
  simp only [Token.IsExpiringSoon, decide_eq_true_eq, decide_eq_false_iff_not, ht, hh]
  constructor <;> omega

/-! ### The agent's authentication check -/

/-- C17: when the token cannot be loaded, `EnsureAuthenticated` returns the error
`not authenticated - please run 'mission-control auth login': ...` and leaves
the agent (the MCP client's token included) and the surroundings untouched: no
refresh is entered, nothing is posted. -/
theorem ensureAuthenticated_not_authenticated (env : Env) (a : Agent) (w : World) (err : String)
    (hload : LoadToken env a.storage w = .error err) :
    EnsureAuthenticated env a w =
        (some ("not authenticated - please run 'mission-control auth login': " ++ err), a, w) ∧
      refreshCalls (EnsureAuthenticated env a w).2.2.trace = refreshCalls w.trace ∧
      tracePosts (EnsureAuthenticated env a w).2.2.trace = tracePosts w.trace ∧
      (EnsureAuthenticated env a w).2.1.mcpClient.token = a.mcpClient.token := by
  have h : EnsureAuthenticated env a w =
      (some ("not authenticated - please run 'mission-control auth login': " ++ err), a, w) := by
    unfold EnsureAuthenticated
    rw [hload]
  rw [h]
  exact ⟨rfl, rfl, rfl, rfl⟩

theorem ensureAuthenticated_not_authenticated_witness :
    EnsureAuthenticated (exampleEnv 0 [] (200, tokenBody) []) exampleAgent emptyWorld =
        (some ("not authenticated - please run 'mission-control auth login': " ++
          "no token found - please run 'mission-control auth login' first"), exampleAgent,
          emptyWorld) ∧
      refreshCalls (EnsureAuthenticated (exampleEnv 0 [] (200, tokenBody) []) exampleAgent
        emptyWorld).2.2.trace = refreshCalls emptyWorld.trace ∧
      tracePosts (EnsureAuthenticated (exampleEnv 0 [] (200, tokenBody) []) exampleAgent
        emptyWorld).2.2.trace = tracePosts emptyWorld.trace ∧
      (EnsureAuthenticated (exampleEnv 0 [] (200, tokenBody) []) exampleAgent
        emptyWorld).2.1.mcpClient.token = exampleAgent.mcpClient.token :=
  ensureAuthenticated_not_authenticated (exampleEnv 0 [] (200, tokenBody) []) exampleAgent
    emptyWorld "no token found - please run 'mission-control auth login' first" rfl

/-! ### The callback handler -/

/-- What the handler does on the channel as `Login` waits on it (open, nothing
buffered): 200 with the HTML page and the request's code sent on the channel
when the request is valid, otherwise 400 with a plain-text reason and the
channel closed. -/
theorem handleCallback_on_fresh_channel (expectedState : String) (r : CallbackRequest) :
    if queryGet r "error" = "" ∧ queryGet r "state" = expectedState ∧ queryGet r "code" ≠ "" then
      handleCallback expectedState r { buf := [], closed := false } =
        { status := 200, contentType := "text/html", body := successPage, outcome := .returned,
          chan := { buf := [queryGet r "code"], closed := false } }
    else
      (handleCallback expectedState r { buf := [], closed := false }).status = 400 ∧
        (handleCallback expectedState r { buf := [], closed := false }).contentType =
          "text/plain; charset=utf-8" ∧
        (handleCallback expectedState r { buf := [], closed := false }).outcome = .returned ∧
        (handleCallback expectedState r { buf := [], closed := false }).chan =
          { buf := [], closed := true } := by
  by_cases he : queryGet r "error" = ""
  · by_cases hs : queryGet r "state" = expectedState
    · by_cases hc : queryGet r "code" = ""
      · simp [handleCallback, rejectCallback, he, hs, hc]
      · simp [handleCallback, he, hs, hc]
    · simp [handleCallback, rejectCallback, he, hs]
  · simp [handleCallback, rejectCallback, he]

/-- The status the handler writes, whatever the state of the channel. -/
theorem handleCallback_status (expectedState : String) (r : CallbackRequest) (ch : CallbackChan) :
    (handleCallback expectedState r ch).status =
      if queryGet r "error" = "" ∧ queryGet r "state" = expectedState ∧ queryGet r "code" ≠ ""
      then 200 else 400 := by
  by_cases he : queryGet r "error" = ""
  · by_cases hs : queryGet r "state" = expectedState
    · by_cases hc : queryGet r "code" = ""
      · simp [handleCallback, rejectCallback, he, hs, hc]
      · simp [handleCallback, he, hs, hc]
    · simp [handleCallback, rejectCallback, he, hs]
  · simp [handleCallback, rejectCallback, he]

set_option maxRecDepth 100000 in
/-- C11 at the failing input: a redirect that reports a denial is answered with
400 and a plain-text reason, yet the login flow is handed a code all the same:
the handler closes `callbackChan`, the receive in `Login` takes the empty string
from it as the code, logs `Authorization code received` and posts a code
exchange. -/
theorem login_takes_code_from_denied_callback :
    (handleCallback "state-1" deniedCallback exampleFlow.callbackChan).status = 400 ∧
      (handleCallback "state-1" deniedCallback exampleFlow.callbackChan).body =
        "Authorization failed: access_denied\n" ∧
      (awaitCallback "state-1" [.callback deniedCallback] exampleFlow.callbackChan emptyWorld).1 =
        WaitResult.code "" ∧
      Effect.logInfo "Authorization code received" ∈
        (Login (exampleEnv 0 [] (400, "BAD_AUTH_CODE") [.callback deniedCallback]) exampleFlow
          emptyWorld).2.2.trace ∧
      tracePosts (Login (exampleEnv 0 [] (400, "BAD_AUTH_CODE") [.callback deniedCallback])
          exampleFlow emptyWorld).2.2.trace =
        [(HubSpotTokenURL,
          "client_id=client-1&code=&code_verifier=verifier-1&grant_type=authorization_code&redirect_uri=http%3A%2F%2F127.0.0.1%3A8400%2Foauth%2Fcallback")] ∧
      (Login (exampleEnv 0 [] (400, "BAD_AUTH_CODE") [.callback deniedCallback]) exampleFlow
          emptyWorld).1 = some "token exchange failed with status 400: BAD_AUTH_CODE" := by
  decide

/-! ### The code exchange -/

/-- A valid redirect arriving first on the fresh channel makes the `select` of
`Login` fire with the request's code. -/
theorem awaitCallback_valid_first (state : String) (r : CallbackRequest) (rest : List LoginEvent)
    (w : World) (he : queryGet r "error" = "") (hs : queryGet r "state" = state)
    (hc : queryGet r "code" ≠ "") :
    awaitCallback state (.callback r :: rest) { buf := [], closed := false } w =
      (.code (queryGet r "code"), { buf := [], closed := false },
        w.emit (.handled 200 "text/html" successPage .returned)) := by
  have h := handleCallback_on_fresh_channel state r
  rw [if_pos ⟨he, hs, hc⟩] at h
  cases rest with
  | nil => simp [awaitCallback, chanRecv, h]
  | cons ev rest => simp [awaitCallback, chanRecv, h]

theorem announce_chan (env : Env) (f : AuthFlow) (authURL : String) (w : World) :
    (Login.announce env f authURL w).1.callbackChan = f.callbackChan := by
  unfold Login.announce
  simp only [startCallbackServer]
  split <;> rfl

/-- The POSTs of the `select` phase when a valid redirect arrives first. -/
theorem wait_posts_valid (env : Env) (f : AuthFlow) (state verifier : String) (w : World)
    (r : CallbackRequest) (rest : List LoginEvent) (hev : env.events = .callback r :: rest)
    (hfresh : f.callbackChan = { buf := [], closed := false })
    (he : queryGet r "error" = "") (hs : queryGet r "state" = state)
    (hc : queryGet r "code" ≠ "") :
    tracePosts (Login.wait env f state verifier w).2.2.trace =
      tracePosts w.trace ++
        [(HubSpotTokenURL, Url.Values.Encode (exchangeForm f (queryGet r "code") verifier))] := by
  unfold Login.wait
  rw [hev, hfresh, awaitCallback_valid_first state r rest w he hs hc]
  simp only [exchange_posts, tracePosts_emit]
  simp [tracePosts, exchangeForm]

theorem login_posts_valid (env : Env) (f : AuthFlow) (w : World) (verifier state : String)
    (r : CallbackRequest) (rest : List LoginEvent)
    (hv : env.GenerateCodeVerifier = .ok verifier) (hst : env.GenerateState = .ok state)
    (hev : env.events = .callback r :: rest)
    (hfresh : f.callbackChan = { buf := [], closed := false })
    (he : queryGet r "error" = "") (hs : queryGet r "state" = state)
    (hc : queryGet r "code" ≠ "") :
    tracePosts (Login env f w).2.2.trace =
      tracePosts w.trace ++
        [(HubSpotTokenURL, Url.Values.Encode (exchangeForm f (queryGet r "code") verifier))] := by
  unfold Login
  simp only [hv, hst]
  rw [stopCallbackServer_posts,
    wait_posts_valid env _ state verifier _ r rest hev (by rw [announce_chan]; exact hfresh) he hs hc,
    announce_posts]
  simp [exchangeForm, announce_cfg]

theorem exchangeForm_secret (f : AuthFlow) (code verifier : String) :
    Url.param (Url.ParseQuery (Url.Values.Encode (exchangeForm f code verifier))) "client_secret" =
      if f.cfg.HubSpot.ClientSecret = "" then none
      else some (Url.utf8 f.cfg.HubSpot.ClientSecret) := by
  rw [parseQuery_exchangeForm]
  have k1 : (Url.utf8 "client_secret" == Url.utf8 "client_id") = false := by decide
  have k2 : (Url.utf8 "client_secret" == Url.utf8 "code") = false := by decide
  have k3 : (Url.utf8 "client_secret" == Url.utf8 "code_verifier") = false := by decide
  have k4 : (Url.utf8 "client_secret" == Url.utf8 "grant_type") = false := by decide
  have k5 : (Url.utf8 "client_secret" == Url.utf8 "redirect_uri") = false := by decide
  by_cases hsec : f.cfg.HubSpot.ClientSecret = ""
  · simp [hsec, Url.param, List.lookup, k1, k2, k3, k4, k5]
  · simp [hsec, Url.param, List.lookup, k1]

/-- C12: `exchangeCodeForToken code verifier` sends one POST to the token endpoint
whose form decodes to `client_id` and `redirect_uri` with the configured
values, `code` and `code_verifier` with the two arguments and
`grant_type=authorization_code`, with `client_secret` exactly when the
configured secret is non-empty; and when a valid redirect arrives first, the
POST of `Login` carries that redirect's code and the verifier generated at the
start of this `Login`. -/
theorem exchange_request_form (env : Env) (f : AuthFlow) (w : World) (code verifier : String)
    (loginVerifier state : String) (r : CallbackRequest) (rest : List LoginEvent)
    (hv : env.GenerateCodeVerifier = .ok loginVerifier) (hst : env.GenerateState = .ok state)
    (hev : env.events = .callback r :: rest)
    (hfresh : f.callbackChan = { buf := [], closed := false })
    (he : queryGet r "error" = "") (hs : queryGet r "state" = state)
    (hc : queryGet r "code" ≠ "") :
    (∃ body, tracePosts (exchangeCodeForToken env f code verifier w).2.trace =
        tracePosts w.trace ++ [(HubSpotTokenURL, body)] ∧
      Url.ParseQuery body = some
        ((Url.utf8 "client_id", Url.utf8 f.cfg.HubSpot.ClientID) ::
          ((if f.cfg.HubSpot.ClientSecret != "" then
              [(Url.utf8 "client_secret", Url.utf8 f.cfg.HubSpot.ClientSecret)] else []) ++
            [(Url.utf8 "code", Url.utf8 code), (Url.utf8 "code_verifier", Url.utf8 verifier),
              (Url.utf8 "grant_type", Url.utf8 "authorization_code"),
              (Url.utf8 "redirect_uri", Url.utf8 f.cfg.HubSpot.RedirectURI)])) ∧
      Url.param (Url.ParseQuery body) "client_secret" =
        if f.cfg.HubSpot.ClientSecret = "" then none
        else some (Url.utf8 f.cfg.HubSpot.ClientSecret)) ∧
    ∃ body, tracePosts (Login env f w).2.2.trace = tracePosts w.trace ++ [(HubSpotTokenURL, body)] ∧
      Url.ParseQuery body = some
        ((Url.utf8 "client_id", Url.utf8 f.cfg.HubSpot.ClientID) ::
          ((if f.cfg.HubSpot.ClientSecret != "" then
              [(Url.utf8 "client_secret", Url.utf8 f.cfg.HubSpot.ClientSecret)] else []) ++
            [(Url.utf8 "code", Url.utf8 (queryGet r "code")), (Url.utf8 "code_verifier", Url.utf8 loginVerifier),
              (Url.utf8 "grant_type", Url.utf8 "authorization_code"),
              (Url.utf8 "redirect_uri", Url.utf8 f.cfg.HubSpot.RedirectURI)])) := by
  refine ⟨⟨_, exchange_posts env f code verifier w, parseQuery_exchangeForm f code verifier,
    exchangeForm_secret f code verifier⟩, ?_⟩
  exact ⟨_, login_posts_valid env f w loginVerifier state r rest hv hst hev hfresh he hs hc,
    parseQuery_exchangeForm f _ loginVerifier⟩

theorem exchange_request_form_witness :
    (∃ body, tracePosts (exchangeCodeForToken (exampleEnv 0 [] (200, tokenBody)
        [.callback goodCallback]) exampleFlow "abc123" "verifier-1" emptyWorld).2.trace =
        tracePosts emptyWorld.trace ++ [(HubSpotTokenURL, body)] ∧
      Url.ParseQuery body = some
        ((Url.utf8 "client_id", Url.utf8 exampleFlow.cfg.HubSpot.ClientID) ::
          ((if exampleFlow.cfg.HubSpot.ClientSecret != "" then
              [(Url.utf8 "client_secret", Url.utf8 exampleFlow.cfg.HubSpot.ClientSecret)] else []) ++
            [(Url.utf8 "code", Url.utf8 "abc123"), (Url.utf8 "code_verifier", Url.utf8 "verifier-1"),
              (Url.utf8 "grant_type", Url.utf8 "authorization_code"),
              (Url.utf8 "redirect_uri", Url.utf8 exampleFlow.cfg.HubSpot.RedirectURI)])) ∧
      Url.param (Url.ParseQuery body) "client_secret" =
        if exampleFlow.cfg.HubSpot.ClientSecret = "" then none
        else some (Url.utf8 exampleFlow.cfg.HubSpot.ClientSecret)) ∧
    ∃ body, tracePosts (Login (exampleEnv 0 [] (200, tokenBody) [.callback goodCallback])
        exampleFlow emptyWorld).2.2.trace = tracePosts emptyWorld.trace ++ [(HubSpotTokenURL, body)] ∧
      Url.ParseQuery body = some
        ((Url.utf8 "client_id", Url.utf8 exampleFlow.cfg.HubSpot.ClientID) ::
          ((if exampleFlow.cfg.HubSpot.ClientSecret != "" then
              [(Url.utf8 "client_secret", Url.utf8 exampleFlow.cfg.HubSpot.ClientSecret)] else []) ++
            [(Url.utf8 "code", Url.utf8 (queryGet goodCallback "code")), (Url.utf8 "code_verifier", Url.utf8 "verifier-1"),
              (Url.utf8 "grant_type", Url.utf8 "authorization_code"),
              (Url.utf8 "redirect_uri", Url.utf8 exampleFlow.cfg.HubSpot.RedirectURI)])) :=
  exchange_request_form (exampleEnv 0 [] (200, tokenBody) [.callback goodCallback]) exampleFlow
    emptyWorld "abc123" "verifier-1" "verifier-1" "state-1" goodCallback [] rfl rfl rfl rfl
    (by decide) (by decide) (by decide)

/-! ### What the token operations store -/

theorem wrapInt64_of_fits (x : Int) (h1 : -9223372036854775808 ≤ x) (h2 : x < 9223372036854775808) :
    wrapInt64 x = x := by
  unfold wrapInt64
  norm_num
  omega

/-- A lifetime of at most 9223372036 seconds is a `time.Duration` without wrapping. -/
theorem duration_of_seconds (e : Int) (h1 : -9223372036 ≤ e) (h2 : e ≤ 9223372036) :
    wrapInt64 (wrapInt64 e * Second) = e * Second := by
  have hs : Second = 1000000000 := rfl
  rw [wrapInt64_of_fits e (by omega) (by omega), hs]
  exact wrapInt64_of_fits _ (by omega) (by omega)

theorem loadToken_congr (env : Env) (s : TokenStorage) (w1 w2 : World)
    (hk : w1.keyring = w2.keyring) (hf : w1.file = w2.file) :
    LoadToken env s w1 = LoadToken env s w2 := by
  simp only [LoadToken, hk, hf]

/-- A successful `SaveToken` leaves the marshalled token in the backend of its
storage. -/
theorem saveToken_ok (env : Env) (s : TokenStorage) (t : Token) (w : World) (data : String)
    (hmar : env.marshalToken t = .ok data) (hwrite : env.storeWrite data = none) :
    (SaveToken env s t w).1 = none ∧ backing s (SaveToken env s t w).2 = .present data := by
  unfold SaveToken
  rw [hmar]
  by_cases hk : s.useKeyring = true
  · simp [hk, hwrite, backing, World.emit]
  · simp [hk, hwrite, backing, World.emit]

/-- C13 (as the code has it): when the token endpoint answers the code exchange
with status 200 and a body that decodes to access token `a`, refresh token `r`
and `expires_in` = `e` with `|e| ≤ 9223372036` (so that `e` seconds fit a
`time.Duration`), and the save succeeds, the exchange returns nil and the store
holds the token `(a, r, now + e seconds)`, `now` being the clock reading taken
after the answer was decoded. -/
theorem exchange_persists_token (env : Env) (f : AuthFlow) (w : World) (code verifier : String)
    (a r tt body data : String) (e : Int)
    (hresp : env.tokenEndpoint (Url.Values.Encode (exchangeForm f code verifier)) = .ok (200, body))
    (hdec : env.decodeTokenResponse body =
      .ok { AccessToken := a, RefreshToken := r, ExpiresIn := e, TokenType := tt })
    (hlo : -9223372036 ≤ e) (hhi : e ≤ 9223372036)
    (hmar : env.marshalToken
      { AccessToken := a, RefreshToken := r, ExpiresAt := env.clock w.ticks + e * Second } = .ok data)
    (hwrite : env.storeWrite data = none) :
    (exchangeCodeForToken env f code verifier w).1 = none ∧
      backing f.storage (exchangeCodeForToken env f code verifier w).2 = .present data := by
  have hsave := saveToken_ok env f.storage
    { AccessToken := a, RefreshToken := r, ExpiresAt := env.clock w.ticks + e * Second }
    { ((w.emit (.call "exchangeCodeForToken")).emit
        (.post HubSpotTokenURL (Url.Values.Encode (exchangeForm f code verifier)))) with
      ticks := w.ticks + 1 } data hmar hwrite
  unfold exchangeCodeForToken
  simp only [hresp, hdec, timeNow, duration_of_seconds e hlo hhi, bne_self_eq_false,
    Bool.false_eq_true, if_false, World.emit] at hsave ⊢
  obtain ⟨h1, h2⟩ := hsave
  split
  · rename_i h
    rw [h] at h1
    simp at h1
  · rename_i h
    rw [h] at h2
    exact ⟨rfl, by simpa [backing, World.emit] using h2⟩

theorem exchange_persists_token_witness :
    (exchangeCodeForToken (exampleEnv 0 [] (200, tokenBody) []) exampleFlow "abc123" "verifier-1"
        emptyWorld).1 = none ∧
      backing exampleFlow.storage (exchangeCodeForToken (exampleEnv 0 [] (200, tokenBody) [])
        exampleFlow "abc123" "verifier-1" emptyWorld).2 =
        .present (encodeToken
          { AccessToken := "AT1", RefreshToken := "RT1", ExpiresAt := 0 + 3600 * Second }) :=
  exchange_persists_token (exampleEnv 0 [] (200, tokenBody) []) exampleFlow emptyWorld "abc123"
    "verifier-1" "AT1" "RT1" "bearer" tokenBody
    (encodeToken { AccessToken := "AT1", RefreshToken := "RT1", ExpiresAt := 0 + 3600 * Second })
    3600 rfl rfl (by decide) (by decide) rfl rfl

set_option maxRecDepth 100000 in
/-- C13 (as stated) fails: for `expires_in` = 9223372037 the product with
`time.Second` wraps, and the exchange at instant 0 stores a token whose
`expires_at` lies 9223372036.7 seconds in the past instead of 9223372037
seconds ahead. -/
theorem exchange_expiry_wraps :
    (exchangeCodeForToken (envGranting 9223372037 []) exampleFlow "abc123" "verifier-1"
        emptyWorld).1 = none ∧
      (exchangeCodeForToken (envGranting 9223372037 []) exampleFlow "abc123" "verifier-1"
        emptyWorld).2.file =
        .present (encodeToken
          { AccessToken := "AT1", RefreshToken := "RT1", ExpiresAt := -9223372036709551616 }) ∧
      (0 : Int) + 9223372037 * Second ≠ -9223372036709551616 := by
  decide

theorem loadToken_emit (env : Env) (s : TokenStorage) (w : World) (e : Effect) :
    LoadToken env s (w.emit e) = LoadToken env s w :=
  loadToken_congr env s _ _ rfl rfl

/-- C14 (as the code has it): after a `RefreshToken` that the token endpoint answers
with 200 and a body decoding to `(a, r, e)` with `|e| ≤ 9223372036`, and whose
save succeeds, the store holds the access token `a`, the expiry `now + e`
seconds, and the refresh token `r` if `r` is non-empty and otherwise the
refresh token stored before. -/
theorem refresh_persists_token (env : Env) (f : AuthFlow) (w : World) (token : Token)
    (a r tt body data : String) (e : Int)
    (hload : LoadToken env f.storage w = .ok token) (hrt : token.RefreshToken ≠ "")
    (hresp : env.tokenEndpoint (Url.Values.Encode (refreshForm f token)) = .ok (200, body))
    (hdec : env.decodeTokenResponse body =
      .ok { AccessToken := a, RefreshToken := r, ExpiresIn := e, TokenType := tt })
    (hlo : -9223372036 ≤ e) (hhi : e ≤ 9223372036)
    (hmar : env.marshalToken
      { AccessToken := a, RefreshToken := if r = "" then token.RefreshToken else r,
        ExpiresAt := env.clock w.ticks + e * Second } = .ok data)
    (hwrite : env.storeWrite data = none) :
    (RefreshToken env f w).1 = none ∧
      backing f.storage (RefreshToken env f w).2 = .present data := by
  have hsave := saveToken_ok env f.storage
    { AccessToken := a, RefreshToken := if r = "" then token.RefreshToken else r,
      ExpiresAt := env.clock w.ticks + e * Second }
    { ((w.emit (.call "RefreshToken")).emit
        (.post HubSpotTokenURL (Url.Values.Encode (refreshForm f token)))) with
      ticks := w.ticks + 1 } data hmar hwrite
  have hl2 : LoadToken env f.storage { w with trace := w.trace ++ [.call "RefreshToken"] } =
      .ok token := by
    rw [← hload]
    exact loadToken_congr _ _ _ _ rfl rfl
  unfold RefreshToken
  simp only [World.emit, hl2, hrt, beq_iff_eq, if_false, hresp, hdec, timeNow,
    duration_of_seconds e hlo hhi, bne_self_eq_false, Bool.false_eq_true] at hsave ⊢
  obtain ⟨h1, h2⟩ := hsave
  by_cases hr : r = ""
  · subst hr
    simp only [if_true, bne_self_eq_false, Bool.false_eq_true, if_false] at h1 h2 ⊢
    split
    · rename_i h
      rw [h] at h1
      simp at h1
    · rename_i h
      rw [h] at h2
      exact ⟨rfl, by simpa [backing, World.emit] using h2⟩
  · have hr2 : (r != "") = true := by simpa using hr
    simp only [hr, if_false, hr2, if_true] at h1 h2 ⊢
    split
    · rename_i h
      rw [h] at h1
      simp at h1
    · rename_i h
      rw [h] at h2
      exact ⟨rfl, by simpa [backing, World.emit] using h2⟩

theorem refresh_persists_token_witness :
    (RefreshToken (exampleEnv 0 [tokenExpiringIn 0] (200, tokenBody) []) exampleFlow
        (worldWith (tokenExpiringIn 0))).1 = none ∧
      backing exampleFlow.storage (RefreshToken (exampleEnv 0 [tokenExpiringIn 0] (200, tokenBody) [])
        exampleFlow (worldWith (tokenExpiringIn 0))).2 =
        .present (encodeToken
          { AccessToken := "AT1", RefreshToken := if "RT1" = "" then "RT0" else "RT1",
            ExpiresAt := 0 + 3600 * Second }) :=
  refresh_persists_token (exampleEnv 0 [tokenExpiringIn 0] (200, tokenBody) []) exampleFlow
    (worldWith (tokenExpiringIn 0)) (tokenExpiringIn 0) "AT1" "RT1" "bearer" tokenBody
    (encodeToken
      { AccessToken := "AT1", RefreshToken := if "RT1" = "" then "RT0" else "RT1",
        ExpiresAt := 0 + 3600 * Second })
    3600 rfl (by decide) rfl rfl (by decide) (by decide) rfl rfl

set_option maxRecDepth 100000 in
/-- C14 (as stated) fails: for `expires_in` = 9223372037 the product with
`time.Second` wraps, and the refresh at instant 0 succeeds and stores a token
whose `expires_at` lies in the past instead of 9223372037 seconds ahead. -/
theorem refresh_expiry_wraps :
    (RefreshToken (envGranting 9223372037 [tokenExpiringIn 0]) exampleFlow
        (worldWith (tokenExpiringIn 0))).1 = none ∧
      (RefreshToken (envGranting 9223372037 [tokenExpiringIn 0]) exampleFlow
        (worldWith (tokenExpiringIn 0))).2.file =
        .present (encodeToken
          { AccessToken := "AT1", RefreshToken := "RT1", ExpiresAt := -9223372036709551616 }) ∧
      (0 : Int) + 9223372037 * Second ≠ -9223372036709551616 := by
  decide

/-- The body of the refresh request, decoded: the parameters in the order
`Encode` emits them, `client_secret` only for a configured secret. -/
theorem parseQuery_refreshForm (f : AuthFlow) (token : Token) :
    Url.ParseQuery (Url.Values.Encode (refreshForm f token)) = some
      ((Url.utf8 "client_id", Url.utf8 f.cfg.HubSpot.ClientID) ::
        ((if f.cfg.HubSpot.ClientSecret != "" then
            [(Url.utf8 "client_secret", Url.utf8 f.cfg.HubSpot.ClientSecret)] else []) ++
          [(Url.utf8 "grant_type", Url.utf8 "refresh_token"),
            (Url.utf8 "refresh_token", Url.utf8 token.RefreshToken)])) := by
  rw [Url.parseQuery_encode]
  unfold refreshForm
  by_cases hsec : (f.cfg.HubSpot.ClientSecret != "") = true
  · simp +decide [hsec, Url.Values.Set, Url.sortByKey, Url.insertByKey]
  · simp +decide [hsec, Url.Values.Set, Url.sortByKey, Url.insertByKey]

theorem refreshForm_fields (f : AuthFlow) (token : Token) :
    Url.param (Url.ParseQuery (Url.Values.Encode (refreshForm f token))) "grant_type" =
        some (Url.utf8 "refresh_token") ∧
      Url.param (Url.ParseQuery (Url.Values.Encode (refreshForm f token))) "refresh_token" =
        some (Url.utf8 token.RefreshToken) := by
  rw [parseQuery_refreshForm]
  have k1 : (Url.utf8 "grant_type" == Url.utf8 "client_id") = false := by decide
  have k2 : (Url.utf8 "grant_type" == Url.utf8 "client_secret") = false := by decide
  have k3 : (Url.utf8 "refresh_token" == Url.utf8 "client_id") = false := by decide
  have k4 : (Url.utf8 "refresh_token" == Url.utf8 "client_secret") = false := by decide
  have k5 : (Url.utf8 "refresh_token" == Url.utf8 "grant_type") = false := by decide
  by_cases hsec : (f.cfg.HubSpot.ClientSecret != "") = true
  · simp [hsec, Url.param, List.lookup, k1, k2, k3, k4, k5]
  · simp [hsec, Url.param, List.lookup, k1, k3, k5]

/-- The POSTs of `RefreshToken` on a stored token: none without a refresh token,
otherwise the one refresh request. -/
theorem refresh_posts (env : Env) (f : AuthFlow) (w : World) (token : Token)
    (hload : LoadToken env f.storage w = .ok token) :
    tracePosts (RefreshToken env f w).2.trace =
      tracePosts w.trace ++
        (if token.RefreshToken = "" then []
          else [(HubSpotTokenURL, Url.Values.Encode (refreshForm f token))]) := by
  have hl2 : LoadToken env f.storage (w.emit (.call "RefreshToken")) = .ok token := by
    rw [loadToken_emit]; exact hload
  unfold RefreshToken
  simp only [hl2]
  by_cases hrt : token.RefreshToken = ""
  · simp [hrt, tracePosts_emit, tracePosts]
  · have hrt2 : (token.RefreshToken == "") = false := by simpa using hrt
    simp only [hrt, hrt2, if_false, Bool.false_eq_true]
    split
    · simp [tracePosts_emit, tracePosts]
    · split
      · simp [tracePosts_emit, tracePosts]
      · split
        · simp [tracePosts_emit, tracePosts]
        · simp only [timeNow]
          split
          · rename_i h
            have := congrArg (fun p => tracePosts p.2.trace) h
            simp only [saveToken_posts] at this
            show tracePosts _ = _
            rw [← this]
            simp [tracePosts_emit, tracePosts]
          · rename_i h
            have := congrArg (fun p => tracePosts p.2.trace) h
            simp only [saveToken_posts] at this
            show tracePosts _ = _
            rw [tracePosts_emit, ← this]
            simp [tracePosts_emit, tracePosts]

/-- C15: on a stored token without a refresh token `RefreshToken` fails with
`no refresh token available`, posts nothing and leaves both backends as they
were; and every request it does post goes to the token endpoint with
`grant_type=refresh_token` and `refresh_token` equal to the stored refresh
token. -/
theorem refresh_needs_refresh_token (env : Env) (f : AuthFlow) (w : World) (token : Token)
    (hload : LoadToken env f.storage w = .ok token) :
    (token.RefreshToken = "" →
      (RefreshToken env f w).1 = some "no refresh token available" ∧
        tracePosts (RefreshToken env f w).2.trace = tracePosts w.trace ∧
        (RefreshToken env f w).2.keyring = w.keyring ∧ (RefreshToken env f w).2.file = w.file) ∧
    ∃ posts, tracePosts (RefreshToken env f w).2.trace = tracePosts w.trace ++ posts ∧
      ∀ p ∈ posts, p.1 = HubSpotTokenURL ∧
        Url.param (Url.ParseQuery p.2) "grant_type" = some (Url.utf8 "refresh_token") ∧
        Url.param (Url.ParseQuery p.2) "refresh_token" = some (Url.utf8 token.RefreshToken) := by
  have hl2 : LoadToken env f.storage (w.emit (.call "RefreshToken")) = .ok token := by
    rw [loadToken_emit]; exact hload
  refine ⟨?_, _, refresh_posts env f w token hload, ?_⟩
  · intro hrt
    have hres : RefreshToken env f w =
        (some "no refresh token available", w.emit (.call "RefreshToken")) := by
      unfold RefreshToken
      simp [hl2, hrt]
    rw [hres]
    refine ⟨rfl, ?_, rfl, rfl⟩
    simp [tracePosts_emit, tracePosts]
  · intro p hp
    by_cases hrt : token.RefreshToken = ""
    · simp [hrt] at hp
    · simp only [hrt, if_false, List.mem_singleton] at hp
      subst hp
      exact ⟨rfl, refreshForm_fields f token⟩

theorem refresh_needs_refresh_token_witness :
    (tokenWithoutRefresh.RefreshToken = "" →
      (RefreshToken (exampleEnv 0 [tokenWithoutRefresh] (200, tokenBody) []) exampleFlow
          (worldWith tokenWithoutRefresh)).1 = some "no refresh token available" ∧
        tracePosts (RefreshToken (exampleEnv 0 [tokenWithoutRefresh] (200, tokenBody) [])
          exampleFlow (worldWith tokenWithoutRefresh)).2.trace =
          tracePosts (worldWith tokenWithoutRefresh).trace ∧
        (RefreshToken (exampleEnv 0 [tokenWithoutRefresh] (200, tokenBody) []) exampleFlow
          (worldWith tokenWithoutRefresh)).2.keyring = (worldWith tokenWithoutRefresh).keyring ∧
        (RefreshToken (exampleEnv 0 [tokenWithoutRefresh] (200, tokenBody) []) exampleFlow
          (worldWith tokenWithoutRefresh)).2.file = (worldWith tokenWithoutRefresh).file) ∧
    ∃ posts, tracePosts (RefreshToken (exampleEnv 0 [tokenWithoutRefresh] (200, tokenBody) [])
        exampleFlow (worldWith tokenWithoutRefresh)).2.trace =
        tracePosts (worldWith tokenWithoutRefresh).trace ++ posts ∧
      ∀ p ∈ posts, p.1 = HubSpotTokenURL ∧
        Url.param (Url.ParseQuery p.2) "grant_type" = some (Url.utf8 "refresh_token") ∧
        Url.param (Url.ParseQuery p.2) "refresh_token" =
          some (Url.utf8 tokenWithoutRefresh.RefreshToken) :=
  refresh_needs_refresh_token (exampleEnv 0 [tokenWithoutRefresh] (200, tokenBody) []) exampleFlow
    (worldWith tokenWithoutRefresh) tokenWithoutRefresh rfl

/-- C16: when the token endpoint answers with a status other than 200, the code
exchange and the token refresh both fail with an error that spells out the
status code and the response body, and neither backend of the token store is
touched. -/
theorem non200_fails_and_keeps_store (env : Env) (f : AuthFlow) (w : World)
    (code verifier : String) (token : Token) (status : Int) (body : String)
    (hall : ∀ b, env.tokenEndpoint b = .ok (status, body)) (hst : status ≠ 200)
    (hload : LoadToken env f.storage w = .ok token) (hrt : token.RefreshToken ≠ "") :
    ((exchangeCodeForToken env f code verifier w).1 =
        some ("token exchange failed with status " ++ fmtInt status ++ ": " ++ body) ∧
      (exchangeCodeForToken env f code verifier w).2.keyring = w.keyring ∧
      (exchangeCodeForToken env f code verifier w).2.file = w.file) ∧
    ((RefreshToken env f w).1 =
        some ("token refresh failed with status " ++ fmtInt status ++ ": " ++ body) ∧
      (RefreshToken env f w).2.keyring = w.keyring ∧
      (RefreshToken env f w).2.file = w.file) := by
  have hl2 : LoadToken env f.storage (w.emit (.call "RefreshToken")) = .ok token := by
    rw [loadToken_emit]; exact hload
  have hne : (status != 200) = true := by simpa using hst
  constructor
  · unfold exchangeCodeForToken
    simp [hall, hne, World.emit]
  · unfold RefreshToken
    have hrt2 : (token.RefreshToken == "") = false := by simpa using hrt
    simp only [hl2, hrt2, Bool.false_eq_true, if_false, hall, hne, if_true]
    simp [World.emit]

theorem non200_fails_and_keeps_store_witness :
    ((exchangeCodeForToken (exampleEnv 0 [tokenExpiringIn 0] (401, "unauthorized") []) exampleFlow
          "abc123" "verifier-1" (worldWith (tokenExpiringIn 0))).1 =
        some ("token exchange failed with status " ++ fmtInt 401 ++ ": " ++ "unauthorized") ∧
      (exchangeCodeForToken (exampleEnv 0 [tokenExpiringIn 0] (401, "unauthorized") []) exampleFlow
          "abc123" "verifier-1" (worldWith (tokenExpiringIn 0))).2.keyring =
        (worldWith (tokenExpiringIn 0)).keyring ∧
      (exchangeCodeForToken (exampleEnv 0 [tokenExpiringIn 0] (401, "unauthorized") []) exampleFlow
          "abc123" "verifier-1" (worldWith (tokenExpiringIn 0))).2.file =
        (worldWith (tokenExpiringIn 0)).file) ∧
    ((RefreshToken (exampleEnv 0 [tokenExpiringIn 0] (401, "unauthorized") []) exampleFlow
          (worldWith (tokenExpiringIn 0))).1 =
        some ("token refresh failed with status " ++ fmtInt 401 ++ ": " ++ "unauthorized") ∧
      (RefreshToken (exampleEnv 0 [tokenExpiringIn 0] (401, "unauthorized") []) exampleFlow
          (worldWith (tokenExpiringIn 0))).2.keyring = (worldWith (tokenExpiringIn 0)).keyring ∧
      (RefreshToken (exampleEnv 0 [tokenExpiringIn 0] (401, "unauthorized") []) exampleFlow
          (worldWith (tokenExpiringIn 0))).2.file = (worldWith (tokenExpiringIn 0)).file) :=
  non200_fails_and_keeps_store (exampleEnv 0 [tokenExpiringIn 0] (401, "unauthorized") [])
    exampleFlow (worldWith (tokenExpiringIn 0)) "abc123" "verifier-1" (tokenExpiringIn 0) 401
    "unauthorized" (fun _ => rfl) (by decide) rfl (by decide)

/-! ### The HTTP client and the agent's remote calls -/

/-- Whatever the reply, a status other than 200 makes `Call` fail. -/
theorem call_fails_on_bad_status {P : Type} (env : HttpMcp.Env P) (c : HttpMcp.Client)
    (method : String) (params : P) (resp : HttpMcp.Response)
    (hr : ∀ req, env.roundTrip req = .ok resp) (hs : resp.StatusCode ≠ 200) :
    ∃ err, (HttpMcp.Call env c method params).1 = .error err := by
  have hne : (resp.StatusCode != 200) = true := by simpa using hs
  unfold HttpMcp.Call
  simp only [hr]
  split
  · exact ⟨_, rfl⟩
  · split
    · exact ⟨_, rfl⟩
    · split
      · exact ⟨_, rfl⟩
      · simp only [hne, if_true]
        exact ⟨_, rfl⟩

/-- C20: when the reply to the HTTP client has status 200 and its body decodes to a
response without an error object, `Call` returns exactly that response's result
and no error, and `ListTools` returns the tools that result decodes to (the
empty list for `{"tools":[]}`); and whenever the server answers with another
status, `Call` fails. -/
theorem http_call_returns_result {A : Type} (env envBad : HttpMcp.Env (HttpMcp.Params A))
    (um : String → Except String (List HttpMcp.Tool)) (c : HttpMcp.Client) (method : String)
    (params : HttpMcp.Params A) (reqBody listBody body : String) (resp respBad : HttpMcp.Response)
    (response : JSONRPCResponse) (tools : List HttpMcp.Tool)
    (hm : env.marshal { JSONRPC := "2.0", ID := env.uuid, Method := method, Params := params } =
      .ok reqBody)
    (hml : env.marshal
      { JSONRPC := "2.0", ID := env.uuid, Method := "tools/list", Params := HttpMcp.Params.empty } =
      .ok listBody)
    (hn : env.newRequest "POST" c.baseURL = .ok ())
    (hr : ∀ req, env.roundTrip req = .ok resp) (hs : resp.StatusCode = 200)
    (hb : resp.Body = .ok body) (hu : env.unmarshal body = .ok response)
    (hnoerr : response.Error = none) (htools : um (response.Result.getD "") = .ok tools)
    (hrBad : ∀ req, envBad.roundTrip req = .ok respBad) (hsBad : respBad.StatusCode ≠ 200) :
    (HttpMcp.Call env c method params).1 = .ok response.Result ∧
      (HttpMcp.ListTools env um c).1 = .ok tools ∧
      ∃ err, (HttpMcp.Call envBad c method params).1 = .error err := by
  refine ⟨?_, ?_, call_fails_on_bad_status envBad c method params respBad hrBad hsBad⟩
  · simp [HttpMcp.Call, hm, hn, hr, hs, hb, hu, hnoerr]
  · have hcall : (HttpMcp.Call env c "tools/list" HttpMcp.Params.empty).1 = .ok response.Result := by
      simp [HttpMcp.Call, hml, hn, hr, hs, hb, hu, hnoerr]
    unfold HttpMcp.ListTools
    split
    · rename_i h
      rw [h] at hcall
      simp at hcall
    · rename_i h
      rw [h] at hcall
      simp only [Except.ok.injEq] at hcall
      subst hcall
      simp [htools]

theorem http_call_returns_result_witness :
    (HttpMcp.Call (toolsEnv 200) (HttpMcp.NewClient "http://127.0.0.1:3333" "header")
        "tools/list" HttpMcp.Params.empty).1 = .ok toolsResponse.Result ∧
      (HttpMcp.ListTools (toolsEnv 200) exampleUnmarshalTools
        (HttpMcp.NewClient "http://127.0.0.1:3333" "header")).1 = .ok [] ∧
      ∃ err, (HttpMcp.Call (toolsEnv 500) (HttpMcp.NewClient "http://127.0.0.1:3333" "header")
        "tools/list" HttpMcp.Params.empty).1 = .error err :=
  http_call_returns_result (toolsEnv 200) (toolsEnv 500) exampleUnmarshalTools
    (HttpMcp.NewClient "http://127.0.0.1:3333" "header") "tools/list" HttpMcp.Params.empty
    "\x7b\"id\":\"x\",\"method\":\"tools/list\"\x7d" "\x7b\"id\":\"x\",\"method\":\"tools/list\"\x7d"
    toolsBody { StatusCode := 200, Body := .ok toolsBody }
    { StatusCode := 500, Body := .ok toolsBody } toolsResponse [] rfl rfl rfl (fun _ => rfl) rfl
    rfl rfl rfl rfl (fun _ => rfl) (by decide)

/-- The tail of `EnsureAuthenticated` after a refresh: on success the client carries
the reloaded token. -/
theorem ensure_after_refresh_token (env : Env) (a : Agent) (r : Option String × World)
    (h : (match r with
      | (some err, w) => (some ("failed to refresh token: " ++ err), a, w)
      | (none, w) =>
        match LoadToken env a.storage w with
        | .error err => (some ("failed to reload token: " ++ err), a, w)
        | .ok token =>
          (none, { a with mcpClient := HttpMcp.SetToken a.mcpClient token.AccessToken }, w)).1 =
      none) :
    ∃ t, LoadToken env a.storage (match r with
      | (some err, w) => (some ("failed to refresh token: " ++ err), a, w)
      | (none, w) =>
        match LoadToken env a.storage w with
        | .error err => (some ("failed to reload token: " ++ err), a, w)
        | .ok token =>
          (none, { a with mcpClient := HttpMcp.SetToken a.mcpClient token.AccessToken }, w)).2.2 =
        .ok t ∧
      (match r with
      | (some err, w) => (some ("failed to refresh token: " ++ err), a, w)
      | (none, w) =>
        match LoadToken env a.storage w with
        | .error err => (some ("failed to reload token: " ++ err), a, w)
        | .ok token =>
          (none, { a with mcpClient := HttpMcp.SetToken a.mcpClient token.AccessToken },
            w)).2.1.mcpClient.token = t.AccessToken := by
  obtain ⟨e, w2⟩ := r
  cases e with
  | some err => simp at h
  | none =>
    simp only at h ⊢
    cases hl2 : LoadToken env a.storage w2 with
    | error err => simp [hl2] at h
    | ok t2 => exact ⟨t2, by simp [hl2], by simp [HttpMcp.SetToken]⟩

/-- After a successful `EnsureAuthenticated` the MCP client carries the access token
that the agent's token store holds at that moment. -/
theorem ensureAuthenticated_sets_stored_token (env : Env) (a : Agent) (w : World)
    (h : (EnsureAuthenticated env a w).1 = none) :
    ∃ t, LoadToken env a.storage (EnsureAuthenticated env a w).2.2 = .ok t ∧
      (EnsureAuthenticated env a w).2.1.mcpClient.token = t.AccessToken := by
  unfold EnsureAuthenticated at h ⊢
  cases hl : LoadToken env a.storage w with
  | error err => simp [hl] at h
  | ok token =>
    simp only [hl, timeNow] at h ⊢
    by_cases h1 : token.IsExpired (env.clock w.ticks) = true
    · simp only [h1, if_true] at h ⊢
      exact ensure_after_refresh_token env a _ h
    · by_cases h2 : token.IsExpiringSoon (env.clock (w.ticks + 1)) (5 * Minute) = true
      · simp only [h1, h2, if_true, Bool.false_eq_true, if_false] at h ⊢
        exact ensure_after_refresh_token env a _ h
      · simp only [h1, h2, Bool.false_eq_true, if_false] at h ⊢
        refine ⟨token, ?_, by simp [HttpMcp.SetToken]⟩
        rw [← hl]
        exact loadToken_congr _ _ _ _ rfl rfl

/-- C18: `Agent.ListTools` and `Agent.CallTool` start with `EnsureAuthenticated`.
Either it fails, and then both return its error and send no request to the MCP
server; or it succeeds, and then the requests they send are those of the MCP
client whose token is the access token that the agent's token store holds at
that moment (after the refresh, when one ran). -/
theorem agent_calls_authenticate_first {A : Type} (env : Env)
    (menv : HttpMcp.Env (HttpMcp.Params A))
    (um : String → Except String (List HttpMcp.Tool)) (a : Agent) (w : World) (name : String)
    (args : A) :
    (∃ err, (EnsureAuthenticated env a w).1 = some err ∧
      (Agent.ListTools env menv um a w).1 = .error err ∧
      (Agent.ListTools env menv um a w).2.2.2 = [] ∧
      (Agent.CallTool env menv a w name args).1 = .error err ∧
      (Agent.CallTool env menv a w name args).2.2.2 = []) ∨
    ((EnsureAuthenticated env a w).1 = none ∧
      ∃ t, LoadToken env a.storage (EnsureAuthenticated env a w).2.2 = .ok t ∧
        (EnsureAuthenticated env a w).2.1.mcpClient.token = t.AccessToken ∧
        Agent.ListTools env menv um a w =
          ((HttpMcp.ListTools menv um (EnsureAuthenticated env a w).2.1.mcpClient).1,
            (EnsureAuthenticated env a w).2.1, (EnsureAuthenticated env a w).2.2,
            (HttpMcp.ListTools menv um (EnsureAuthenticated env a w).2.1.mcpClient).2) ∧
        Agent.CallTool env menv a w name args =
          ((HttpMcp.CallTool menv (EnsureAuthenticated env a w).2.1.mcpClient name args).1,
            (EnsureAuthenticated env a w).2.1, (EnsureAuthenticated env a w).2.2,
            (HttpMcp.CallTool menv (EnsureAuthenticated env a w).2.1.mcpClient name args).2)) := by
  have key := ensureAuthenticated_sets_stored_token env a w
  unfold Agent.ListTools Agent.CallTool
  generalize EnsureAuthenticated env a w = r at key ⊢
  obtain ⟨e, a1, w1⟩ := r
  cases e with
  | some err => exact Or.inl ⟨err, rfl, rfl, rfl, rfl, rfl⟩
  | none =>
    obtain ⟨t, ht1, ht2⟩ := key rfl
    exact Or.inr ⟨rfl, t, ht1, ht2, rfl, rfl⟩

/-! ### The requests of the HTTP client -/

/-- The request `Call` hands to the HTTP client, once the JSON-RPC request is
marshalled and `http.NewRequestWithContext` has accepted the URL. -/
theorem call_request {P : Type} (env : HttpMcp.Env P) (c : HttpMcp.Client) (method : String)
    (params : P) (reqBody : String)
    (hm : env.marshal { JSONRPC := "2.0", ID := env.uuid, Method := method, Params := params } =
      .ok reqBody)
    (hn : env.newRequest "POST" c.baseURL = .ok ()) :
    (HttpMcp.Call env c method params).2 =
      [{ Method := "POST", URL := c.baseURL,
         Header :=
          if c.token ≠ "" ∧ c.authMode = "header" then
            [("Content-Type", "application/json"), ("Authorization", "Bearer " ++ c.token)]
          else [("Content-Type", "application/json")],
         Body := reqBody }] := by
  unfold HttpMcp.Call
  simp only [hm, hn]
  have hreq : (if (c.token != "") = true then
        if (c.authMode == "header") = true then
          ({ Method := "POST", URL := c.baseURL,
             Header := HttpMcp.headerSet (HttpMcp.headerSet [] "Content-Type" "application/json")
              "Authorization" ("Bearer " ++ c.token),
             Body := reqBody } : HttpMcp.Request)
        else
          { Method := "POST", URL := c.baseURL,
            Header := HttpMcp.headerSet [] "Content-Type" "application/json", Body := reqBody }
      else
        { Method := "POST", URL := c.baseURL,
          Header := HttpMcp.headerSet [] "Content-Type" "application/json", Body := reqBody }) =
      { Method := "POST", URL := c.baseURL,
        Header :=
          if c.token ≠ "" ∧ c.authMode = "header" then
            [("Content-Type", "application/json"), ("Authorization", "Bearer " ++ c.token)]
          else [("Content-Type", "application/json")],
        Body := reqBody } := by
    by_cases ht : c.token = "" <;> by_cases ha : c.authMode = "header" <;>
      simp +decide [ht, ha, HttpMcp.headerSet]
  simp only [hreq]
  split
  · rfl
  · split
    · rfl
    · split
      · rfl
      · split
        · rfl
        · split <;> rfl

theorem setToken_fold (c : HttpMcp.Client) (tokens : List String) (last : String) :
    ((tokens ++ [last]).foldl HttpMcp.SetToken c).token = last ∧
      ((tokens ++ [last]).foldl HttpMcp.SetToken c).authMode = c.authMode ∧
      ((tokens ++ [last]).foldl HttpMcp.SetToken c).baseURL = c.baseURL := by
  induction tokens generalizing c with
  | nil => exact ⟨rfl, rfl, rfl⟩
  | cons t ts ih =>
    simp only [List.cons_append, List.foldl_cons]
    exact ih (HttpMcp.SetToken c t)

/-- C21: the request `Call` sends is a POST to the base URL with
`Content-Type: application/json`; it has an `Authorization` header exactly when
the client's token is non-empty and its auth mode is `header`, and then the
value is `Bearer ` followed by the token, which is the one most recently
passed to `SetToken`. -/
theorem http_request_authorization {P : Type} (env : HttpMcp.Env P) (c : HttpMcp.Client)
    (tokens : List String) (last method : String) (params : P) (reqBody : String)
    (hm : env.marshal { JSONRPC := "2.0", ID := env.uuid, Method := method, Params := params } =
      .ok reqBody)
    (hn : env.newRequest "POST" c.baseURL = .ok ()) :
    (∃ req, (HttpMcp.Call env c method params).2 = [req] ∧ req.Method = "POST" ∧
      req.URL = c.baseURL ∧
      req.Header.lookup "Content-Type" = some "application/json" ∧
      req.Header.lookup "Authorization" =
        if c.token ≠ "" ∧ c.authMode = "header" then some ("Bearer " ++ c.token) else none) ∧
    (∃ req, (HttpMcp.Call env ((tokens ++ [last]).foldl HttpMcp.SetToken c) method params).2 =
        [req] ∧ req.Method = "POST" ∧
      req.Header.lookup "Content-Type" = some "application/json" ∧
      req.Header.lookup "Authorization" =
        if last ≠ "" ∧ c.authMode = "header" then some ("Bearer " ++ last) else none) := by
  have key : ∀ c1 : HttpMcp.Client, env.newRequest "POST" c1.baseURL = .ok () →
      ∃ req, (HttpMcp.Call env c1 method params).2 = [req] ∧ req.Method = "POST" ∧
        req.URL = c1.baseURL ∧
        req.Header.lookup "Content-Type" = some "application/json" ∧
        req.Header.lookup "Authorization" =
          if c1.token ≠ "" ∧ c1.authMode = "header" then some ("Bearer " ++ c1.token)
          else none := by
    intro c1 hn1
    refine ⟨_, call_request env c1 method params reqBody hm hn1, rfl, rfl, ?_, ?_⟩
    · by_cases h : c1.token ≠ "" ∧ c1.authMode = "header" <;> simp +decide [h, List.lookup]
    · by_cases h : c1.token ≠ "" ∧ c1.authMode = "header" <;> simp +decide [h, List.lookup]
  obtain ⟨h1, h2, h3⟩ := setToken_fold c tokens last
  refine ⟨key c hn, ?_⟩
  obtain ⟨req, hreq, hmeth, -, hct, hauth⟩ :=
    key ((tokens ++ [last]).foldl HttpMcp.SetToken c) (by rw [h3]; exact hn)
  rw [h1, h2] at hauth
  exact ⟨req, hreq, hmeth, hct, hauth⟩

theorem http_request_authorization_witness :
    (∃ req, (HttpMcp.Call HttpMcp.exampleEnv (HttpMcp.NewClient "http://127.0.0.1:3333" "header")
        "tools/list" ()).2 = [req] ∧ req.Method = "POST" ∧
      req.URL = (HttpMcp.NewClient "http://127.0.0.1:3333" "header").baseURL ∧
      req.Header.lookup "Content-Type" = some "application/json" ∧
      req.Header.lookup "Authorization" =
        if (HttpMcp.NewClient "http://127.0.0.1:3333" "header").token ≠ "" ∧
            (HttpMcp.NewClient "http://127.0.0.1:3333" "header").authMode = "header" then
          some ("Bearer " ++ (HttpMcp.NewClient "http://127.0.0.1:3333" "header").token)
        else none) ∧
    (∃ req, (HttpMcp.Call HttpMcp.exampleEnv ((["old-token"] ++ ["test-token-123"]).foldl
        HttpMcp.SetToken (HttpMcp.NewClient "http://127.0.0.1:3333" "header")) "tools/list" ()).2 =
        [req] ∧ req.Method = "POST" ∧
      req.Header.lookup "Content-Type" = some "application/json" ∧
      req.Header.lookup "Authorization" =
        if "test-token-123" ≠ "" ∧
            (HttpMcp.NewClient "http://127.0.0.1:3333" "header").authMode = "header" then
          some ("Bearer " ++ "test-token-123")
        else none) :=
  http_request_authorization HttpMcp.exampleEnv (HttpMcp.NewClient "http://127.0.0.1:3333" "header")
    ["old-token"] "test-token-123" "tools/list" ()
    "\x7b\"id\":\"x\",\"method\":\"tools/list\"\x7d" rfl rfl

/-! ### The reply's id -/

/-- C26, counterexample: two replies with status 500 whose bodies differ only in
the `id` member make `Call` return different errors, because the error text
quotes the body. -/
theorem call_error_quotes_reply_id :
    (HttpMcp.Call (replyEnv 500 "x") exampleAgent.mcpClient "tools/list" HttpMcp.Params.empty).1 =
        .error ("MCP server returned status 500: " ++ replyBody "x") ∧
      (HttpMcp.Call (replyEnv 500 "other") exampleAgent.mcpClient "tools/list"
          HttpMcp.Params.empty).1 =
        .error ("MCP server returned status 500: " ++ replyBody "other") ∧
      (HttpMcp.Call (replyEnv 500 "x") exampleAgent.mcpClient "tools/list" HttpMcp.Params.empty).1 ≠
        (HttpMcp.Call (replyEnv 500 "other") exampleAgent.mcpClient "tools/list"
          HttpMcp.Params.empty).1 := by
  refine ⟨rfl, rfl, ?_⟩
  intro h
  have h1 : (HttpMcp.Call (replyEnv 500 "x") exampleAgent.mcpClient "tools/list"
      HttpMcp.Params.empty).1 = .error ("MCP server returned status 500: " ++ replyBody "x") := rfl
  have h2 : (HttpMcp.Call (replyEnv 500 "other") exampleAgent.mcpClient "tools/list"
      HttpMcp.Params.empty).1 =
      .error ("MCP server returned status 500: " ++ replyBody "other") := rfl
  rw [h1, h2] at h
  have h3 := Except.error.inj h
  revert h3
  decide

/-- C26, amended: for two replies with status 200 whose bodies decode to responses
with the same result and the same error object, whatever their ids, `Call`
returns the same result and the same error; the id generated for the request
plays no part in the comparison. -/
theorem call_ignores_response_id {P : Type} (env : HttpMcp.Env P) (c : HttpMcp.Client)
    (method : String) (params : P) (body1 body2 : String) (r1 r2 : JSONRPCResponse)
    (h1 : env.unmarshal body1 = .ok r1) (h2 : env.unmarshal body2 = .ok r2)
    (hres : r1.Result = r2.Result) (herr : r1.Error = r2.Error) :
    (HttpMcp.Call { env with roundTrip := fun _ => .ok { StatusCode := 200, Body := .ok body1 } }
        c method params).1 =
      (HttpMcp.Call { env with roundTrip := fun _ => .ok { StatusCode := 200, Body := .ok body2 } }
        c method params).1 := by
  unfold HttpMcp.Call
  simp only
  cases env.marshal { JSONRPC := "2.0", ID := env.uuid, Method := method, Params := params } with
  | error e => rfl
  | ok reqBody =>
    cases env.newRequest "POST" c.baseURL with
    | error e => rfl
    | ok u =>
      simp only [h1, h2, hres, herr]
      cases r2.Error <;> simp

theorem call_ignores_response_id_witness :
    (HttpMcp.Call { replyEnv 200 "x" with
          roundTrip := fun _ => .ok { StatusCode := 200, Body := .ok (replyBody "x") } }
        exampleAgent.mcpClient "tools/list" HttpMcp.Params.empty).1 =
      (HttpMcp.Call { replyEnv 200 "x" with
          roundTrip := fun _ => .ok { StatusCode := 200, Body := .ok (replyBody "other") } }
        exampleAgent.mcpClient "tools/list" HttpMcp.Params.empty).1 :=
  call_ignores_response_id (replyEnv 200 "x") exampleAgent.mcpClient "tools/list"
    HttpMcp.Params.empty (replyBody "x") (replyBody "other") toolsResponse
    { toolsResponse with ID := "other" } rfl rfl rfl rfl

/-! ### Redaction -/

theorem redactSensitive_long (s : List Nat) (h : 20 < s.length) :
    RedactSensitive s = some (s.take 8 ++ Url.utf8 "..." ++ s.drop (s.length - 4)) := by
  have h8 : 8 ≤ s.length := by omega
  have h4 : s.length - 4 ≤ s.length := by omega
  have ht : (s.drop (s.length - 4)).take (s.length - (s.length - 4)) = s.drop (s.length - 4) := by
    apply List.take_of_length_le
    simp
  simp [RedactSensitive, goSlice, h, h8, ht]

theorem utf8_dots : (Url.utf8 "...").length = 3 := by decide

/-- C28: `RedactSensitive` always returns (its slices are in bounds); an input of
at most 20 bytes gives `***`; a longer input gives its first 8 bytes, `...`
and its last 4 bytes, 15 bytes in all, and the input is the first part, at
least 9 hidden bytes and the last part in this order, so that the two revealed
parts do not overlap and show 12 bytes together. -/
theorem redactSensitive_reveals_twelve (s : List Nat) :
    (RedactSensitive s).isSome ∧
      (s.length ≤ 20 → RedactSensitive s = some (Url.utf8 "***")) ∧
      (20 < s.length →
        RedactSensitive s = some (s.take 8 ++ Url.utf8 "..." ++ s.drop (s.length - 4)) ∧
        (s.take 8 ++ Url.utf8 "..." ++ s.drop (s.length - 4)).length = 15 ∧
        (s.take 8).length + (s.drop (s.length - 4)).length = 12 ∧
        ∃ hidden : List Nat, 9 ≤ hidden.length ∧
          s = s.take 8 ++ hidden ++ s.drop (s.length - 4)) := by
  have short : s.length ≤ 20 → RedactSensitive s = some (Url.utf8 "***") := by
    intro h
    have : ¬ s.length > 20 := by omega
    simp [RedactSensitive, this]
  refine ⟨?_, short, ?_⟩
  · by_cases h : 20 < s.length
    · rw [redactSensitive_long s h]; rfl
    · rw [short (by omega)]; rfl
  · intro h
    refine ⟨redactSensitive_long s h, ?_, ?_, (s.drop 8).take (s.length - 12), ?_, ?_⟩
    · simp only [List.length_append, List.length_take, List.length_drop, utf8_dots]
      omega
    · simp only [List.length_take, List.length_drop]
      omega
    · simp only [List.length_take, List.length_drop]
      omega
    · have e : s.length - 4 = 8 + (s.length - 12) := by omega
      rw [List.append_assoc, e, ← List.drop_drop, List.take_append_drop, List.take_append_drop]

/-! ### The JSON form of a token: decoding undoes encoding -/

namespace Json

theorem unquote_simple (e x : Char) (tail : List Char) (hu : e ≠ 'u')
    (hx : simpleEscape e = some x) :
    unquote (backslash :: e :: tail) = (unquote tail).map (fun p => (x :: p.1, p.2)) := by
  rw [unquote.eq_def]
  simp [show backslash ≠ quoteChar by decide, hu, hx]

theorem unquote_u4 (a b c d : Char) (n : Nat) (tail : List Char)
    (hn : getu4 a b c d = some n) (hs : ¬ (55296 ≤ n ∧ n < 57344)) :
    unquote (backslash :: 'u' :: a :: b :: c :: d :: tail) =
      (unquote tail).map (fun p => (Char.ofNat n :: p.1, p.2)) := by
  rw [unquote.eq_def]
  simp [show backslash ≠ quoteChar by decide, hn, hs]

theorem unquote_plain (c : Char) (tail : List Char) (h1 : c ≠ quoteChar) (h2 : c ≠ backslash)
    (h3 : ¬ c.toNat < 32) :
    unquote (c :: tail) = (unquote tail).map (fun p => (c :: p.1, p.2)) := by
  rw [unquote.eq_def]
  simp [h1, h2, h3]

set_option maxRecDepth 100000 in
theorem getu4_low : ∀ n < 128, getu4 '0' '0' (hex (n / 16)) (hex n) = some n := by
  decide

/-- Decoding reads back the character that `escape` wrote. -/
theorem unquote_escape (c : Char) (tail : List Char) :
    unquote (escape c ++ tail) = (unquote tail).map (fun p => (c :: p.1, p.2)) := by
  unfold escape
  split_ifs with h1 h2 h3 h4 h5 h6 h7 h8 h9
  · subst h1; exact unquote_simple _ _ _ (by decide) (by decide)
  · subst h2; exact unquote_simple _ _ _ (by decide) (by decide)
  · subst h3; exact unquote_simple _ _ _ (by decide) (by decide)
  · subst h4; exact unquote_simple _ _ _ (by decide) (by decide)
  · subst h5; exact unquote_simple _ _ _ (by decide) (by decide)
  · subst h6; exact unquote_simple _ _ _ (by decide) (by decide)
  · subst h7; exact unquote_simple _ _ _ (by decide) (by decide)
  · have hlt : c.toNat < 128 := by
      rcases h8 with h | h | h | h
      · omega
      · subst h; decide
      · subst h; decide
      · subst h; decide
    have := unquote_u4 '0' '0' (hex (c.toNat / 16)) (hex c.toNat) c.toNat tail
      (getu4_low c.toNat hlt) (by omega)
    simpa [Char.ofNat_toNat] using this
  · rcases h9 with h | h
    · subst h; exact unquote_u4 _ _ _ _ 8232 tail (by decide) (by decide)
    · subst h; exact unquote_u4 _ _ _ _ 8233 tail (by decide) (by decide)
  · exact unquote_plain c tail h1 h2 (fun h => h8 (Or.inl h))

theorem unquote_flatMap (cs rest : List Char) :
    unquote (cs.flatMap escape ++ quoteChar :: rest) = some (cs, rest) := by
  induction cs with
  | nil => rw [List.flatMap_nil, List.nil_append, unquote.eq_def]; simp
  | cons c cs ih =>
    rw [List.flatMap_cons, List.append_assoc, unquote_escape, ih]
    rfl

theorem stripPrefix_append (p s : List Char) : stripPrefix p (p ++ s) = some s := by
  induction p with
  | nil => cases s <;> rfl
  | cons a p ih => simp [stripPrefix, ih]

theorem span_quote (cs rest : List Char) (h : ∀ c ∈ cs, c ≠ quoteChar) :
    (cs ++ quoteChar :: rest).takeWhile (fun c => c != quoteChar) = cs ∧
      (cs ++ quoteChar :: rest).dropWhile (fun c => c != quoteChar) = quoteChar :: rest := by
  induction cs with
  | nil => simp [List.takeWhile, List.dropWhile]
  | cons c cs ih =>
    have hc : (c != quoteChar) = true := by simpa using h c (List.mem_cons_self _ _)
    obtain ⟨h1, h2⟩ := ih (fun x hx => h x (List.mem_cons_of_mem _ hx))
    simp only [List.cons_append, List.takeWhile_cons, List.dropWhile_cons, hc, if_true, h1, h2,
      and_self]

end Json

namespace Time

theorem peel_spec (len : Nat → Nat) :
    ∀ (fuel i rem : Nat), rem < total len fuel i →
      (peel len fuel i rem).2 < len (peel len fuel i rem).1 ∧ i ≤ (peel len fuel i rem).1 ∧
        (peel len fuel i rem).1 < i + fuel := by
  intro fuel
  induction fuel with
  | zero => intro i rem h; simp [total] at h
  | succ n ih =>
    intro i rem h
    simp only [total] at h
    by_cases hlt : rem < len i
    · rw [peel, if_pos hlt]
      exact ⟨hlt, Nat.le_refl _, by omega⟩
    · rw [peel, if_neg hlt]
      obtain ⟨h1, h2, h3⟩ := ih (i + 1) (rem - len i) (by omega)
      exact ⟨h1, by omega, by omega⟩

theorem isLeap_add (e k : Nat) : isLeap (400 * e + k) = isLeap k := by
  have h4 : (400 * e + k) % 4 = k % 4 := by omega
  have h100 : (400 * e + k) % 100 = k % 100 := by omega
  have h400 : (400 * e + k) % 400 = k % 400 := by omega
  simp only [isLeap, h4, h100, h400]

theorem total_years_add (e : Nat) :
    ∀ n k, total daysInYear n (400 * e + k) = total daysInYear n k := by
  intro n
  induction n with
  | zero => intro k; rfl
  | succ n ih =>
    intro k
    simp only [total, daysInYear, isLeap_add]
    rw [Nat.add_assoc, ih (k + 1)]

set_option maxRecDepth 100000 in
theorem total_cycle : total daysInYear 400 0 = 146097 := by decide

theorem total_months (year : Nat) : total (fun m => daysIn m year) 12 1 = daysInYear year := by
  simp only [total, daysIn, daysInYear]
  cases isLeap year <;> simp

/-- The date `civil` computes is a date: the month is one of the twelve and the
day one of that month. -/
theorem civil_spec (days : Nat) :
    (civil days).1 < 400 * (days / 146097) + 400 ∧
      1 ≤ (civil days).2.1 ∧ (civil days).2.1 ≤ 12 ∧
      1 ≤ (civil days).2.2 ∧ (civil days).2.2 ≤ daysIn (civil days).2.1 (civil days).1 := by
  have hy := peel_spec daysInYear 400 (400 * (days / 146097)) (days % 146097) (by
    have := total_years_add (days / 146097) 400 0
    simp only [Nat.add_zero] at this
    rw [this, total_cycle]
    exact Nat.mod_lt _ (by decide))
  have hm := peel_spec
    (fun m => daysIn m (peel daysInYear 400 (400 * (days / 146097)) (days % 146097)).1) 12 1
    (peel daysInYear 400 (400 * (days / 146097)) (days % 146097)).2 (by
      rw [total_months]
      exact hy.1)
  simp only [civil]
  refine ⟨hy.2.2, hm.2.1, by omega, by omega, ?_⟩
  have := hm.1
  simp only at this
  omega

theorem digitVal_digit (n : Nat) : digitVal (digit n) = some (n % 10) := by
  have h : n % 10 < 10 := Nat.mod_lt _ (by decide)
  unfold digit
  generalize n % 10 = r at h
  interval_cases r <;> rfl

theorem parseUint_pad2 (n lo hi : Nat) (h : n < 100) (h1 : lo ≤ n) (h2 : n ≤ hi) :
    parseUint (pad2 n) lo hi = some n := by
  have e : n / 10 % 10 * 10 + n % 10 = n := by omega
  simp [parseUint, pad2, digitVal_digit, e, h1, h2]

theorem parseUint_pad4 (n lo hi : Nat) (h : n < 10000) (h1 : lo ≤ n) (h2 : n ≤ hi) :
    parseUint (pad4 n) lo hi = some n := by
  have e : ((n / 1000 % 10 * 10 + n / 100 % 10) * 10 + n / 10 % 10) * 10 + n % 10 = n := by omega
  simp [parseUint, pad4, digitVal_digit, e, h1, h2]

theorem digit_isDigit (n : Nat) : (digitVal (digit n)).isSome = true := by
  rw [digitVal_digit]; rfl

theorem digit_eq_zero (n : Nat) (h : digit n = '0') : n % 10 = 0 := by
  have h1 := digitVal_digit n
  rw [h] at h1
  have : digitVal '0' = some 0 := rfl
  rw [this] at h1
  exact (Option.some.inj h1).symm

theorem digit_ne_quote (n : Nat) : digit n ≠ Json.quoteChar := by
  intro h
  have h1 := digitVal_digit n
  rw [h] at h1
  have : digitVal Json.quoteChar = none := rfl
  rw [this] at h1
  cases h1

theorem trimZeros_eq_nil (l : List Char) (h : trimZeros l = []) : ∀ c ∈ l, c = '0' := by
  unfold trimZeros at h
  have h1 : l.reverse.dropWhile (fun c => c == '0') = [] := by
    simpa using h
  rw [List.dropWhile_eq_nil_iff] at h1
  intro c hc
  have := h1 c (by simpa using hc)
  simpa using this

theorem trimZeros_subset (l : List Char) : ∀ c ∈ trimZeros l, c ∈ l := by
  intro c hc
  unfold trimZeros at hc
  have h1 : c ∈ l.reverse.dropWhile (fun c => c == '0') := by simpa using hc
  have h2 := (List.dropWhile_sublist (fun c => c == '0')).subset h1
  simpa using h2

theorem digitsRev_digits : ∀ (width n : Nat), ∀ c ∈ digitsRev width n, ∃ k, c = digit k := by
  intro width
  induction width with
  | zero => intro n c hc; simp [digitsRev] at hc
  | succ w ih =>
    intro n c hc
    simp only [digitsRev, List.mem_cons] at hc
    rcases hc with h | h
    · exact ⟨n, h⟩
    · exact ih _ c h

theorem digitsRev_zero : ∀ (width n : Nat), n < 10 ^ width →
    (∀ c ∈ digitsRev width n, c = '0') → n = 0 := by
  intro width
  induction width with
  | zero => intro n h _; simpa using h
  | succ w ih =>
    intro n h hall
    have h0 := digit_eq_zero n (hall _ (by simp [digitsRev]))
    have h1 : n / 10 < 10 ^ w := by
      rw [Nat.pow_succ] at h
      exact Nat.div_lt_of_lt_mul (by rw [Nat.mul_comm]; exact h)
    have h2 := ih (n / 10) h1 (fun c hc => hall c (by simp [digitsRev, hc]))
    omega

theorem pad9_digits (n : Nat) : ∀ c ∈ pad9 n, ∃ k, c = digit k := by
  intro c hc
  exact digitsRev_digits 9 n c (by simpa [pad9] using hc)

theorem pad9_zero (n : Nat) (h : n < 1000000000) (hall : ∀ c ∈ pad9 n, c = '0') : n = 0 :=
  digitsRev_zero 9 n (by omega) (fun c hc => hall c (by simpa [pad9] using hc))

theorem dropWhile_digits (ds : List Char) (h : ∀ c ∈ ds, (digitVal c).isSome = true) :
    (ds ++ ['Z']).dropWhile (fun x => (digitVal x).isSome) = ['Z'] := by
  induction ds with
  | nil => rfl
  | cons d ds ih =>
    have hd := h d (List.mem_cons_self _ _)
    simp only [List.cons_append, List.dropWhile_cons, hd, if_true]
    exact ih (fun c hc => h c (List.mem_cons_of_mem _ hc))

theorem parseFraction_appendNano (nanos : Nat) (h : nanos < 1000000000) :
    (parseFraction (appendNano nanos ++ ['Z'])).2 = ['Z'] := by
  unfold appendNano
  by_cases h0 : nanos = 0
  · simp [h0, parseFraction]
  · simp only [h0, if_false]
    have hne : trimZeros (pad9 nanos) ≠ [] := fun hnil =>
      h0 (pad9_zero nanos h (trimZeros_eq_nil _ hnil))
    have hdig : ∀ x ∈ trimZeros (pad9 nanos), (digitVal x).isSome = true := by
      intro x hx
      obtain ⟨k, hk⟩ := pad9_digits nanos x (trimZeros_subset _ x hx)
      rw [hk]
      exact digit_isDigit k
    cases hl : trimZeros (pad9 nanos) with
    | nil => exact absurd hl hne
    | cons d ds =>
      rw [hl] at hdig
      have hd := hdig d (List.mem_cons_self _ _)
      have := dropWhile_digits (d :: ds) hdig
      simp only [List.cons_append] at this ⊢
      simp only [parseFraction, hd, and_self, if_true]
      exact this

/-- The text `formatRFC3339` writes is one that `parseRFC3339` accepts. -/
theorem parse_format (t : Int) (cs : List Char) (h : formatRFC3339 t = .ok cs) :
    (parseRFC3339 cs).isSome = true := by
  unfold formatRFC3339 at h
  split_ifs at h with hr
  simp only [Except.ok.injEq] at h
  subst h
  simp only [fourDigitYear, decide_eq_true_eq] at hr
  have habs : (t / 1000000000 + 62167219200).toNat < 315569520000 := by omega
  have hn : (t % 1000000000).toNat < 1000000000 := by omega
  generalize (t / 1000000000 + 62167219200).toNat = abs at habs
  generalize (t % 1000000000).toNat = nanos at hn
  obtain ⟨hy, hm1, hm2, hd1, hd2⟩ := civil_spec (abs / 86400)
  have hyear : (civil (abs / 86400)).1 < 10000 := by
    have : abs / 86400 / 146097 ≤ 24 := by omega
    omega
  have hday : (civil (abs / 86400)).2.2 < 100 := by
    have : daysIn (civil (abs / 86400)).2.1 (civil (abs / 86400)).1 ≤ 31 := by
      unfold daysIn; split_ifs <;> omega
    omega
  simp only [pad4, pad2, List.cons_append, List.nil_append, parseRFC3339]
  have e4 := parseUint_pad4 (civil (abs / 86400)).1 0 9999 hyear (Nat.zero_le _) (by omega)
  have em := parseUint_pad2 (civil (abs / 86400)).2.1 1 12 (by omega) hm1 hm2
  have ed := parseUint_pad2 (civil (abs / 86400)).2.2 1
    (daysIn (civil (abs / 86400)).2.1 (civil (abs / 86400)).1) hday hd1 hd2
  have eh := parseUint_pad2 (abs % 86400 / 3600) 0 23 (by omega) (Nat.zero_le _) (by omega)
  have emi := parseUint_pad2 (abs % 86400 % 3600 / 60) 0 59 (by omega) (Nat.zero_le _) (by omega)
  have es := parseUint_pad2 (abs % 86400 % 60) 0 59 (by omega) (Nat.zero_le _) (by omega)
  simp only [pad4, pad2] at e4 em ed eh emi es
  simp only [e4, em, ed, eh, emi, es, parseFraction_appendNano nanos hn, and_self, if_true]
  rfl

/-- The text `formatRFC3339` writes holds no double quote. -/
theorem format_no_quote (t : Int) (cs : List Char) (h : formatRFC3339 t = .ok cs) :
    ∀ c ∈ cs, c ≠ Json.quoteChar := by
  unfold formatRFC3339 at h
  split_ifs at h with hr
  simp only [Except.ok.injEq] at h
  subst h
  intro c hc
  simp only [pad4, pad2, appendNano, List.cons_append, List.nil_append, List.mem_cons,
    List.mem_append, List.mem_singleton, List.not_mem_nil, or_false] at hc
  have hq : ∀ k, c = digit k → c ≠ Json.quoteChar := fun k hk => hk ▸ digit_ne_quote k
  rcases hc with h | h | h | h | h | h | h | h | h | h | h | h | h | h | h | h | h | h | h | h | h
  all_goals first
    | exact hq _ h
    | (subst h; decide)
    | skip
  · split_ifs at h with h0
    · simp at h
    · simp only [List.mem_cons] at h
      rcases h with h | h
      · subst h; decide
      · obtain ⟨k, hk⟩ := pad9_digits _ c (trimZeros_subset _ c h)
        exact hq k hk

end Time

/-- The model decoder reads back from the document `json.Marshal` writes for a
token the access token and the refresh token of that token. -/
theorem unmarshal_marshal (t : Token) (data : String) (h : jsonMarshalToken t = .ok data) :
    ∃ expires, jsonUnmarshalToken data =
      some { AccessToken := t.AccessToken, RefreshToken := t.RefreshToken, ExpiresAt := expires } := by
  unfold jsonMarshalToken Time.MarshalJSON at h
  cases hf : Time.formatRFC3339 t.ExpiresAt with
  | error e => simp [hf] at h
  | ok cs =>
    simp only [hf, Except.ok.injEq] at h
    subst h
    obtain ⟨e, he⟩ := Option.isSome_iff_exists.1 (Time.parse_format _ _ hf)
    obtain ⟨ht, hd⟩ := Json.span_quote cs [Char.ofNat 125] (Time.format_no_quote _ _ hf)
    refine ⟨e, ?_⟩
    have hA : "\x7b\"access_token\":\"".data =
        "\x7b\"access_token\":".data ++ [Json.quoteChar] := by decide
    have hB : ",\"refresh_token\":\"".data = ",\"refresh_token\":".data ++ [Json.quoteChar] := by
      decide
    have hC : ",\"expires_at\":\"".data = ",\"expires_at\":".data ++ [Json.quoteChar] := by
      decide
    have hshape :
        "\x7b\"access_token\":".data ++ Json.appendString t.AccessToken ++
            ",\"refresh_token\":".data ++ Json.appendString t.RefreshToken ++
            ",\"expires_at\":".data ++ (Json.quoteChar :: (cs ++ [Json.quoteChar])) ++
            [Char.ofNat 125] =
          "\x7b\"access_token\":\"".data ++
            (t.AccessToken.data.flatMap Json.escape ++ Json.quoteChar ::
              (",\"refresh_token\":\"".data ++
                (t.RefreshToken.data.flatMap Json.escape ++ Json.quoteChar ::
                  (",\"expires_at\":\"".data ++ (cs ++ Json.quoteChar :: [Char.ofNat 125]))))) := by
      rw [hA, hB, hC]
      simp only [Json.appendString, List.append_assoc, List.cons_append, List.nil_append,
        List.singleton_append]
    unfold jsonUnmarshalToken
    simp only [hshape, Json.stripPrefix_append, Json.unquote_flatMap, ht, hd, he, if_true]

/-! ### The token file -/

theorem loadToken_absent (env : Env) (s : TokenStorage) (w : World)
    (hs : s.useKeyring = false) (hf : w.file = .absent) :
    LoadToken env s w =
      .error "no token found - please run 'mission-control auth login' first" := by
  simp [LoadToken, hs, hf]

/-- C24 (as stated) fails: `json.Marshal` refuses a token that expires in the year
10000, so `SaveToken` of it fails with nothing written, and `LoadToken` after it
finds no token. -/
theorem saveToken_refuses_far_expiry :
    SaveToken jsonEnv { useKeyring := false } farToken emptyWorld =
        (some "failed to marshal token: json: error calling MarshalJSON for type time.Time: Time.MarshalJSON: year outside of range [0,9999]",
          emptyWorld) ∧
      LoadToken jsonEnv { useKeyring := false }
          (SaveToken jsonEnv { useKeyring := false } farToken emptyWorld).2 =
        .error "no token found - please run 'mission-control auth login' first" := by
  have h : SaveToken jsonEnv { useKeyring := false } farToken emptyWorld =
      (some "failed to marshal token: json: error calling MarshalJSON for type time.Time: Time.MarshalJSON: year outside of range [0,9999]",
        emptyWorld) := by decide
  rw [h]
  exact ⟨rfl, rfl⟩

/-- C24, amended: with file-backed storage and `encoding/json` as the codec, for
every token whose expiry has a year from 0 to 9999 (its strings being valid
UTF-8), when the file is written without error, `SaveToken` succeeds and
`LoadToken` then succeeds and returns a token with the same access and refresh
token; `SaveToken` of a token with another expiry fails and changes nothing;
after a `DeleteToken` that reported no error `LoadToken` fails; and
`DeleteToken` reports no error when there is no token file. -/
theorem file_storage_save_load_delete (env : Env) (s : TokenStorage) (t far : Token)
    (w w2 w3 : World) (fault : Option String)
    (hs : s.useKeyring = false)
    (henc : env.marshalToken = jsonMarshalToken)
    (hdec : ∀ data token, jsonUnmarshalToken data = some token →
      env.unmarshalToken data = .ok token)
    (hyear : Time.fourDigitYear t.ExpiresAt = true)
    (hw : ∀ data, jsonMarshalToken t = .ok data → env.storeWrite data = none)
    (hfar : Time.fourDigitYear far.ExpiresAt = false)
    (hd : (DeleteToken fault s w2).1 = none)
    (h3 : w3.file = .absent) :
    (SaveToken env s t w).1 = none ∧
      (∃ loaded, LoadToken env s (SaveToken env s t w).2 = .ok loaded ∧
        loaded.AccessToken = t.AccessToken ∧ loaded.RefreshToken = t.RefreshToken) ∧
      SaveToken env s far w =
        (some "failed to marshal token: json: error calling MarshalJSON for type time.Time: Time.MarshalJSON: year outside of range [0,9999]",
          w) ∧
      (∃ err, LoadToken env s (DeleteToken fault s w2).2 = .error err) ∧
      (DeleteToken fault s w3).1 = none ∧ (DeleteToken fault s w3).2 = w3 := by
  obtain ⟨data, hm⟩ : ∃ data, jsonMarshalToken t = .ok data := by
    simp [jsonMarshalToken, Time.MarshalJSON, Time.formatRFC3339, hyear]
  obtain ⟨expires, hu⟩ := unmarshal_marshal t data hm
  have hu1 := hdec _ _ hu
  have hw1 := hw data hm
  refine ⟨?_,
    ⟨{ AccessToken := t.AccessToken, RefreshToken := t.RefreshToken, ExpiresAt := expires },
      ?_, rfl, rfl⟩, ?_, ?_, ?_, ?_⟩
  · simp [SaveToken, henc, hm, hs, hw1]
  · simp [SaveToken, LoadToken, henc, hm, hs, hw1, hu1, World.emit]
  · simp [SaveToken, henc, jsonMarshalToken, Time.MarshalJSON, Time.formatRFC3339, hfar]
  · unfold DeleteToken at hd ⊢
    simp only [hs, Bool.false_eq_true, if_false] at hd ⊢
    cases hf : w2.file with
    | absent => exact ⟨_, loadToken_absent env s _ hs hf⟩
    | present d =>
      simp only [hf] at hd ⊢
      cases fault with
      | none => exact ⟨_, loadToken_absent env s _ hs rfl⟩
      | some e => simp at hd
    | broken e0 =>
      simp only [hf] at hd ⊢
      cases fault with
      | none => exact ⟨_, loadToken_absent env s _ hs rfl⟩
      | some e => simp at hd
  · simp [DeleteToken, hs, h3]
  · simp [DeleteToken, hs, h3]

theorem file_storage_save_load_delete_witness :
    (SaveToken jsonEnv { useKeyring := false } quotedToken emptyWorld).1 = none ∧
      (∃ loaded, LoadToken jsonEnv { useKeyring := false }
          (SaveToken jsonEnv { useKeyring := false } quotedToken emptyWorld).2 = .ok loaded ∧
        loaded.AccessToken = quotedToken.AccessToken ∧
        loaded.RefreshToken = quotedToken.RefreshToken) ∧
      SaveToken jsonEnv { useKeyring := false } farToken emptyWorld =
        (some "failed to marshal token: json: error calling MarshalJSON for type time.Time: Time.MarshalJSON: year outside of range [0,9999]",
          emptyWorld) ∧
      (∃ err, LoadToken jsonEnv { useKeyring := false }
          (DeleteToken none { useKeyring := false } (worldWith quotedToken)).2 = .error err) ∧
      (DeleteToken none { useKeyring := false } emptyWorld).1 = none ∧
      (DeleteToken none { useKeyring := false } emptyWorld).2 = emptyWorld :=
  file_storage_save_load_delete jsonEnv { useKeyring := false } quotedToken farToken emptyWorld
    (worldWith quotedToken) emptyWorld none rfl rfl
    (fun data token h => by simp [jsonEnv, h]) (by decide) (fun _ _ => rfl) (by decide) rfl rfl

/-! ### The callback server is stopped on every path -/

theorem announce_server (env : Env) (f : AuthFlow) (authURL : String) (w : World) :
    (Login.announce env f authURL w).1.server = some (":" ++ getCallbackPort env f) := by
  unfold Login.announce
  simp only [startCallbackServer]
  split <;> rfl

theorem announce_listens (env : Env) (f : AuthFlow) (authURL : String) (w : World) :
    Effect.listen (":" ++ getCallbackPort env f) ∈ (Login.announce env f authURL w).2.trace := by
  unfold Login.announce
  simp only [startCallbackServer]
  have h0 : Effect.listen (":" ++ getCallbackPort env f) ∈
      (((w.emit (.logInfo "Opening browser for authorization...")).emit
        (.logInfo ("Please visit: " ++ authURL))).emit
          (.listen (":" ++ getCallbackPort env f))).trace := by
    simp [World.emit]
  have h1 := openBrowser_mem env authURL _ _ h0
  split
  · rename_i h
    have := congrArg Prod.snd h
    simp only at this
    apply mem_emit_of_mem
    apply mem_emit_of_mem
    rw [← this]
    exact h1
  · rename_i h
    have := congrArg Prod.snd h
    simp only at this
    rw [← this]
    exact h1

theorem wait_server (env : Env) (f : AuthFlow) (state verifier : String) (w : World) :
    (Login.wait env f state verifier w).2.1.server = f.server := by
  unfold Login.wait
  split <;> rfl

/-- The trace of a `Login` that got past the generators: the listener was started,
and the last two effects are the entry into `stopCallbackServer` and the
shutdown of the server. -/
theorem login_trace_ends_with_stop (env : Env) (f : AuthFlow) (w : World) (verifier state : String)
    (hv : env.GenerateCodeVerifier = .ok verifier) (hs : env.GenerateState = .ok state) :
    ∃ before : List Effect,
      (Login env f w).2.2.trace = before ++ [Effect.call "stopCallbackServer", Effect.shutdown] ∧
      Effect.listen (":" ++ getCallbackPort env f) ∈ before := by
  unfold Login
  simp only [hv, hs]
  refine ⟨(Login.wait env
      (Login.announce env f (buildAuthURL f (env.GenerateCodeChallenge verifier) state) w).1
      state verifier
      (Login.announce env f (buildAuthURL f (env.GenerateCodeChallenge verifier) state) w).2).2.2.trace,
    ?_, wait_mem _ _ _ _ _ _ (announce_listens env f _ w)⟩
  unfold stopCallbackServer
  simp only [wait_server, announce_server, World.emit, List.append_assoc, List.singleton_append]

/-- The `select` of `Login` when nothing is delivered on the fresh channel before
the cancellation, the timer, or the end of the events. -/
theorem wait_without_callback (env : Env) (f : AuthFlow) (state verifier : String) (w : World)
    (hfresh : f.callbackChan = { buf := [], closed := false }) (rest : List LoginEvent) :
    Login.wait { env with events := .cancel :: rest } f state verifier w =
        (some "login canceled", f, w) ∧
      Login.wait { env with events := .timeout :: rest } f state verifier w =
        (some "login timeout", f, w) ∧
      Login.wait { env with events := [] } f state verifier w = (some "login timeout", f, w) := by
  obtain ⟨cfg, storage, ch, server⟩ := f
  simp only at hfresh
  subst hfresh
  refine ⟨?_, ?_, ?_⟩ <;> simp [Login.wait, awaitCallback, chanRecv]

theorem login_of_wait (env : Env) (f : AuthFlow) (w : World) (verifier state err : String)
    (hv : env.GenerateCodeVerifier = .ok verifier) (hs : env.GenerateState = .ok state)
    (hwait : ∀ (f1 : AuthFlow) (w1 : World), f1.callbackChan = f.callbackChan →
      Login.wait env f1 state verifier w1 = (some err, f1, w1)) :
    (Login env f w).1 = some err ∧ tracePosts (Login env f w).2.2.trace = tracePosts w.trace := by
  unfold Login
  simp only [hv, hs]
  rw [hwait _ _ (announce_chan env f _ w)]
  simp only [stopCallbackServer_posts, announce_posts, and_self]

/-- C23: once `Login` is past the generators, whatever happens while it waits
(a code that is exchanged with or without success, a cancellation, the
timer), the listener was started and the last thing `Login` does is to run
`stopCallbackServer`, which shuts the server down.  When the cancellation
comes before any redirect `Login` returns `login canceled`, when the timer
fires first (or nothing ever happens) it returns `login timeout`, and in
neither case is anything posted to the token endpoint. -/
theorem login_always_stops_server (env : Env) (f : AuthFlow) (w : World) (verifier state : String)
    (rest : List LoginEvent)
    (hv : env.GenerateCodeVerifier = .ok verifier) (hs : env.GenerateState = .ok state)
    (hfresh : f.callbackChan = { buf := [], closed := false }) :
    (∀ events : List LoginEvent, ∃ before : List Effect,
      (Login { env with events := events } f w).2.2.trace =
        before ++ [Effect.call "stopCallbackServer", Effect.shutdown] ∧
      Effect.listen (":" ++ getCallbackPort env f) ∈ before) ∧
    ((Login { env with events := .cancel :: rest } f w).1 = some "login canceled" ∧
      tracePosts (Login { env with events := .cancel :: rest } f w).2.2.trace =
        tracePosts w.trace) ∧
    ((Login { env with events := .timeout :: rest } f w).1 = some "login timeout" ∧
      tracePosts (Login { env with events := .timeout :: rest } f w).2.2.trace =
        tracePosts w.trace) ∧
    ((Login { env with events := [] } f w).1 = some "login timeout" ∧
      tracePosts (Login { env with events := [] } f w).2.2.trace = tracePosts w.trace) := by
  refine ⟨?_, ?_, ?_, ?_⟩
  · intro events
    exact login_trace_ends_with_stop { env with events := events } f w verifier state hv hs
  · exact login_of_wait { env with events := .cancel :: rest } f w verifier state _ hv hs
      (fun f1 w1 h1 => (wait_without_callback env f1 state verifier w1 (h1.trans hfresh) rest).1)
  · exact login_of_wait { env with events := .timeout :: rest } f w verifier state _ hv hs
      (fun f1 w1 h1 => (wait_without_callback env f1 state verifier w1 (h1.trans hfresh) rest).2.1)
  · exact login_of_wait { env with events := [] } f w verifier state _ hv hs
      (fun f1 w1 h1 => (wait_without_callback env f1 state verifier w1 (h1.trans hfresh) rest).2.2)

theorem login_always_stops_server_witness :
    (∀ events : List LoginEvent, ∃ before : List Effect,
      (Login { exampleEnv 0 [] (200, tokenBody) [.callback goodCallback] with events := events }
          exampleFlow emptyWorld).2.2.trace =
        before ++ [Effect.call "stopCallbackServer", Effect.shutdown] ∧
      Effect.listen (":" ++ getCallbackPort
          (exampleEnv 0 [] (200, tokenBody) [.callback goodCallback]) exampleFlow) ∈ before) ∧
    ((Login { exampleEnv 0 [] (200, tokenBody) [.callback goodCallback] with
          events := .cancel :: [.callback goodCallback] } exampleFlow emptyWorld).1 =
        some "login canceled" ∧
      tracePosts (Login { exampleEnv 0 [] (200, tokenBody) [.callback goodCallback] with
          events := .cancel :: [.callback goodCallback] } exampleFlow emptyWorld).2.2.trace =
        tracePosts emptyWorld.trace) ∧
    ((Login { exampleEnv 0 [] (200, tokenBody) [.callback goodCallback] with
          events := .timeout :: [.callback goodCallback] } exampleFlow emptyWorld).1 =
        some "login timeout" ∧
      tracePosts (Login { exampleEnv 0 [] (200, tokenBody) [.callback goodCallback] with
          events := .timeout :: [.callback goodCallback] } exampleFlow emptyWorld).2.2.trace =
        tracePosts emptyWorld.trace) ∧
    ((Login { exampleEnv 0 [] (200, tokenBody) [.callback goodCallback] with events := [] }
          exampleFlow emptyWorld).1 = some "login timeout" ∧
      tracePosts (Login { exampleEnv 0 [] (200, tokenBody) [.callback goodCallback] with
          events := [] } exampleFlow emptyWorld).2.2.trace = tracePosts emptyWorld.trace) :=
  login_always_stops_server (exampleEnv 0 [] (200, tokenBody) [.callback goodCallback]) exampleFlow
    emptyWorld "verifier-1" "state-1" [.callback goodCallback] rfl rfl rfl

/-! ### Redirects after the first valid one -/

/-- C22, counterexample: after `Login` has taken the code of a first valid redirect
from the channel, a second valid redirect is answered with 200 and the success
page, which its client receives, and its code is put on the channel. -/
theorem second_callback_gets_success_page :
    (awaitCallback "state-1" [.callback goodCallback] exampleFlow.callbackChan emptyWorld).1 =
        WaitResult.code "abc123" ∧
      handleCallback "state-1" secondCallback
          (awaitCallback "state-1" [.callback goodCallback] exampleFlow.callbackChan
            emptyWorld).2.1 =
        { status := 200, contentType := "text/html", body := successPage, outcome := .returned,
          chan := { buf := ["xyz789"], closed := false } } ∧
      (handleCallback "state-1" secondCallback
          (awaitCallback "state-1" [.callback goodCallback] exampleFlow.callbackChan
            emptyWorld).2.1).received = some (200, "text/html", successPage) := by
  decide

/-- What a request gets, whatever state earlier requests left the channel in: its
client receives a response exactly when the channel is open and, for a valid
request, the buffer is empty; the buffer changes only when a valid request
finds the channel open and empty, and then it holds the code of that request. -/
theorem handleCallback_on_any_channel (state : String) (r : CallbackRequest) (ch : CallbackChan) :
    ((handleCallback state r ch).received.isSome = true ↔
      ch.closed = false ∧
        (queryGet r "error" = "" ∧ queryGet r "state" = state ∧ queryGet r "code" ≠ "" →
          ch.buf = [])) ∧
      (handleCallback state r ch).chan.buf =
        if (queryGet r "error" = "" ∧ queryGet r "state" = state ∧ queryGet r "code" ≠ "") ∧
            ch.closed = false ∧ ch.buf = [] then [queryGet r "code"]
        else ch.buf := by
  obtain ⟨buf, closed⟩ := ch
  by_cases he : queryGet r "error" = ""
  · by_cases hs : queryGet r "state" = state
    · by_cases hc : queryGet r "code" = ""
      · cases closed <;>
          simp [handleCallback, rejectCallback, HandlerResult.received, he, hs, hc]
      · cases closed <;> cases buf <;>
          simp [handleCallback, HandlerResult.received, he, hs, hc]
    · cases closed <;> simp [handleCallback, rejectCallback, HandlerResult.received, he, hs]
  · cases closed <;> simp [handleCallback, rejectCallback, HandlerResult.received, he]

/-- C22, amended: the listener keeps serving, and what a request gets depends
only on the state of the channel.  When a valid redirect is the first thing to
arrive, `Login` takes its code, leaves the channel open and empty, and posts
one code exchange, with that code, whatever arrives later.  The next request
is then handled like a first one: a valid one is answered with 200 and the
success page and its code is put into the buffer, any other is answered with
400 and closes the channel.  In any state of the channel, the client of a
request receives a response exactly when the channel is open and, for a valid
request, the buffer is empty, and only such a valid request puts a code on the
channel. -/
theorem listener_serves_later_callbacks (env : Env) (f : AuthFlow) (w : World)
    (verifier state : String) (r1 later : CallbackRequest) (rest : List LoginEvent)
    (ch : CallbackChan)
    (hv : env.GenerateCodeVerifier = .ok verifier) (hst : env.GenerateState = .ok state)
    (hev : env.events = .callback r1 :: rest)
    (hfresh : f.callbackChan = { buf := [], closed := false })
    (he1 : queryGet r1 "error" = "") (hs1 : queryGet r1 "state" = state)
    (hc1 : queryGet r1 "code" ≠ "") :
    awaitCallback state env.events f.callbackChan w =
        (.code (queryGet r1 "code"), { buf := [], closed := false },
          w.emit (.handled 200 "text/html" successPage .returned)) ∧
      tracePosts (Login env f w).2.2.trace =
        tracePosts w.trace ++
          [(HubSpotTokenURL, Url.Values.Encode (exchangeForm f (queryGet r1 "code") verifier))] ∧
      (if queryGet later "error" = "" ∧ queryGet later "state" = state ∧
          queryGet later "code" ≠ "" then
        handleCallback state later (awaitCallback state env.events f.callbackChan w).2.1 =
            { status := 200, contentType := "text/html", body := successPage,
              outcome := .returned,
              chan := { buf := [queryGet later "code"], closed := false } } ∧
          (handleCallback state later
              (awaitCallback state env.events f.callbackChan w).2.1).received =
            some (200, "text/html", successPage)
      else
        (handleCallback state later
              (awaitCallback state env.events f.callbackChan w).2.1).received =
            some (400, "text/plain; charset=utf-8",
              (handleCallback state later { buf := [], closed := false }).body) ∧
          (handleCallback state later (awaitCallback state env.events f.callbackChan w).2.1).chan =
            { buf := [], closed := true }) ∧
      ((handleCallback state later ch).received.isSome = true ↔
        ch.closed = false ∧
          (queryGet later "error" = "" ∧ queryGet later "state" = state ∧
            queryGet later "code" ≠ "" → ch.buf = [])) ∧
      (handleCallback state later ch).chan.buf =
        if (queryGet later "error" = "" ∧ queryGet later "state" = state ∧
            queryGet later "code" ≠ "") ∧ ch.closed = false ∧ ch.buf = [] then
          [queryGet later "code"]
        else ch.buf := by
  have h1 := awaitCallback_valid_first state r1 rest w he1 hs1 hc1
  have h2 := handleCallback_on_fresh_channel state later
  have hwait : awaitCallback state env.events f.callbackChan w =
      (.code (queryGet r1 "code"), { buf := [], closed := false },
        w.emit (.handled 200 "text/html" successPage .returned)) := by
    rw [hev, hfresh, h1]
  refine ⟨hwait,
    login_posts_valid env f w verifier state r1 rest hv hst hev hfresh he1 hs1 hc1, ?_,
    handleCallback_on_any_channel state later ch⟩
  rw [hwait]
  by_cases hval : queryGet later "error" = "" ∧ queryGet later "state" = state ∧
      queryGet later "code" ≠ ""
  · rw [if_pos hval] at h2 ⊢
    rw [h2]
    exact ⟨rfl, rfl⟩
  · rw [if_neg hval] at h2 ⊢
    obtain ⟨hstatus, hct, hout, hchan⟩ := h2
    refine ⟨?_, hchan⟩
    simp only [HandlerResult.received, hout, hstatus, hct]

theorem listener_serves_later_callbacks_witness :
    awaitCallback "state-1"
          (exampleEnv 0 [] (200, tokenBody) [.callback goodCallback, .callback secondCallback]).events
          exampleFlow.callbackChan emptyWorld =
        (.code (queryGet goodCallback "code"), { buf := [], closed := false },
          emptyWorld.emit (.handled 200 "text/html" successPage .returned)) ∧
      tracePosts (Login (exampleEnv 0 [] (200, tokenBody)
          [.callback goodCallback, .callback secondCallback]) exampleFlow emptyWorld).2.2.trace =
        tracePosts emptyWorld.trace ++
          [(HubSpotTokenURL,
            Url.Values.Encode (exchangeForm exampleFlow (queryGet goodCallback "code")
              "verifier-1"))] ∧
      (if queryGet secondCallback "error" = "" ∧ queryGet secondCallback "state" = "state-1" ∧
          queryGet secondCallback "code" ≠ "" then
        handleCallback "state-1" secondCallback
            (awaitCallback "state-1"
              (exampleEnv 0 [] (200, tokenBody)
                [.callback goodCallback, .callback secondCallback]).events
              exampleFlow.callbackChan emptyWorld).2.1 =
            { status := 200, contentType := "text/html", body := successPage,
              outcome := .returned,
              chan := { buf := [queryGet secondCallback "code"], closed := false } } ∧
          (handleCallback "state-1" secondCallback
              (awaitCallback "state-1"
                (exampleEnv 0 [] (200, tokenBody)
                  [.callback goodCallback, .callback secondCallback]).events
                exampleFlow.callbackChan emptyWorld).2.1).received =
            some (200, "text/html", successPage)
      else
        (handleCallback "state-1" secondCallback
              (awaitCallback "state-1"
                (exampleEnv 0 [] (200, tokenBody)
                  [.callback goodCallback, .callback secondCallback]).events
                exampleFlow.callbackChan emptyWorld).2.1).received =
            some (400, "text/plain; charset=utf-8",
              (handleCallback "state-1" secondCallback { buf := [], closed := false }).body) ∧
          (handleCallback "state-1" secondCallback
              (awaitCallback "state-1"
                (exampleEnv 0 [] (200, tokenBody)
                  [.callback goodCallback, .callback secondCallback]).events
                exampleFlow.callbackChan emptyWorld).2.1).chan =
            { buf := [], closed := true }) ∧
      ((handleCallback "state-1" secondCallback { buf := ["xyz789"], closed := false }).received.isSome
          = true ↔
        ({ buf := ["xyz789"], closed := false } : CallbackChan).closed = false ∧
          (queryGet secondCallback "error" = "" ∧ queryGet secondCallback "state" = "state-1" ∧
            queryGet secondCallback "code" ≠ "" →
            ({ buf := ["xyz789"], closed := false } : CallbackChan).buf = [])) ∧
      (handleCallback "state-1" secondCallback { buf := ["xyz789"], closed := false }).chan.buf =
        if (queryGet secondCallback "error" = "" ∧ queryGet secondCallback "state" = "state-1" ∧
            queryGet secondCallback "code" ≠ "") ∧
            ({ buf := ["xyz789"], closed := false } : CallbackChan).closed = false ∧
            ({ buf := ["xyz789"], closed := false } : CallbackChan).buf = [] then
          [queryGet secondCallback "code"]
        else ({ buf := ["xyz789"], closed := false } : CallbackChan).buf :=
  listener_serves_later_callbacks
    (exampleEnv 0 [] (200, tokenBody) [.callback goodCallback, .callback secondCallback])
    exampleFlow emptyWorld "verifier-1" "state-1" goodCallback secondCallback
    [.callback secondCallback] { buf := ["xyz789"], closed := false }
    rfl rfl rfl rfl (by decide) (by decide) (by decide)

/-! ### The registry of the subprocess client in every reachable state -/

namespace Subprocess

theorem pending_readLine (unmarshal : String → Option JSONRPCResponse) (c c1 : Client)
    (line : String) (hp : Pending c) (h : readLine unmarshal c line = some c1) : Pending c1 := by
  cases hu : unmarshal line with
  | none =>
    rw [readLine_malformed unmarshal c line hu] at h
    cases h
    exact hp
  | some r =>
    cases hg : mapGet c.responses r.ID with
    | none =>
      simp only [readLine, hu, hg, Option.some.injEq] at h
      subst h
      exact hp
    | some ch =>
      rw [readLine_deliver unmarshal c line r ch hp hu hg] at h
      cases h
      exact pending_after_deliver c r ch hp (mem_of_mapGet hg)

theorem readLine_isSome (unmarshal : String → Option JSONRPCResponse) (c : Client) (line : String)
    (hp : Pending c) : (readLine unmarshal c line).isSome = true := by
  cases hu : unmarshal line with
  | none => rw [readLine_malformed unmarshal c line hu]; rfl
  | some r =>
    cases hg : mapGet c.responses r.ID with
    | none => simp [readLine, hu, hg]
    | some ch => rw [readLine_deliver unmarshal c line r ch hp hu hg]; rfl

theorem readResponses_isSome (unmarshal : String → Option JSONRPCResponse) (lines : List String) :
    ∀ c : Client, Pending c → (readResponses.loop unmarshal c lines).isSome = true := by
  induction lines with
  | nil => intro c _; rfl
  | cons line rest ih =>
    intro c hp
    have h1 := readLine_isSome unmarshal c line hp
    cases hl : readLine unmarshal c line with
    | none => rw [hl] at h1; cases h1
    | some c1 =>
      simp only [readResponses.loop, hl]
      exact ih c1 (pending_readLine unmarshal c c1 line hp hl)

theorem pending_await (c c1 : Client) (responseChan : Nat) (r : Except String RawMessage)
    (hp : Pending c) (h : Call.await c responseChan = some (r, c1)) : Pending c1 := by
  unfold Call.await at h
  cases hs : slot c.chans responseChan with
  | none => simp [hs] at h
  | some response =>
    simp only [hs, Option.some.injEq, Prod.mk.injEq] at h
    obtain ⟨-, h2⟩ := h
    subst h2
    refine ⟨hp.1, hp.2.1, ?_⟩
    intro e he
    have hempty := hp.2.2 e he
    have hne : responseChan ≠ e.2 := by
      intro heq
      rw [heq] at hs
      simp [slot, hempty] at hs
    simp only
    rw [List.getElem?_set_ne hne]
    exact hempty

theorem pending_of_reachable {c : Client} (h : Reachable c) : Pending c := by
  induction h with
  | init => exact pending_newClient
  | call id marshal write method params _ ih =>
    exact pending_call_start id marshal write _ method params ih
  | read unmarshal line _ hstep ih => exact pending_readLine unmarshal _ _ line ih hstep
  | receive responseChan r _ hstep ih => exact pending_await _ _ responseChan r ih hstep
  | close _ ih => exact ih

theorem readLine_keeps_unregistered (unmarshal : String → Option JSONRPCResponse) (c c1 : Client)
    (line id : String) (h : readLine unmarshal c line = some c1)
    (hid : id ∉ c.responses.map Prod.fst) : id ∉ c1.responses.map Prod.fst := by
  unfold readLine at h
  cases hu : unmarshal line with
  | none =>
    simp only [hu, Option.some.injEq] at h
    subst h
    exact hid
  | some r =>
    simp only [hu] at h
    cases hg : mapGet c.responses r.ID with
    | none =>
      simp only [hg, Option.some.injEq] at h
      subst h
      exact hid
    | some ch =>
      simp only [hg] at h
      cases hsend : chanSend c.chans ch r with
      | none => simp [hsend] at h
      | some chans =>
        simp only [hsend, Option.some.injEq] at h
        subst h
        intro hmem
        exact hid ((List.Sublist.map _ (List.filter_sublist _)).subset hmem)

theorem readLine_unregisters (unmarshal : String → Option JSONRPCResponse) (c c1 : Client)
    (line : String) (r : JSONRPCResponse) (hu : unmarshal line = some r)
    (h : readLine unmarshal c line = some c1) : r.ID ∉ c1.responses.map Prod.fst := by
  unfold readLine at h
  simp only [hu] at h
  cases hg : mapGet c.responses r.ID with
  | none =>
    simp only [hg, Option.some.injEq] at h
    subst h
    intro hmem
    obtain ⟨ch, hch⟩ := mapGet_isSome_of_mem_keys hmem
    rw [hg] at hch
    cases hch
  | some ch =>
    simp only [hg] at h
    cases hsend : chanSend c.chans ch r with
    | none => simp [hsend] at h
    | some chans =>
      simp only [hsend, Option.some.injEq] at h
      subst h
      simp [mapDelete]

theorem readResponses_drops_unregistered (unmarshal : String → Option JSONRPCResponse)
    (id : String) (lines : List String) :
    ∀ c : Client, id ∉ c.responses.map Prod.fst →
      readResponses.loop unmarshal c lines =
        readResponses.loop unmarshal c
          (lines.filter (fun l => decide ((unmarshal l).map (fun r => r.ID) ≠ some id))) := by
  induction lines with
  | nil => intro c _; rfl
  | cons line rest ih =>
    intro c hid
    by_cases hl : (unmarshal line).map (fun r => r.ID) = some id
    · have hf : (line :: rest).filter
          (fun l => decide ((unmarshal l).map (fun r => r.ID) ≠ some id)) =
          rest.filter (fun l => decide ((unmarshal l).map (fun r => r.ID) ≠ some id)) := by
        have hd : decide ((unmarshal line).map (fun r => r.ID) ≠ some id) = false :=
          decide_eq_false (not_not.mpr hl)
        rw [List.filter_cons, hd]
        rfl
      rw [hf, ← ih c hid]
      cases hu : unmarshal line with
      | none => simp [hu] at hl
      | some r =>
        have hr : r.ID = id := by simpa [hu] using hl
        have hg : mapGet c.responses r.ID = none :=
          mapGet_eq_none_of_not_mem_keys (by rw [hr]; exact hid)
        simp [readResponses.loop, readLine, hu, hg]
    · have hf : (line :: rest).filter
          (fun l => decide ((unmarshal l).map (fun r => r.ID) ≠ some id)) =
          line :: rest.filter (fun l => decide ((unmarshal l).map (fun r => r.ID) ≠ some id)) := by
        have hd : decide ((unmarshal line).map (fun r => r.ID) ≠ some id) = true :=
          decide_eq_true hl
        rw [List.filter_cons, hd]
        rfl
      rw [hf]
      simp only [readResponses.loop]
      cases hstep : readLine unmarshal c line with
      | none => rfl
      | some c1 =>
        exact ih c1 (readLine_keeps_unregistered unmarshal c c1 line id hstep hid)

end Subprocess

namespace Subprocess

/-- C25: in every reachable state of the subprocess client the registry is one of
pending calls, so the channel of each registered id is empty; hence no run of
the reader ever blocks on a delivery, whatever the child writes, and once the
reader has handled a response, every later response with the same id is
dropped: the run over the later tokens is the run over those tokens without
the responses of that id, also when the tokens are those of a whole output of
the child. -/
theorem registered_slots_stay_empty (c : Client) (hr : Reachable c)
    (unmarshal : String → Option JSONRPCResponse) (line : String) (r : JSONRPCResponse)
    (hu : unmarshal line = some r) (later : List String) :
    Pending c ∧
      (∀ e ∈ c.responses, c.chans[e.2]? = some none ∧ slot c.chans e.2 = none) ∧
      (∀ (u : String → Option JSONRPCResponse) (lines : List String),
        (readResponses.loop u c lines).isSome = true) ∧
      (∀ (u : String → Option JSONRPCResponse) (stdout : List String),
        (readResponses u c stdout).isSome = true) ∧
      readResponses.loop unmarshal c (line :: later) =
        readResponses.loop unmarshal c
          (line :: later.filter (fun l => decide ((unmarshal l).map (fun x => x.ID) ≠ some r.ID))) ∧
      (∀ stdout : List String, scanTokens stdout = line :: later →
        readResponses unmarshal c stdout =
          readResponses.loop unmarshal c
            (line :: later.filter
              (fun l => decide ((unmarshal l).map (fun x => x.ID) ≠ some r.ID)))) := by
  have hp := pending_of_reachable hr
  have hrun : readResponses.loop unmarshal c (line :: later) =
      readResponses.loop unmarshal c
        (line :: later.filter
          (fun l => decide ((unmarshal l).map (fun x => x.ID) ≠ some r.ID))) := by
    simp only [readResponses.loop]
    cases hstep : readLine unmarshal c line with
    | none => rfl
    | some c1 =>
      exact readResponses_drops_unregistered unmarshal r.ID later c1
        (readLine_unregisters unmarshal c c1 line r hu hstep)
  refine ⟨hp, ?_, fun u lines => readResponses_isSome u lines c hp,
    fun u stdout => readResponses_isSome u (scanTokens stdout) c hp, hrun, ?_⟩
  · intro e he
    have h := hp.2.2 e he
    exact ⟨h, by simp [slot, h]⟩
  · intro stdout hs
    unfold readResponses
    rw [hs]
    exact hrun

theorem registered_slots_stay_empty_witness :
    Pending onePending ∧
      (∀ e ∈ onePending.responses,
        onePending.chans[e.2]? = some none ∧ slot onePending.chans e.2 = none) ∧
      (∀ (u : String → Option JSONRPCResponse) (lines : List String),
        (readResponses.loop u onePending lines).isSome = true) ∧
      (∀ (u : String → Option JSONRPCResponse) (stdout : List String),
        (readResponses u onePending stdout).isSome = true) ∧
      readResponses.loop exampleUnmarshal onePending (lineA :: [lineA, lineB]) =
        readResponses.loop exampleUnmarshal onePending
          (lineA :: [lineA, lineB].filter
            (fun l => decide ((exampleUnmarshal l).map (fun x => x.ID) ≠ some respA.ID))) ∧
      (∀ stdout : List String, scanTokens stdout = lineA :: [lineA, lineB] →
        readResponses exampleUnmarshal onePending stdout =
          readResponses.loop exampleUnmarshal onePending
            (lineA :: [lineA, lineB].filter
              (fun l => decide ((exampleUnmarshal l).map (fun x => x.ID) ≠ some respA.ID)))) :=
  registered_slots_stay_empty onePending
    (Reachable.call "a" exampleMarshal writeOk "tools/list" () Reachable.init)
    exampleUnmarshal lineA respA rfl [lineA, lineB]

end Subprocess

/-! ### The loop of the MCP server -/

namespace McpServer

theorem handleToolsCall_sends {I Args : Type} (env : Env I Args) (s : Server I) (id : I)
    (params : RawMessage) :
    ∃ result err, handleToolsCall env s id params = sendResponse env s id result err := by
  unfold handleToolsCall
  split
  · exact ⟨_, _, rfl⟩
  · split
    · exact ⟨_, _, rfl⟩
    · split
      · exact ⟨_, _, rfl⟩
      · exact ⟨_, _, rfl⟩

/-- A line that parses is answered by one call of `sendResponse` with the id of the
request. -/
theorem handleLine_sends {I Args : Type} (env : Env I Args) (s : Server I) (line : String)
    (request : MCPRequest I) (hp : env.unmarshalRequest line = .ok request) :
    ∃ result err, handleLine env s line = sendResponse env s request.ID result err := by
  unfold handleLine
  simp only [hp]
  split
  · exact ⟨_, _, rfl⟩
  · split
    · exact ⟨_, _, rfl⟩
    · split
      · exact handleToolsCall_sends env s request.ID request.Params
      · exact ⟨_, _, rfl⟩

theorem handleLine_ids {I Args : Type} (env : Env I Args) (s : Server I) (line : String) :
    (handleLine env s line).sent.map (fun r => r.ID) =
        s.sent.map (fun r => r.ID) ++ requestIds env [line] ∧
      (handleLine env s line).sent.map (fun r => r.JSONRPC) =
        s.sent.map (fun r => r.JSONRPC) ++ (requestIds env [line]).map (fun _ => "2.0") ∧
      (handleLine env s line).stdout.length = s.stdout.length + (requestIds env [line]).length := by
  cases hp : env.unmarshalRequest line with
  | error e => simp [handleLine, requestIds, hp]
  | ok request =>
    obtain ⟨result, err, h⟩ := handleLine_sends env s line request hp
    rw [h]
    simp [sendResponse, requestIds, hp]

theorem requestIds_cons {I Args : Type} (env : Env I Args) (line : String) (rest : List String) :
    requestIds env (line :: rest) = requestIds env [line] ++ requestIds env rest := by
  unfold requestIds
  rw [← List.filterMap_append]
  rfl

theorem start_ids {I Args : Type} (env : Env I Args) (lines : List String) :
    ∀ s : Server I,
      (Start.loop env s lines).sent.map (fun r => r.ID) =
          s.sent.map (fun r => r.ID) ++ requestIds env lines ∧
        (Start.loop env s lines).sent.map (fun r => r.JSONRPC) =
          s.sent.map (fun r => r.JSONRPC) ++ (requestIds env lines).map (fun _ => "2.0") ∧
        (Start.loop env s lines).stdout.length = s.stdout.length + (requestIds env lines).length := by
  induction lines with
  | nil => intro s; simp [Start.loop, requestIds]
  | cons line rest ih =>
    intro s
    obtain ⟨h1, h2, h3⟩ := ih (handleLine env s line)
    obtain ⟨g1, g2, g3⟩ := handleLine_ids env s line
    simp only [Start.loop]
    rw [h1, h2, h3, g1, g2, g3, requestIds_cons env line rest]
    simp only [List.append_assoc, List.map_append, List.length_append, true_and]
    omega

theorem start_append {I Args : Type} (env : Env I Args) (xs ys : List String) :
    ∀ s : Server I, Start.loop env s (xs ++ ys) = Start.loop env (Start.loop env s xs) ys := by
  induction xs with
  | nil => intro s; rfl
  | cons x xs ih => intro s; exact ih (handleLine env s x)

end McpServer

namespace McpServer

theorem scanErr_skip (xs ys : List String) (m : String)
    (hfit : m.utf8ByteSize < MaxScanTokenSize) :
    scanErr (xs ++ m :: ys) = scanErr (xs ++ ys) := by
  induction xs with
  | nil => simp [scanErr, hfit]
  | cons x xs ih =>
    by_cases hx : x.utf8ByteSize < MaxScanTokenSize
    · simp [scanErr, hx, ih]
    · simp [scanErr, hx]

theorem loop_skip {I Args : Type} (env : Env I Args) (xs ys : List String) (bad e : String)
    (hfit : bad.utf8ByteSize < MaxScanTokenSize)
    (hb : env.unmarshalRequest (dropCR bad) = .error e) :
    ∀ s : Server I,
      Start.loop env s (scanTokens (xs ++ bad :: ys)) = Start.loop env s (scanTokens (xs ++ ys)) := by
  induction xs with
  | nil =>
    intro s
    show Start.loop env s (scanTokens (bad :: ys)) = Start.loop env s (scanTokens ys)
    simp [scanTokens, hfit, Start.loop, handleLine, hb]
  | cons x xs ih =>
    intro s
    by_cases hx : x.utf8ByteSize < MaxScanTokenSize
    · simp only [List.cons_append, scanTokens, hx, if_true, Start.loop]
      exact ih _
    · simp only [List.cons_append, scanTokens, hx, if_false]

/-- C27 (as stated) fails: a request line of more than 64 KiB gets no response and
ends the loop, so the request after it gets none either; `Start` returns the
error of the scanner. -/
theorem long_request_stops_server :
    (∃ request : MCPRequest String,
      wideServerEnv.unmarshalRequest longPing = .ok request ∧ request.ID = "7") ∧
      (∃ request : MCPRequest String,
        wideServerEnv.unmarshalRequest listLine = .ok request ∧ request.ID = "8") ∧
      (Start wideServerEnv freshServer [longPing, listLine]).1 =
        some "bufio.Scanner: token too long" ∧
      (Start wideServerEnv freshServer [longPing, listLine]).2.sent.length = 0 ∧
      (Start wideServerEnv freshServer [longPing, listLine]).2.stdout = [] := by
  have h := scanTokens_append_long [] longPing [listLine] (padded_too_long pingLine)
  have h2 := scanErr_append_long [] longPing [listLine] (padded_too_long pingLine)
  simp only [List.nil_append] at h h2
  have hne : listLine ≠ longPing := by
    intro heq
    have hlen := padded_too_long pingLine
    have hsmall : listLine.utf8ByteSize < MaxScanTokenSize := by decide
    rw [heq] at hsmall
    exact absurd hlen (Nat.not_le.2 hsmall)
  have hping : wideUnmarshalRequest longPing =
      .ok { JSONRPC := "2.0", ID := "7", Method := "ping", Params := none } := by
    unfold wideUnmarshalRequest
    rw [if_pos rfl]
  have hlist : wideUnmarshalRequest listLine =
      .ok { JSONRPC := "2.0", ID := "8", Method := "tools/list", Params := none } := by
    unfold wideUnmarshalRequest
    rw [if_neg hne]
    rfl
  have henv : wideServerEnv.unmarshalRequest = wideUnmarshalRequest := rfl
  rw [henv, hping, hlist]
  simp only [Start, h, h2]
  exact ⟨⟨_, rfl, rfl⟩, ⟨_, rfl, rfl⟩, trivial, rfl, rfl⟩

/-- C27, amended: in the loop of `Start`, a line shorter than 64 KiB that parses as
a request makes the server write exactly one line, the marshalled response with
`jsonrpc` `2.0` and the id the request was decoded with; such a request with a
method other than `initialize`, `tools/list` and `tools/call` is answered with
the error -32601 and the message `Method not found: ` followed by the method; a
line shorter than 64 KiB that does not parse changes nothing and the loop goes
on with the next line; a line of 64 KiB or more gets no response and ends the
loop with the error of the scanner; over a whole input, the ids of the
responses are the ids of the requests among the lines the scanner yields, in
order. -/
theorem server_answers_each_request {I Args : Type} (env : Env I Args) (s : Server I)
    (stdin before after : List String) (line other bad long e : String)
    (request unknown : MCPRequest I)
    (hfit : line.utf8ByteSize < MaxScanTokenSize)
    (hp : env.unmarshalRequest (dropCR line) = .ok request)
    (hfo : other.utf8ByteSize < MaxScanTokenSize)
    (ho : env.unmarshalRequest (dropCR other) = .ok unknown)
    (hm : unknown.Method ≠ "initialize" ∧ unknown.Method ≠ "tools/list" ∧
      unknown.Method ≠ "tools/call")
    (hfb : bad.utf8ByteSize < MaxScanTokenSize)
    (hb : env.unmarshalRequest (dropCR bad) = .error e)
    (hlong : MaxScanTokenSize ≤ long.utf8ByteSize) :
    (∃ resp : MCPResponse I,
      (Start env s [line]).2.sent = s.sent ++ [resp] ∧ resp.JSONRPC = "2.0" ∧
      resp.ID = request.ID ∧
      (Start env s [line]).2.stdout =
        s.stdout ++
          [(match env.marshalResponse resp with
            | .ok data => data
            | .error _ => "") ++ "\n"]) ∧
    (Start env s [other]).2.sent =
      s.sent ++
        [{ JSONRPC := "2.0", ID := unknown.ID, Result := none,
           Error := some { Code := -32601, Message := "Method not found: " ++ unknown.Method,
                           Data := none } }] ∧
    Start env s [bad] = (none, s) ∧
    Start env s (before ++ bad :: after) = Start env s (before ++ after) ∧
    (Start env s (before ++ long :: after)).1 = some "bufio.Scanner: token too long" ∧
    (Start env s (before ++ long :: after)).2 = (Start env s before).2 ∧
    (Start env s stdin).2.sent.map (fun r => r.ID) =
      s.sent.map (fun r => r.ID) ++ requestIds env (scanTokens stdin) ∧
    (Start env s stdin).2.sent.map (fun r => r.JSONRPC) =
      s.sent.map (fun r => r.JSONRPC) ++
        (requestIds env (scanTokens stdin)).map (fun _ => "2.0") ∧
    (Start env s stdin).2.stdout.length =
      s.stdout.length + (requestIds env (scanTokens stdin)).length := by
  have hbad : ∀ s1 : Server I, handleLine env s1 (dropCR bad) = s1 := by
    intro s1
    simp [handleLine, hb]
  refine ⟨?_, ?_, ?_, ?_, ?_, ?_, start_ids env (scanTokens stdin) s⟩
  · obtain ⟨result, err, h⟩ := handleLine_sends env s (dropCR line) request hp
    have hs : (Start env s [line]).2 = handleLine env s (dropCR line) := by
      simp [Start, scanTokens, hfit, Start.loop]
    rw [hs, h]
    exact ⟨_, rfl, rfl, rfl, rfl⟩
  · have hs : (Start env s [other]).2 = handleLine env s (dropCR other) := by
      simp [Start, scanTokens, hfo, Start.loop]
    rw [hs]
    simp [handleLine, ho, hm.1, hm.2.1, hm.2.2, sendResponse]
  · simp [Start, scanTokens, scanErr, hfb, Start.loop, hbad]
  · unfold Start
    rw [scanErr_skip before after bad hfb, loop_skip env before after bad e hfb hb s]
  · exact scanErr_append_long before long after hlong
  · unfold Start
    simp only [scanTokens_append_long before long after hlong]

theorem server_answers_each_request_witness :
    (∃ resp : MCPResponse String,
      (Start exampleServerEnv freshServer [listLine]).2.sent = freshServer.sent ++ [resp] ∧
      resp.JSONRPC = "2.0" ∧
      resp.ID =
        ({ JSONRPC := "2.0", ID := "8", Method := "tools/list", Params := none } :
          MCPRequest String).ID ∧
      (Start exampleServerEnv freshServer [listLine]).2.stdout =
        freshServer.stdout ++
          [(match exampleServerEnv.marshalResponse resp with
            | .ok data => data
            | .error _ => "") ++ "\n"]) ∧
    (Start exampleServerEnv freshServer [pingLine]).2.sent =
      freshServer.sent ++
        [{ JSONRPC := "2.0",
           ID := ({ JSONRPC := "2.0", ID := "7", Method := "ping", Params := none } :
             MCPRequest String).ID,
           Result := none,
           Error := some
             { Code := -32601,
               Message := "Method not found: " ++
                 ({ JSONRPC := "2.0", ID := "7", Method := "ping", Params := none } :
                   MCPRequest String).Method,
               Data := none } }] ∧
    Start exampleServerEnv freshServer ["not json"] = (none, freshServer) ∧
    Start exampleServerEnv freshServer ([pingLine] ++ "not json" :: [listLine]) =
      Start exampleServerEnv freshServer ([pingLine] ++ [listLine]) ∧
    (Start exampleServerEnv freshServer ([pingLine] ++ longPing :: [listLine])).1 =
      some "bufio.Scanner: token too long" ∧
    (Start exampleServerEnv freshServer ([pingLine] ++ longPing :: [listLine])).2 =
      (Start exampleServerEnv freshServer [pingLine]).2 ∧
    (Start exampleServerEnv freshServer [pingLine, "not json", listLine]).2.sent.map
        (fun r => r.ID) =
      freshServer.sent.map (fun r => r.ID) ++
        requestIds exampleServerEnv (scanTokens [pingLine, "not json", listLine]) ∧
    (Start exampleServerEnv freshServer [pingLine, "not json", listLine]).2.sent.map
        (fun r => r.JSONRPC) =
      freshServer.sent.map (fun r => r.JSONRPC) ++
        (requestIds exampleServerEnv (scanTokens [pingLine, "not json", listLine])).map
          (fun _ => "2.0") ∧
    (Start exampleServerEnv freshServer [pingLine, "not json", listLine]).2.stdout.length =
      freshServer.stdout.length +
        (requestIds exampleServerEnv (scanTokens [pingLine, "not json", listLine])).length :=
  server_answers_each_request exampleServerEnv freshServer [pingLine, "not json", listLine]
    [pingLine] [listLine] listLine pingLine "not json" longPing "invalid character"
    { JSONRPC := "2.0", ID := "8", Method := "tools/list", Params := none }
    { JSONRPC := "2.0", ID := "7", Method := "ping", Params := none }
    (by decide) rfl (by decide) rfl (by decide) (by decide) rfl (padded_too_long pingLine)

end McpServer

end MissionControl
